import Mathlib

/-!
ArasanMmcHostDxe: a shallow embedding of the Arasan SD/MMC host driver

The definitions below follow `Rpi/RPi3Pkg/Drivers/ArasanMmcHostDxe/ArasanMmcHostDxe.c`
function by function.  Machine integers are natural numbers with an explicit
reduction modulo `2 ^ 32` (`UINT32`) or `2 ^ 64` (`UINTN`) wherever a C operation
could leave the range.  The names that the driver takes from its header
(command codes, register bits, retry budget, maximum divisor) are fields of
`Consts`, because the header is not part of the source tree.
-/

namespace ArasanMmcHost

/-! ## Status codes -/

/-- The `EFI_STATUS` values the driver produces or propagates. -/
inductive EFI_STATUS
  | EFI_SUCCESS
  | EFI_INVALID_PARAMETER
  | EFI_UNSUPPORTED
  | EFI_DEVICE_ERROR
  | EFI_TIMEOUT
  deriving DecidableEq, Repr

open EFI_STATUS

/-- The macro `EFI_ERROR (Status)`: true of every status but `EFI_SUCCESS`. -/
def EFI_ERROR : EFI_STATUS → Bool
  | EFI_SUCCESS => false
  | _ => true

/-! ## Header constants -/

/-- The names `ArasanMmcHostDxe.c` takes from its headers.  Generic command
identifiers (`MMC_*`) come from the MMC host protocol, native command codes and
register bits from the controller's register description, and the budgets from
the driver's own header. -/
structure Consts where
  MMC_CMD0 : Nat
  MMC_CMD1 : Nat
  MMC_CMD2 : Nat
  MMC_CMD3 : Nat
  MMC_CMD5 : Nat
  MMC_CMD6 : Nat
  MMC_CMD7 : Nat
  MMC_CMD8 : Nat
  MMC_CMD9 : Nat
  MMC_CMD11 : Nat
  MMC_CMD12 : Nat
  MMC_CMD13 : Nat
  MMC_CMD16 : Nat
  MMC_CMD17 : Nat
  MMC_CMD18 : Nat
  MMC_CMD20 : Nat
  MMC_CMD23 : Nat
  MMC_CMD24 : Nat
  MMC_CMD25 : Nat
  MMC_CMD55 : Nat
  MMC_ACMD22 : Nat
  MMC_ACMD41 : Nat
  MMC_ACMD51 : Nat
  CMD0 : Nat
  CMD1 : Nat
  CMD2 : Nat
  CMD3 : Nat
  CMD5 : Nat
  CMD6 : Nat
  CMD7 : Nat
  CMD8_SD : Nat
  CMD8_SD_ARG : Nat
  CMD8_MMC : Nat
  CMD8_MMC_ARG : Nat
  CMD9 : Nat
  CMD11 : Nat
  CMD12 : Nat
  CMD13 : Nat
  CMD16 : Nat
  CMD17 : Nat
  CMD18 : Nat
  CMD23 : Nat
  CMD24 : Nat
  CMD25 : Nat
  CMD55 : Nat
  ACMD6 : Nat
  ACMD22 : Nat
  ACMD41 : Nat
  ACMD51 : Nat
  CMD_IO_SEND_OP_COND : Nat
  CMD_STOP_TRANSMISSION : Nat
  CMD_SEND_STATUS : Nat
  CMD_R1_ADTC : Nat
  CMD_R1B : Nat
  CMD_TYPE_ABORT : Nat
  TYPE : Nat → Nat
  CMDI_MASK : Nat
  DATI_MASK : Nat
  WRITE_PROTECT_OFF : Nat
  DTO_MASK : Nat
  DTO_VAL : Nat
  CLKD_MASK : Nat
  ICE : Nat
  ICS : Nat
  ICS_MASK : Nat
  CEN : Nat
  SRA : Nat
  SRC : Nat
  SRD : Nat
  ALL_EN : Nat
  CARD_INS : Nat
  CC : Nat
  BRR : Nat
  BWR : Nat
  ERRI : Nat
  MAX_RETRY_COUNT : Nat
  MAX_DIVISOR_VALUE : Nat
  STALL_AFTER_SEND_CMD_US : Nat
  STALL_AFTER_REC_RESP_US : Nat
  STALL_AFTER_WRITE_US : Nat
  STALL_AFTER_READ_US : Nat
  STALL_AFTER_RETRY_US : Nat
  /-- Whether `DEBUG ((DEBUG_ERROR, ...))` evaluates its arguments (a debug
  build with error messages enabled); some of them read registers. -/
  DebugErrorEnabled : Bool
  MMC_RESPONSE_TYPE_R2 : Nat

/-- Modelled from the spec: the header defining `BLEN_512BYTES` is missing; the
spec gives the controller's fixed block size as 512 bytes. -/
def BLEN_512BYTES : Nat := 512

/-! ## Clock divisor -/

/-- What `CalculateClockFrequencyDivisor` leaves behind: the returned status,
the two `OUT` parameters (`none` when the function did not store to them) and
whether `ASSERT (BaseFrequency != 0)` held (`true` when it was not reached). -/
structure ClockDivisorResult where
  Status : EFI_STATUS
  DivisorValue : Option Nat
  ActualFrequency : Option Nat
  AssertHeld : Bool
  deriving DecidableEq, Repr

/-- The local `Divisor` of `CalculateClockFrequencyDivisor` after the round-up
step: `Divisor = BaseFrequency / TargetFrequency; Divisor /= 2;` and the
conditional `Divisor += 1`.  `Divisor` is a `UINT32`, `TargetFrequency` a
`UINTN`. -/
def CalculateClockFrequencyDivisor.rounded (BaseFrequency TargetFrequency : Nat) : Nat :=
  let Divisor := (BaseFrequency / TargetFrequency) % 2 ^ 32
  let Divisor := Divisor / 2
  if TargetFrequency < BaseFrequency ∧
      (TargetFrequency * 2 * Divisor) % 2 ^ 64 ≠ BaseFrequency then
    (Divisor + 1) % 2 ^ 32
  else Divisor

/-- The local `Divisor` of `CalculateClockFrequencyDivisor` after
`if (Divisor > MAX_DIVISOR_VALUE) Divisor = MAX_DIVISOR_VALUE;`. -/
def CalculateClockFrequencyDivisor.clamped (k : Consts)
    (BaseFrequency TargetFrequency : Nat) : Nat :=
  let Divisor := CalculateClockFrequencyDivisor.rounded BaseFrequency TargetFrequency
  if Divisor > k.MAX_DIVISOR_VALUE then k.MAX_DIVISOR_VALUE else Divisor

/-- `CalculateClockFrequencyDivisor`.  `GetClockRate` is the outcome of the
firmware clock service (its status and the `UINT32` it stored in
`BaseFrequency`), `WantActualFrequency` says whether the `ActualFrequency`
pointer is non-null.  The result is `none` when the unsigned division by
`TargetFrequency = 0` traps. -/
def CalculateClockFrequencyDivisor (k : Consts) (GetClockRate : EFI_STATUS × Nat)
    (TargetFrequency : Nat) (WantActualFrequency : Bool) : Option ClockDivisorResult :=
  let Status := GetClockRate.1
  let BaseFrequency := GetClockRate.2
  if EFI_ERROR Status then
    some { Status := Status, DivisorValue := none, ActualFrequency := none, AssertHeld := true }
  else
    let AssertHeld := decide (BaseFrequency ≠ 0)
    if TargetFrequency = 0 then none
    else
      let Divisor := CalculateClockFrequencyDivisor.clamped k BaseFrequency TargetFrequency
      let DivisorValue := ((Divisor &&& 0xFF) <<< 8) % 2 ^ 32
      let Divisor := Divisor >>> 8
      let DivisorValue := DivisorValue ||| (((Divisor &&& 0x03) <<< 6) % 2 ^ 32)
      let ActualFrequency :=
        if WantActualFrequency then
          some (if Divisor = 0 then BaseFrequency else (BaseFrequency / Divisor) >>> 1)
        else none
      some { Status := EFI_SUCCESS, DivisorValue := some DivisorValue,
             ActualFrequency := ActualFrequency, AssertHeld := AssertHeld }

/-- The divisor of the spec before rounding: `floor (floor (base / target) / 2)`. -/
def specDivisorFloor (base target : Nat) : Nat := base / target / 2

/-- The divisor of the spec after the round-up step: one more than the floor when
the target is below the base and `target * 2 * floor` differs from the base. -/
def specDivisorRounded (base target : Nat) : Nat :=
  if target < base ∧ target * 2 * specDivisorFloor base target ≠ base then
    specDivisorFloor base target + 1
  else specDivisorFloor base target

/-- The divisor of the spec after clamping to the maximum divisor. -/
def specDivisor (k : Consts) (base target : Nat) : Nat :=
  min (specDivisorRounded base target) k.MAX_DIVISOR_VALUE

/-- The packing of a divisor in the clock-control layout, as the spec words it:
low 8 bits in bits 15:8, next 2 bits in bits 7:6. -/
def specPackDivisor (D : Nat) : Nat := ((D &&& 0xFF) <<< 8) ||| (((D >>> 8) &&& 0x3) <<< 6)

/-- Reading the two divisor sub-fields back from a clock-control value. -/
def specUnpackDivisor (v : Nat) : Nat := ((v >>> 8) &&& 0xFF) ||| (((v >>> 6) &&& 0x3) <<< 8)

/-! ## Registers and the hardware interface -/

/-- The memory-mapped registers the driver names. -/
inductive Register
  | MMCHS_BLK
  | MMCHS_ARG
  | MMCHS_CMD
  | MMCHS_RSP10
  | MMCHS_RSP32
  | MMCHS_RSP54
  | MMCHS_RSP76
  | MMCHS_DATA
  | MMCHS_PRES_STATE
  | MMCHS_SYSCTL
  | MMCHS_INT_STAT
  | MMCHS_IE
  deriving DecidableEq, Repr

open Register

/-- What the driver does to its surroundings, in order of occurrence. -/
inductive Event
  | read (Reg : Register) (Value : Nat)
  | write (Reg : Register) (Value : Nat)
  | stall (Microseconds : Nat)
  | led (On : Bool)
  | assertFailed
  deriving DecidableEq, Repr

/-- The driver's surroundings.  `LastExecutedCommand` is the driver's global of
that name.  `Mmio n` is the value the hardware presents to the `n`-th
`MmioRead32` performed (any hardware behaviour is some such sequence), `Reads`
counts the reads performed so far and `Trace` lists the events so far, oldest
first. -/
structure World where
  LastExecutedCommand : Nat
  Mmio : Nat → Nat
  Reads : Nat
  Trace : List Event

/-- `MmioRead32 (Register)`: the next 32-bit value the hardware presents. -/
def MmioRead32 (w : World) (Reg : Register) : Nat × World :=
  let Value := w.Mmio w.Reads % 2 ^ 32
  (Value, { w with Reads := w.Reads + 1, Trace := w.Trace ++ [Event.read Reg Value] })

/-- `MmioWrite32 (Register, Value)`. -/
def MmioWrite32 (w : World) (Reg : Register) (Value : Nat) : World :=
  { w with Trace := w.Trace ++ [Event.write Reg Value] }

/-- `MmioOr32 (Register, OrData)`: read, or, write back. -/
def MmioOr32 (w : World) (Reg : Register) (OrData : Nat) : World :=
  let r := MmioRead32 w Reg
  MmioWrite32 r.2 Reg (r.1 ||| OrData)

/-- `MmioAndThenOr32 (Register, AndData, OrData)`: read, and, or, write back. -/
def MmioAndThenOr32 (w : World) (Reg : Register) (AndData OrData : Nat) : World :=
  let r := MmioRead32 w Reg
  MmioWrite32 r.2 Reg ((r.1 &&& AndData) ||| OrData)

/-- `gBS->Stall (Microseconds)`. -/
def Stall (w : World) (Microseconds : Nat) : World :=
  { w with Trace := w.Trace ++ [Event.stall Microseconds] }

/-- `ASSERT (Condition)`: a failed assertion is recorded and execution goes on,
as in a build whose assertions do not halt. -/
def ASSERT (w : World) (Condition : Bool) : World :=
  if Condition then w else { w with Trace := w.Trace ++ [Event.assertFailed] }

/-- The 32-bit complement `(UINT32) ~x`. -/
def not32 (x : Nat) : Nat := 0xFFFFFFFF ^^^ (x % 2 ^ 32)

/-- The events a run from `w` to `w'` added to the trace. -/
def eventsSince (w w' : World) : List Event := w'.Trace.drop w.Trace.length

/-- Whether an event is a register write. -/
def Event.isWrite : Event → Bool
  | Event.write _ _ => true
  | _ => false

/-- Whether an event is a register read or write. -/
def Event.isAccess : Event → Bool
  | Event.read _ _ => true
  | Event.write _ _ => true
  | _ => false

/-- Whether an event is polling traffic: anything but a write to a register
other than the system-control and interrupt-status registers, and no failed
assertion. -/
def Event.isPolling : Event → Bool
  | Event.read _ _ => true
  | Event.stall _ => true
  | Event.write Register.MMCHS_SYSCTL _ => true
  | Event.write Register.MMCHS_INT_STAT _ => true
  | _ => false

/-! ## Command translation -/

/-- `IgnoreCommand`: the optional SD commands the driver skips. -/
def IgnoreCommand (k : Consts) (Command : Nat) : Bool :=
  if Command = k.MMC_CMD20 then true else false

/-- `TranslateCommand`, with the global `LastExecutedCommand` as an argument.
The first component is the returned `Translation`; the second tells whether the
`ASSERT` on the path taken held (`true` when none was reached).  The `switch`
statements are rendered as chains of comparisons in the order of the `case`
labels. -/
def TranslateCommand (k : Consts) (LastExecutedCommand Command Argument : Nat) : Nat × Bool :=
  let Translation := 0xffffffff
  if LastExecutedCommand = k.CMD55 then
    if Command = k.MMC_CMD6 then (k.ACMD6, true)
    else if Command = k.MMC_ACMD22 then (k.ACMD22, true)
    else if Command = k.MMC_ACMD41 then (k.ACMD41, true)
    else if Command = k.MMC_ACMD51 then (k.ACMD51, true)
    else (Translation, true)
  else
    if Command = k.MMC_CMD0 then (k.CMD0, true)
    else if Command = k.MMC_CMD1 then (k.CMD1, true)
    else if Command = k.MMC_CMD2 then (k.CMD2, true)
    else if Command = k.MMC_CMD3 then (k.CMD3, true)
    else if Command = k.MMC_CMD5 then (k.CMD5, true)
    else if Command = k.MMC_CMD6 then (k.CMD6, true)
    else if Command = k.MMC_CMD7 then (k.CMD7, true)
    else if Command = k.MMC_CMD8 then
      if Argument = k.CMD8_SD_ARG then (k.CMD8_SD, true)
      else (k.CMD8_MMC, decide (Argument = k.CMD8_MMC_ARG))
    else if Command = k.MMC_CMD9 then (k.CMD9, true)
    else if Command = k.MMC_CMD11 then (k.CMD11, true)
    else if Command = k.MMC_CMD12 then (k.CMD12, true)
    else if Command = k.MMC_CMD13 then (k.CMD13, true)
    else if Command = k.MMC_CMD16 then (k.CMD16, true)
    else if Command = k.MMC_CMD17 then (k.CMD17, true)
    else if Command = k.MMC_CMD18 then (k.CMD18, true)
    else if Command = k.MMC_CMD23 then (k.CMD23, true)
    else if Command = k.MMC_CMD24 then (k.CMD24, true)
    else if Command = k.MMC_CMD25 then (k.CMD25, true)
    else if Command = k.MMC_CMD55 then (k.CMD55, true)
    else (Translation, true)

/-- The `case` labels of the standard-command `switch`, in source order. -/
def standardLabels (k : Consts) : List Nat :=
  [k.MMC_CMD0, k.MMC_CMD1, k.MMC_CMD2, k.MMC_CMD3, k.MMC_CMD5, k.MMC_CMD6, k.MMC_CMD7,
   k.MMC_CMD8, k.MMC_CMD9, k.MMC_CMD11, k.MMC_CMD12, k.MMC_CMD13, k.MMC_CMD16, k.MMC_CMD17,
   k.MMC_CMD18, k.MMC_CMD23, k.MMC_CMD24, k.MMC_CMD25, k.MMC_CMD55]

/-- The `case` labels of the application-command `switch`, in source order. -/
def appLabels (k : Consts) : List Nat :=
  [k.MMC_CMD6, k.MMC_ACMD22, k.MMC_ACMD41, k.MMC_ACMD51]

/-- The native codes the application-command `switch` can assign. -/
def appCodes (k : Consts) : List Nat := [k.ACMD6, k.ACMD22, k.ACMD41, k.ACMD51]

/-- The native codes the standard-command `switch` can assign. -/
def standardCodes (k : Consts) : List Nat :=
  [k.CMD0, k.CMD1, k.CMD2, k.CMD3, k.CMD5, k.CMD6, k.CMD7, k.CMD8_SD, k.CMD8_MMC, k.CMD9,
   k.CMD11, k.CMD12, k.CMD13, k.CMD16, k.CMD17, k.CMD18, k.CMD23, k.CMD24, k.CMD25, k.CMD55]

/-- The standard-command `switch` of `TranslateCommand` as a table: each `case`
label with the `Translation` assigned under it, in source order. -/
def standardTable (k : Consts) (Argument : Nat) : List (Nat × Nat) :=
  [(k.MMC_CMD0, k.CMD0), (k.MMC_CMD1, k.CMD1), (k.MMC_CMD2, k.CMD2), (k.MMC_CMD3, k.CMD3),
   (k.MMC_CMD5, k.CMD5), (k.MMC_CMD6, k.CMD6), (k.MMC_CMD7, k.CMD7),
   (k.MMC_CMD8, if Argument = k.CMD8_SD_ARG then k.CMD8_SD else k.CMD8_MMC),
   (k.MMC_CMD9, k.CMD9), (k.MMC_CMD11, k.CMD11), (k.MMC_CMD12, k.CMD12),
   (k.MMC_CMD13, k.CMD13), (k.MMC_CMD16, k.CMD16), (k.MMC_CMD17, k.CMD17),
   (k.MMC_CMD18, k.CMD18), (k.MMC_CMD23, k.CMD23), (k.MMC_CMD24, k.CMD24),
   (k.MMC_CMD25, k.CMD25), (k.MMC_CMD55, k.CMD55)]

/-! ## Polling and soft reset -/

/-- The `while (RetryCount < MAX_RETRY_COUNT)` loop of `PollRegisterWithMask`.
`Remaining` is `MAX_RETRY_COUNT - RetryCount`, the number of iterations the loop
condition still allows; the result is `RetryCount` at loop exit. -/
def PollRegisterWithMask.loop (k : Consts) (Reg : Register) (Mask ExpectedValue : Nat) :
    (Remaining : Nat) → (RetryCount : Nat) → World → Nat × World
  | 0, RetryCount, w => (RetryCount, w)
  | Remaining + 1, RetryCount, w =>
    let r := MmioRead32 w Reg
    if r.1 &&& Mask ≠ ExpectedValue then
      PollRegisterWithMask.loop k Reg Mask ExpectedValue Remaining (RetryCount + 1)
        (Stall r.2 k.STALL_AFTER_RETRY_US)
    else (RetryCount, r.2)

/-- `PollRegisterWithMask`. -/
def PollRegisterWithMask (k : Consts) (w : World) (Reg : Register) (Mask ExpectedValue : Nat) :
    EFI_STATUS × World :=
  let r := PollRegisterWithMask.loop k Reg Mask ExpectedValue k.MAX_RETRY_COUNT 0 w
  if r.1 = k.MAX_RETRY_COUNT then (EFI_TIMEOUT, r.2) else (EFI_SUCCESS, r.2)

/-- `SoftReset`. -/
def SoftReset (k : Consts) (w : World) (Mask : Nat) : EFI_STATUS × World :=
  let w1 := MmioOr32 w MMCHS_SYSCTL Mask
  let r := PollRegisterWithMask k w1 MMCHS_SYSCTL Mask 0
  if r.1 = EFI_TIMEOUT then (EFI_TIMEOUT, r.2) else (EFI_SUCCESS, r.2)

/-! ## Command dispatch -/

/-- How the command-status loop of `MMCSendCommand` was left. -/
inductive StatusLoopExit
  | error
  | finished (RetryCount : Nat)
  deriving DecidableEq, Repr

/-- The `while (RetryCount < MAX_RETRY_COUNT)` loop of `MMCSendCommand` that
waits for the command status.  `Remaining` is `MAX_RETRY_COUNT - RetryCount`.
`error` is the `goto Exit` of the `ERRI` branch (after the soft reset),
`finished` carries `RetryCount` at the `break` or at the end of the loop. -/
def MMCSendCommand.statusLoop (k : Consts) :
    (Remaining : Nat) → (RetryCount : Nat) → World → StatusLoopExit × World
  | 0, RetryCount, w => (StatusLoopExit.finished RetryCount, w)
  | Remaining + 1, RetryCount, w =>
    let r := MmioRead32 w MMCHS_INT_STAT
    let MmcStatus := r.1
    if MmcStatus &&& k.ERRI ≠ 0 then
      (StatusLoopExit.error, (SoftReset k r.2 k.SRC).2)
    else if MmcStatus &&& k.CC = k.CC then
      (StatusLoopExit.finished RetryCount, MmioWrite32 r.2 MMCHS_INT_STAT k.CC)
    else
      MMCSendCommand.statusLoop k Remaining (RetryCount + 1) (Stall r.2 k.STALL_AFTER_RETRY_US)

/-- The `Exit:` label of `MMCSendCommand`. -/
def MMCSendCommand.Exit (w : World) (Status : EFI_STATUS) (MmcCmd : Nat) : EFI_STATUS × World :=
  if EFI_ERROR Status then (Status, { w with LastExecutedCommand := 0xFFFFFFFF })
  else (Status, { w with LastExecutedCommand := MmcCmd })

/-- The register reads in the arguments of a `DEBUG ((DEBUG_ERROR, ...))`
message, performed in argument order and only when such messages are evaluated. -/
def debugReads (k : Consts) (w : World) (Regs : List Register) : World :=
  if k.DebugErrorEnabled then Regs.foldl (fun w Reg => (MmioRead32 w Reg).2) w else w

/-- The block-size programming of `MMCSendCommand`: the chain
`if (IsAppCmd && MmcCmd == ACMD22) ... else if (IsADTCCmd) ...` on the native
command code `MmcCmd`. -/
def MMCSendCommand.setBlockSize (k : Consts) (w : World) (IsAppCmd IsADTCCmd : Bool)
    (MmcCmd : Nat) : World :=
  if IsAppCmd && decide (MmcCmd = k.ACMD22) then MmioWrite32 w MMCHS_BLK 4
  else if IsAppCmd && decide (MmcCmd = k.ACMD51) then MmioWrite32 w MMCHS_BLK 8
  else if !IsAppCmd && decide (MmcCmd = k.CMD6) then MmioWrite32 w MMCHS_BLK 64
  else if IsADTCCmd then MmioWrite32 w MMCHS_BLK BLEN_512BYTES
  else w

/-- `MMCSendCommand` from the classification of the native command code
`MmcCmd` to the `Exit` label: readiness poll, register programming, dispatch and
the wait for the command status.  `IsAppCmd` is the flag computed on entry. -/
def MMCSendCommand.dispatch (k : Consts) (w : World) (IsAppCmd : Bool) (MmcCmd Argument : Nat) :
    EFI_STATUS × World :=
  let IsADTCCmd := decide (MmcCmd &&& k.CMD_R1_ADTC = k.CMD_R1_ADTC)
  let IsDATCmd :=
    (decide (MmcCmd &&& k.CMD_R1B = k.CMD_R1B) &&
        decide (MmcCmd &&& k.TYPE k.CMD_TYPE_ABORT ≠ k.TYPE k.CMD_TYPE_ABORT)) ||
      IsADTCCmd || decide (MmcCmd = k.CMD_SEND_STATUS)
  let CmdSendOKMask := if IsDATCmd then k.CMDI_MASK ||| k.DATI_MASK else k.CMDI_MASK
  let p := PollRegisterWithMask k w MMCHS_PRES_STATE CmdSendOKMask 0
  if p.1 = EFI_TIMEOUT then
    MMCSendCommand.Exit (debugReads k p.2 [MMCHS_PRES_STATE, MMCHS_INT_STAT]) EFI_TIMEOUT MmcCmd
  else
    let w := MMCSendCommand.setBlockSize k p.2 IsAppCmd IsADTCCmd MmcCmd
    let w := MmioAndThenOr32 w MMCHS_SYSCTL (not32 k.DTO_MASK) k.DTO_VAL
    let w := MmioWrite32 w MMCHS_INT_STAT (k.ALL_EN &&& not32 k.CARD_INS)
    let w := MmioWrite32 w MMCHS_ARG Argument
    let w := MmioWrite32 w MMCHS_CMD MmcCmd
    let l := MMCSendCommand.statusLoop k k.MAX_RETRY_COUNT 0 w
    match l.1 with
    | StatusLoopExit.error => MMCSendCommand.Exit l.2 EFI_DEVICE_ERROR MmcCmd
    | StatusLoopExit.finished RetryCount =>
      let w := Stall l.2 k.STALL_AFTER_SEND_CMD_US
      if RetryCount = k.MAX_RETRY_COUNT then
        MMCSendCommand.Exit (debugReads k w [MMCHS_PRES_STATE]) EFI_TIMEOUT MmcCmd
      else MMCSendCommand.Exit w EFI_SUCCESS MmcCmd

/-- `MMCSendCommand`.  `MmcCmd` is the generic command on entry; the `ASSERT`
inside `TranslateCommand` is recorded when the translation returns. -/
def MMCSendCommand (k : Consts) (w : World) (MmcCmd Argument : Nat) : EFI_STATUS × World :=
  let IsAppCmd := decide (w.LastExecutedCommand = k.CMD55)
  if IgnoreCommand k MmcCmd then (EFI_SUCCESS, w)
  else
    let t := TranslateCommand k w.LastExecutedCommand MmcCmd Argument
    let w := ASSERT w t.2
    let MmcCmd := t.1
    if MmcCmd = 0xffffffff then (EFI_UNSUPPORTED, w)
    else MMCSendCommand.dispatch k w IsAppCmd MmcCmd Argument

/-- A run from `w` to `w'` only appended events to the trace, all of them
satisfying `P`. -/
def Appended (P : Event → Prop) (w w' : World) : Prop :=
  ∃ evs, w'.Trace = w.Trace ++ evs ∧ ∀ e ∈ evs, P e

/-- The readiness mask `CmdSendOKMask` that `MMCSendCommand` computes for the
native command code `MmcCmd`: `CMDI_MASK`, with `DATI_MASK` when `IsDATCmd`. -/
def MMCSendCommand.CmdSendOKMask (k : Consts) (MmcCmd : Nat) : Nat :=
  let IsADTCCmd := decide (MmcCmd &&& k.CMD_R1_ADTC = k.CMD_R1_ADTC)
  let IsDATCmd :=
    (decide (MmcCmd &&& k.CMD_R1B = k.CMD_R1B) &&
        decide (MmcCmd &&& k.TYPE k.CMD_TYPE_ABORT ≠ k.TYPE k.CMD_TYPE_ABORT)) ||
      IsADTCCmd || decide (MmcCmd = k.CMD_SEND_STATUS)
  if IsDATCmd then k.CMDI_MASK ||| k.DATI_MASK else k.CMDI_MASK

/-- The world of `MMCSendCommand` right after the write of the command register:
from the world `w` left by the readiness poll, the block-size step, the data
timeout, the clearing of the interrupt status, the argument and the command. -/
def MMCSendCommand.programmed (k : Consts) (w : World) (IsAppCmd : Bool)
    (MmcCmd Argument : Nat) : World :=
  let IsADTCCmd := decide (MmcCmd &&& k.CMD_R1_ADTC = k.CMD_R1_ADTC)
  let w := MMCSendCommand.setBlockSize k w IsAppCmd IsADTCCmd MmcCmd
  let w := MmioAndThenOr32 w MMCHS_SYSCTL (not32 k.DTO_MASK) k.DTO_VAL
  let w := MmioWrite32 w MMCHS_INT_STAT (k.ALL_EN &&& not32 k.CARD_INS)
  let w := MmioWrite32 w MMCHS_ARG Argument
  MmioWrite32 w MMCHS_CMD MmcCmd

/-- `MMCSendCommand` from the world `w` right after the write of the command
register: the wait for the command status, the settle delay and the `Exit`
label. -/
def MMCSendCommand.complete (k : Consts) (w : World) (MmcCmd : Nat) : EFI_STATUS × World :=
  let l := MMCSendCommand.statusLoop k k.MAX_RETRY_COUNT 0 w
  match l.1 with
  | StatusLoopExit.error => MMCSendCommand.Exit l.2 EFI_DEVICE_ERROR MmcCmd
  | StatusLoopExit.finished RetryCount =>
    let w := Stall l.2 k.STALL_AFTER_SEND_CMD_US
    if RetryCount = k.MAX_RETRY_COUNT then
      MMCSendCommand.Exit (debugReads k w [MMCHS_PRES_STATE]) EFI_TIMEOUT MmcCmd
    else MMCSendCommand.Exit w EFI_SUCCESS MmcCmd

/-! ## Polling, as the spec words it -/

/-- Among the `n` register reads that follow position `start` of the hardware
sequence, the index of the first one whose 32-bit value satisfies `P`. -/
def firstRead (P : Nat → Bool) (Mmio : Nat → Nat) : (n : Nat) → (start : Nat) → Option Nat
  | 0, _ => none
  | n + 1, start =>
    if P (Mmio start % 2 ^ 32) then some 0
    else (firstRead P Mmio n (start + 1)).map (fun j => j + 1)

/-- The world after `j` unsuccessful polls of `Reg`: each is a read of `Reg`
followed by the retry stall. -/
def failedPolls (k : Consts) (Reg : Register) : (j : Nat) → World → World
  | 0, w => w
  | j + 1, w => failedPolls k Reg j (Stall (MmioRead32 w Reg).2 k.STALL_AFTER_RETRY_US)

/-- The events of `j` unsuccessful polls of `Reg` that start at position `start`
of the hardware sequence. -/
def failedPollEvents (k : Consts) (Reg : Register) (Mmio : Nat → Nat) :
    (start : Nat) → (j : Nat) → List Event
  | _, 0 => []
  | start, j + 1 =>
    Event.read Reg (Mmio start % 2 ^ 32) :: Event.stall k.STALL_AFTER_RETRY_US ::
      failedPollEvents k Reg Mmio (start + 1) j

/-- Whether an event is a write to the register `Reg`. -/
def Event.isWriteTo (Reg : Register) : Event → Bool
  | Event.write r _ => decide (r = Reg)
  | _ => false

/-- Whether an event is a read of the register `Reg`. -/
def Event.isReadOf (Reg : Register) : Event → Bool
  | Event.read r _ => decide (r = Reg)
  | _ => false

/-! ## Block data transfer -/

/-- `mFwProtocol->SetLed (On)`. -/
def SetLed (w : World) (On : Bool) : World :=
  { w with Trace := w.Trace ++ [Event.led On] }

/-- The loop `for (Count = 0; Count < BlockLen; Count += 4, Buffer++)` of
`MMCReadBlockData`, which stores a read of the data register through `Buffer`.
`Words` is its number of iterations, `BlockLen / 4` rounded up; the caller's
buffer is a function from word offsets to words and `Index` is the offset of the
pointer `Buffer` from its start. -/
def MMCReadBlockData.words : (Words : Nat) → World → (Nat → Nat) → (Index : Nat) →
    World × (Nat → Nat)
  | 0, w, Buffer, _ => (w, Buffer)
  | Words + 1, w, Buffer, Index =>
    let r := MmioRead32 w MMCHS_DATA
    MMCReadBlockData.words Words r.2 (fun i => if i = Index then r.1 else Buffer i) (Index + 1)

/-- The inner `while (RetryCount < MAX_RETRY_COUNT)` loop of `MMCReadBlockData`
for one chunk of `BlockLen` bytes.  `Remaining` is `MAX_RETRY_COUNT -
RetryCount`; the result carries `RetryCount` at loop exit. -/
def MMCReadBlockData.poll (k : Consts) (BlockLen : Nat) :
    (Remaining : Nat) → (RetryCount : Nat) → World → (Nat → Nat) → (Index : Nat) →
    Nat × World × (Nat → Nat)
  | 0, RetryCount, w, Buffer, _ => (RetryCount, w, Buffer)
  | Remaining + 1, RetryCount, w, Buffer, Index =>
    let r := MmioRead32 w MMCHS_INT_STAT
    if r.1 &&& k.BRR ≠ 0 then
      let w := MmioWrite32 r.2 MMCHS_INT_STAT k.BRR
      let w := SetLed w true
      let d := MMCReadBlockData.words ((BlockLen + 3) / 4) w Buffer Index
      (RetryCount, SetLed d.1 false, d.2)
    else
      MMCReadBlockData.poll k BlockLen Remaining (RetryCount + 1)
        (Stall r.2 k.STALL_AFTER_RETRY_US) Buffer Index

/-- The outer `while (RemLength != 0)` loop of `MMCReadBlockData`, with the
final clear of `BRR` and the return.  `Fuel` bounds the number of iterations;
`none` stands for running out of it. -/
def MMCReadBlockData.loop (k : Consts) :
    (Fuel : Nat) → (RemLength : Nat) → World → (Nat → Nat) → (Index : Nat) →
    Option (EFI_STATUS × World × (Nat → Nat))
  | 0, _, _, _, _ => none
  | Fuel + 1, RemLength, w, Buffer, Index =>
    if RemLength = 0 then some (EFI_SUCCESS, MmioWrite32 w MMCHS_INT_STAT k.BRR, Buffer)
    else
      let BlockLen := min RemLength BLEN_512BYTES
      let p := MMCReadBlockData.poll k BlockLen k.MAX_RETRY_COUNT 0 w Buffer Index
      if p.1 = k.MAX_RETRY_COUNT then some (EFI_TIMEOUT, p.2.1, p.2.2)
      else
        MMCReadBlockData.loop k Fuel (RemLength - BlockLen)
          (Stall p.2.1 k.STALL_AFTER_READ_US) p.2.2 (Index + (BlockLen + 3) / 4)

/-- `MMCReadBlockData`.  `Buffer` is `none` for a null pointer, else the words
the pointer designates; the result carries the status, the world and those
words afterwards.  Every iteration of the outer loop takes at least one byte
off `RemLength`, so `Length + 1` iterations are never used up. -/
def MMCReadBlockData (k : Consts) (w : World) (_Lba Length : Nat) (Buffer : Option (Nat → Nat)) :
    Option (EFI_STATUS × World × Option (Nat → Nat)) :=
  match Buffer with
  | none => some (EFI_INVALID_PARAMETER, w, none)
  | some B =>
    if Length % 4 ≠ 0 then some (EFI_INVALID_PARAMETER, w, some B)
    else
      (MMCReadBlockData.loop k (Length + 1) Length w B 0).map
        (fun r => (r.1, r.2.1, some r.2.2))

/-- The loop `for (Count = 0; Count < BlockLen; Count += 4, Buffer++)` of
`MMCWriteBlockData`, which writes `*Buffer` to the data register. -/
def MMCWriteBlockData.words : (Words : Nat) → World → (Nat → Nat) → (Index : Nat) → World
  | 0, w, _, _ => w
  | Words + 1, w, Buffer, Index =>
    MMCWriteBlockData.words Words (MmioWrite32 w MMCHS_DATA (Buffer Index % 2 ^ 32)) Buffer
      (Index + 1)

/-- The inner `while (RetryCount < MAX_RETRY_COUNT)` loop of `MMCWriteBlockData`
for one chunk of `BlockLen` bytes. -/
def MMCWriteBlockData.poll (k : Consts) (BlockLen : Nat) (Buffer : Nat → Nat) (Index : Nat) :
    (Remaining : Nat) → (RetryCount : Nat) → World → Nat × World
  | 0, RetryCount, w => (RetryCount, w)
  | Remaining + 1, RetryCount, w =>
    let r := MmioRead32 w MMCHS_INT_STAT
    if r.1 &&& k.BWR ≠ 0 then
      let w := MmioWrite32 r.2 MMCHS_INT_STAT k.BWR
      let w := SetLed w true
      let w := MMCWriteBlockData.words ((BlockLen + 3) / 4) w Buffer Index
      (RetryCount, SetLed w false)
    else
      MMCWriteBlockData.poll k BlockLen Buffer Index Remaining (RetryCount + 1)
        (Stall r.2 k.STALL_AFTER_RETRY_US)

/-- The outer `while (RemLength != 0)` loop of `MMCWriteBlockData`, with the
final clear of `BWR` and the return. -/
def MMCWriteBlockData.loop (k : Consts) (Buffer : Nat → Nat) :
    (Fuel : Nat) → (RemLength : Nat) → World → (Index : Nat) → Option (EFI_STATUS × World)
  | 0, _, _, _ => none
  | Fuel + 1, RemLength, w, Index =>
    if RemLength = 0 then some (EFI_SUCCESS, MmioWrite32 w MMCHS_INT_STAT k.BWR)
    else
      let BlockLen := min RemLength BLEN_512BYTES
      let p := MMCWriteBlockData.poll k BlockLen Buffer Index k.MAX_RETRY_COUNT 0 w
      if p.1 = k.MAX_RETRY_COUNT then some (EFI_TIMEOUT, p.2)
      else
        MMCWriteBlockData.loop k Buffer Fuel (RemLength - BlockLen)
          (Stall p.2 k.STALL_AFTER_WRITE_US) (Index + (BlockLen + 3) / 4)

/-- `MMCWriteBlockData`.  The code never stores through `Buffer`, so the result
carries the status and the world only. -/
def MMCWriteBlockData (k : Consts) (w : World) (_Lba Length : Nat) (Buffer : Option (Nat → Nat)) :
    Option (EFI_STATUS × World) :=
  match Buffer with
  | none => some (EFI_INVALID_PARAMETER, w)
  | some B =>
    if Length % 4 ≠ 0 then some (EFI_INVALID_PARAMETER, w)
    else MMCWriteBlockData.loop k B (Length + 1) Length w 0

/-! ## Block reads, as the spec words them -/

/-- The chunks of a transfer of `N` bytes: chunks of 512 bytes and, when `N` is
not a multiple of 512, a last one of `N mod 512` bytes. -/
def chunkLengths (N : Nat) : List Nat :=
  List.replicate (N / 512) 512 ++ (if N % 512 = 0 then [] else [N % 512])

/-- A chunk that was transferred: the position in the hardware sequence of its
first readiness poll, the number of polls that did not show readiness, and its
length in bytes. -/
structure ChunkRun where
  start : Nat
  polls : Nat
  bytes : Nat
  deriving DecidableEq, Repr

/-- The chunks of a read that get transferred, from the hardware sequence: a
chunk is transferred when one of the `MAX_RETRY_COUNT` polls allowed shows
`BRR`, and the next chunk starts after its data reads; the first chunk whose
polls all fail ends the list. -/
def readRuns (k : Consts) (Mmio : Nat → Nat) : (Lengths : List Nat) → (start : Nat) →
    List ChunkRun
  | [], _ => []
  | L :: rest, start =>
    match firstRead (fun v => decide (v &&& k.BRR ≠ 0)) Mmio k.MAX_RETRY_COUNT start with
    | none => []
    | some j =>
      { start := start, polls := j, bytes := L } ::
        readRuns k Mmio rest (start + j + 1 + (L + 3) / 4)

/-- The reads of the data register for `n` words from position `start`. -/
def dataReadEvents (Mmio : Nat → Nat) : (start : Nat) → (n : Nat) → List Event
  | _, 0 => []
  | start, n + 1 =>
    Event.read Register.MMCHS_DATA (Mmio start % 2 ^ 32) :: dataReadEvents Mmio (start + 1) n

/-- The events of a transferred chunk of a read: the unsuccessful polls, the read
that shows `BRR`, the clear of `BRR`, the indicator on, the data reads, the
indicator off and the delay after the chunk. -/
def ChunkRun.readEvents (k : Consts) (Mmio : Nat → Nat) (c : ChunkRun) : List Event :=
  failedPollEvents k Register.MMCHS_INT_STAT Mmio c.start c.polls ++
    [Event.read Register.MMCHS_INT_STAT (Mmio (c.start + c.polls) % 2 ^ 32),
     Event.write Register.MMCHS_INT_STAT k.BRR, Event.led true] ++
    dataReadEvents Mmio (c.start + c.polls + 1) ((c.bytes + 3) / 4) ++
    [Event.led false, Event.stall k.STALL_AFTER_READ_US]

/-- The position in the hardware sequence after the chunks `runs`, from `start`. -/
def runsEnd : (start : Nat) → List ChunkRun → Nat
  | start, [] => start
  | _, c :: rest => runsEnd (c.start + c.polls + 1 + (c.bytes + 3) / 4) rest

/-- The events of the transferred chunks `runs`, in order. -/
def readRunsEvents (k : Consts) (Mmio : Nat → Nat) : List ChunkRun → List Event
  | [] => []
  | c :: rest => c.readEvents k Mmio ++ readRunsEvents k Mmio rest

/-- The values read from the data register, in order of occurrence. -/
def dataValues (evs : List Event) : List Nat :=
  evs.filterMap (fun e =>
    match e with
    | Event.read Register.MMCHS_DATA v => some v
    | _ => none)

/-- The buffer `Buffer` with the words `Values` stored from offset `Index` on. -/
def storeWords (Buffer : Nat → Nat) (Index : Nat) (Values : List Nat) : Nat → Nat :=
  fun i => if Index ≤ i ∧ i < Index + Values.length then Values.getD (i - Index) 0 else Buffer i

/-! ## Lifecycle notification -/

/-- The values of `MMC_STATE`, a type declared in a header outside the driver's
source, as the `switch` of `MMCNotifyState` tells them apart: the eleven
enumerators it names in `case` labels (which C requires to be distinct) and
`other` for a value that is none of them. -/
inductive MMC_STATE
  | MmcInvalidState
  | MmcHwInitializationState
  | MmcIdleState
  | MmcReadyState
  | MmcIdentificationState
  | MmcStandByState
  | MmcTransferState
  | MmcSendingDataState
  | MmcReceiveDataState
  | MmcProgrammingState
  | MmcDisconnectState
  | other (Value : Nat)
  deriving DecidableEq, Repr

/-- `MmioAnd32 (Register, AndData)`: read, and, write back. -/
def MmioAnd32 (w : World) (Reg : Register) (AndData : Nat) : World :=
  let r := MmioRead32 w Reg
  MmioWrite32 r.2 Reg (r.1 &&& AndData)

/-- The loop `while ((MmioRead32 (MMCHS_SYSCTL) & ICS_MASK) != ICS);` of the
stand-by case.  The source puts no bound on it; `Fuel` bounds the number of
reads, and the result is `none` when the clock has not stabilised by then. -/
def MMCNotifyState.waitStable (k : Consts) : (Fuel : Nat) → World → Option World
  | 0, _ => none
  | Fuel + 1, w =>
    let r := MmioRead32 w MMCHS_SYSCTL
    if r.1 &&& k.ICS_MASK ≠ k.ICS then MMCNotifyState.waitStable k Fuel r.2 else some r.2

/-- `MMCNotifyState`.  `GetClockRate` is the outcome of the firmware clock
service that `CalculateClockFrequencyDivisor` consults, `Fuel` bounds the
stand-by wait.  The result is `none` when that wait does not end within `Fuel`
reads (or a division traps). -/
def MMCNotifyState (k : Consts) (GetClockRate : EFI_STATUS × Nat) (Fuel : Nat) (w : World)
    (State : MMC_STATE) : Option (EFI_STATUS × World) :=
  match State with
  | MMC_STATE.MmcHwInitializationState =>
    let r := SoftReset k w k.SRA
    if EFI_ERROR r.1 then some r
    else
      match CalculateClockFrequencyDivisor k GetClockRate 400000 false with
      | none => none
      | some c =>
        let w := ASSERT r.2 c.AssertHeld
        if EFI_ERROR c.Status then some (c.Status, w)
        else
          let Divisor := c.DivisorValue.getD 0
          let w := MmioOr32 w MMCHS_SYSCTL (k.DTO_VAL ||| Divisor ||| k.CEN ||| k.ICS ||| k.ICE)
          some (EFI_SUCCESS, MmioWrite32 w MMCHS_IE k.ALL_EN)
  | MMC_STATE.MmcIdleState => some (EFI_SUCCESS, w)
  | MMC_STATE.MmcReadyState => some (EFI_SUCCESS, w)
  | MMC_STATE.MmcIdentificationState => some (EFI_SUCCESS, w)
  | MMC_STATE.MmcStandByState =>
    let ClockFrequency := 25000000
    let w := MmioAnd32 w MMCHS_SYSCTL (not32 k.CEN)
    match CalculateClockFrequencyDivisor k GetClockRate ClockFrequency false with
    | none => none
    | some c =>
      let w := ASSERT w c.AssertHeld
      if EFI_ERROR c.Status then some (c.Status, w)
      else
        let Divisor := c.DivisorValue.getD 0
        let w := MmioAndThenOr32 w MMCHS_SYSCTL (not32 k.CLKD_MASK) Divisor
        match MMCNotifyState.waitStable k Fuel w with
        | none => none
        | some w => some (EFI_SUCCESS, MmioOr32 w MMCHS_SYSCTL k.CEN)
  | MMC_STATE.MmcTransferState => some (EFI_SUCCESS, w)
  | MMC_STATE.MmcSendingDataState => some (EFI_SUCCESS, w)
  | MMC_STATE.MmcReceiveDataState => some (EFI_SUCCESS, w)
  | MMC_STATE.MmcProgrammingState => some (EFI_SUCCESS, w)
  | MMC_STATE.MmcDisconnectState => some (EFI_SUCCESS, ASSERT w false)
  | MMC_STATE.MmcInvalidState => some (EFI_SUCCESS, ASSERT w false)
  | MMC_STATE.other _ => some (EFI_SUCCESS, ASSERT w false)

/-! ## Response retrieval -/

/-- The store `Buffer[Index] = Value` to a buffer of 32-bit words. -/
def storeWord (Buffer : Nat → Nat) (Index Value : Nat) : Nat → Nat :=
  fun i => if i = Index then Value else Buffer i

/-- The long-response branch of `MMCReceiveResponse`: the four stores from the
response registers, then the shifts and ors in the order of the source. -/
def MMCReceiveResponse.long (w : World) (Buffer : Nat → Nat) : World × (Nat → Nat) :=
  let r0 := MmioRead32 w MMCHS_RSP10
  let Buffer := storeWord Buffer 0 r0.1
  let r1 := MmioRead32 r0.2 MMCHS_RSP32
  let Buffer := storeWord Buffer 1 r1.1
  let r2 := MmioRead32 r1.2 MMCHS_RSP54
  let Buffer := storeWord Buffer 2 r2.1
  let r3 := MmioRead32 r2.2 MMCHS_RSP76
  let Buffer := storeWord Buffer 3 r3.1
  let Buffer := storeWord Buffer 3 ((Buffer 3 <<< 8) % 2 ^ 32)
  let Buffer := storeWord Buffer 3 (Buffer 3 ||| ((Buffer 2 >>> 24) &&& 0xFF))
  let Buffer := storeWord Buffer 2 ((Buffer 2 <<< 8) % 2 ^ 32)
  let Buffer := storeWord Buffer 2 (Buffer 2 ||| ((Buffer 1 >>> 24) &&& 0xFF))
  let Buffer := storeWord Buffer 1 ((Buffer 1 <<< 8) % 2 ^ 32)
  let Buffer := storeWord Buffer 1 (Buffer 1 ||| ((Buffer 0 >>> 24) &&& 0xFF))
  let Buffer := storeWord Buffer 0 ((Buffer 0 <<< 8) % 2 ^ 32)
  (r3.2, Buffer)

/-- `MMCReceiveResponse`.  `Type_` is the parameter `Type` of the source;
`Buffer` is `none` for a null pointer, through which the first store traps (the
result is then `none`). -/
def MMCReceiveResponse (k : Consts) (w : World) (Type_ : Nat) (Buffer : Option (Nat → Nat)) :
    Option (EFI_STATUS × World × (Nat → Nat)) :=
  match Buffer with
  | none => none
  | some Buffer =>
    let p :=
      if Type_ = k.MMC_RESPONSE_TYPE_R2 then MMCReceiveResponse.long w Buffer
      else
        let r := MmioRead32 w MMCHS_RSP10
        (r.2, storeWord Buffer 0 r.1)
    let w := Stall p.1 k.STALL_AFTER_REC_RESP_US
    if w.LastExecutedCommand = k.CMD_STOP_TRANSMISSION then
      let r := SoftReset k w (k.SRC ||| k.SRD)
      some (r.1, r.2, p.2)
    else some (EFI_SUCCESS, w, p.2)

/-- The long response as the spec words it, a rotation of the four response
registers left by one byte: `Buffer[i] = (Ri << 8) | (R(i-1) >> 24)`
with `R3` wrapping around into `Buffer[0]`, all modulo `2 ^ 32`. -/
def specRotatedResponse (R0 R1 R2 R3 : Nat) : List Nat :=
  [((R0 <<< 8) ||| (R3 >>> 24)) % 2 ^ 32, ((R1 <<< 8) ||| (R0 >>> 24)) % 2 ^ 32,
   ((R2 <<< 8) ||| (R1 >>> 24)) % 2 ^ 32, ((R3 <<< 8) ||| (R2 >>> 24)) % 2 ^ 32]

/-! ## A concrete assignment of the header names -/

/-- The command-index field of a native command code, `INDX (n)`: bits 29:24. -/
def referenceINDX (n : Nat) : Nat := (n &&& 0x3F) <<< 24

/-- A concrete assignment of the header names, in the register layout of the SD
host controller: response type in bits 17:16, the index and CRC checks in
bits 19 and 20, the data-present flag in bit 21, the command type in bits
23:22 and the command index in bits 29:24; generic identifiers are the command
index with the response flags of the MMC host protocol in bits 16 to 18.  It
serves to evaluate the driver on concrete inputs. -/
def referenceConsts : Consts where
  MMC_CMD0 := 0
  MMC_CMD1 := 1 ||| 0x10000 ||| 0x40000
  MMC_CMD2 := 2 ||| 0x10000 ||| 0x20000
  MMC_CMD3 := 3 ||| 0x10000
  MMC_CMD5 := 5 ||| 0x10000 ||| 0x40000
  MMC_CMD6 := 6 ||| 0x10000
  MMC_CMD7 := 7 ||| 0x10000
  MMC_CMD8 := 8 ||| 0x10000
  MMC_CMD9 := 9 ||| 0x10000 ||| 0x20000
  MMC_CMD11 := 11 ||| 0x10000
  MMC_CMD12 := 12 ||| 0x10000
  MMC_CMD13 := 13 ||| 0x10000
  MMC_CMD16 := 16 ||| 0x10000
  MMC_CMD17 := 17 ||| 0x10000
  MMC_CMD18 := 18 ||| 0x10000
  MMC_CMD20 := 20 ||| 0x10000
  MMC_CMD23 := 23 ||| 0x10000
  MMC_CMD24 := 24 ||| 0x10000
  MMC_CMD25 := 25 ||| 0x10000
  MMC_CMD55 := 55 ||| 0x10000
  MMC_ACMD22 := 22 ||| 0x10000
  MMC_ACMD41 := 41 ||| 0x10000 ||| 0x40000
  MMC_ACMD51 := 51 ||| 0x10000
  CMD0 := referenceINDX 0
  CMD1 := referenceINDX 1 ||| 0x020000
  CMD2 := referenceINDX 2 ||| 0x090000
  CMD3 := referenceINDX 3 ||| 0x1A0000
  CMD5 := referenceINDX 5 ||| 0x1B0000
  CMD6 := referenceINDX 6 ||| 0x3A0010
  CMD7 := referenceINDX 7 ||| 0x1B0000
  CMD8_SD := referenceINDX 8 ||| 0x1A0000
  CMD8_SD_ARG := 0x1CE
  CMD8_MMC := referenceINDX 8 ||| 0x3A0010
  CMD8_MMC_ARG := 0
  CMD9 := referenceINDX 9 ||| 0x090000
  CMD11 := referenceINDX 11 ||| 0x1A0000
  CMD12 := (3 <<< 22) ||| referenceINDX 12 ||| 0x1B0000
  CMD13 := referenceINDX 13 ||| 0x1A0000
  CMD16 := referenceINDX 16 ||| 0x1A0000
  CMD17 := referenceINDX 17 ||| 0x3A0010
  CMD18 := referenceINDX 18 ||| 0x3A0010 ||| 0x20
  CMD23 := referenceINDX 23 ||| 0x1A0000
  CMD24 := referenceINDX 24 ||| 0x3A0000
  CMD25 := referenceINDX 25 ||| 0x3A0000 ||| 0x20
  CMD55 := referenceINDX 55 ||| 0x1A0000
  ACMD6 := referenceINDX 6 ||| 0x1A0000
  ACMD22 := referenceINDX 22 ||| 0x3A0010
  ACMD41 := referenceINDX 41 ||| 0x020000
  ACMD51 := referenceINDX 51 ||| 0x3A0010
  CMD_IO_SEND_OP_COND := referenceINDX 5 ||| 0x1B0000
  CMD_STOP_TRANSMISSION := (3 <<< 22) ||| referenceINDX 12 ||| 0x1B0000
  CMD_SEND_STATUS := referenceINDX 13 ||| 0x1A0000
  CMD_R1_ADTC := 0x3A0000
  CMD_R1B := 0x1B0000
  CMD_TYPE_ABORT := 3
  TYPE := fun x => x <<< 22
  CMDI_MASK := 0x1
  DATI_MASK := 0x2
  WRITE_PROTECT_OFF := 0x80000
  DTO_MASK := 0xF <<< 16
  DTO_VAL := 0xE <<< 16
  CLKD_MASK := 0x3FF <<< 6
  ICE := 0x1
  ICS := 0x2
  ICS_MASK := 0x2
  CEN := 0x4
  SRA := 0x1000000
  SRC := 0x2000000
  SRD := 0x4000000
  ALL_EN := 0xFFFFFFFF
  CARD_INS := 0x40
  CC := 0x1
  BRR := 0x20
  BWR := 0x10
  ERRI := 0x8000
  MAX_RETRY_COUNT := 500
  MAX_DIVISOR_VALUE := 1023
  STALL_AFTER_SEND_CMD_US := 200
  STALL_AFTER_REC_RESP_US := 50
  STALL_AFTER_WRITE_US := 200
  STALL_AFTER_READ_US := 20
  STALL_AFTER_RETRY_US := 20
  DebugErrorEnabled := false
  MMC_RESPONSE_TYPE_R2 := 1

/-- The concrete assignment with a retry budget of three polls, for runs that
exhaust the budget. -/
def shortRetryConsts : Consts := { referenceConsts with MAX_RETRY_COUNT := 3 }

/-- A world whose hardware presents the values of `Values` to the successive
register reads and `0` afterwards, with `Last` in `LastExecutedCommand`. -/
def worldOf (Last : Nat) (Values : List Nat) : World where
  LastExecutedCommand := Last
  Mmio := fun n => Values.getD n 0
  Reads := 0
  Trace := []

/-! ## Bit-level lemmas -/

theorem land_255 (x : Nat) : x &&& 255 = x % 256 := Nat.and_pow_two_sub_one_eq_mod x 8

theorem land_3 (x : Nat) : x &&& 3 = x % 4 := Nat.and_pow_two_sub_one_eq_mod x 2

theorem testBit_specUnpackDivisor (v i : Nat) :
    (specUnpackDivisor v).testBit i =
      ((decide (i < 8) && v.testBit (i + 8)) ||
        (decide (8 ≤ i) && decide (i < 10) && v.testBit (i - 2))) := by
  unfold specUnpackDivisor
  rw [land_255, land_3, show (256 : Nat) = 2 ^ 8 by norm_num, show (4 : Nat) = 2 ^ 2 by norm_num]
  simp only [Nat.testBit_or, Nat.testBit_mod_two_pow, Nat.testBit_shiftLeft,
    Nat.testBit_shiftRight]
  by_cases h8 : i < 8
  · have : ¬ (i ≥ 8) := by omega
    simp [h8, this, Nat.add_comm]
  · have h8' : i ≥ 8 := by omega
    by_cases h10 : i < 10
    · have e : 6 + (i - 8) = i - 2 := by omega
      have : i - 8 < 2 := by omega
      simp [h8, h8', h10, e, this]
    · have : ¬ (i - 8 < 2) := by omega
      simp [h8, h8', h10, this]

theorem testBit_specPackDivisor (D j : Nat) :
    (specPackDivisor D).testBit j =
      ((decide (8 ≤ j) && decide (j < 16) && D.testBit (j - 8)) ||
        (decide (6 ≤ j) && decide (j < 8) && D.testBit (j + 2))) := by
  unfold specPackDivisor
  rw [land_255, land_3, show (256 : Nat) = 2 ^ 8 by norm_num, show (4 : Nat) = 2 ^ 2 by norm_num]
  simp only [Nat.testBit_or, Nat.testBit_mod_two_pow, Nat.testBit_shiftLeft,
    Nat.testBit_shiftRight]
  by_cases h6 : 6 ≤ j
  · by_cases h8 : 8 ≤ j
    · have h1 : ¬ (j < 8) := by omega
      have h2 : ¬ (j - 6 < 2) := by omega
      by_cases h16 : j < 16
      · have : j - 8 < 8 := by omega
        simp [h6, h8, h1, h2, h16, this]
      · have : ¬ (j - 8 < 8) := by omega
        simp [h6, h8, h1, h2, h16, this]
    · have h1 : j < 8 := by omega
      have h2 : j - 6 < 2 := by omega
      have e : 8 + (j - 6) = j + 2 := by omega
      simp [h6, h8, h1, h2, e]
  · have h8 : ¬ (8 ≤ j) := by omega
    simp [h6, h8]

theorem specUnpackDivisor_specPackDivisor (D : Nat) (h : D ≤ 1023) :
    specUnpackDivisor (specPackDivisor D) = D := by
  apply Nat.eq_of_testBit_eq
  intro i
  rw [testBit_specUnpackDivisor]
  simp only [testBit_specPackDivisor]
  by_cases h8 : i < 8
  · have a1 : 8 ≤ i + 8 := by omega
    have a2 : i + 8 < 16 := by omega
    have a3 : ¬ (8 ≤ i) := by omega
    simp [h8, a1, a2, a3]
  · by_cases h10 : i < 10
    · have a1 : 8 ≤ i := by omega
      have a2 : ¬ (8 ≤ i - 2) := by omega
      have a3 : 6 ≤ i - 2 := by omega
      have a4 : i - 2 < 8 := by omega
      have a5 : i - 2 + 2 = i := by omega
      simp [h8, h10, a1, a2, a3, a4, a5]
    · have : D < 2 ^ i :=
        lt_of_lt_of_le (by omega : D < 2 ^ 10) (Nat.pow_le_pow_right (by norm_num) (by omega))
      simp [h8, h10, Nat.testBit_lt_two_pow this]

theorem specUnpackDivisor_lor (x y : Nat) :
    specUnpackDivisor (x ||| y) = specUnpackDivisor x ||| specUnpackDivisor y := by
  apply Nat.eq_of_testBit_eq
  intro i
  simp only [testBit_specUnpackDivisor, Nat.testBit_or]
  generalize decide (i < 8) = a
  generalize decide (8 ≤ i) = b
  generalize decide (i < 10) = c
  generalize x.testBit (i + 8) = p
  generalize y.testBit (i + 8) = q
  generalize x.testBit (i - 2) = s
  generalize y.testBit (i - 2) = t
  cases a <;> cases b <;> cases c <;> cases p <;> cases q <;> cases s <;> cases t <;> rfl

theorem specUnpackDivisor_eq_zero (r : Nat) (h : r &&& 0xFFC0 = 0) :
    specUnpackDivisor r = 0 := by
  apply Nat.eq_of_testBit_eq
  intro i
  have key : ∀ j, 6 ≤ j → j < 16 → r.testBit j = false := by
    intro j h6 h16
    have := congrArg (fun x => Nat.testBit x j) h
    simp only [Nat.testBit_and, Nat.zero_testBit] at this
    have hj : Nat.testBit 0xFFC0 j = true := by
      interval_cases j <;> decide
    simpa [hj] using this
  rw [testBit_specUnpackDivisor, Nat.zero_testBit]
  by_cases h8 : i < 8
  · simp [h8, key (i + 8) (by omega) (by omega)]
  · by_cases h10 : i < 10
    · simp [h8, h10, key (i - 2) (by omega) (by omega)]
    · simp [h8, h10]

/-! ## The clock divisor: the code against the spec's formulas -/

theorem rounded_eq_spec (base target : Nat) (hb : base < 2 ^ 32) :
    CalculateClockFrequencyDivisor.rounded base target = specDivisorRounded base target := by
  have h1 : base / target ≤ base := Nat.div_le_self _ _
  have h2 : base / target % 2 ^ 32 = base / target := Nat.mod_eq_of_lt (by omega)
  have h3 : target * 2 * (base / target / 2) ≤ base := by
    calc target * 2 * (base / target / 2) = target * (2 * (base / target / 2)) := by ring
      _ ≤ target * (base / target) := Nat.mul_le_mul_left _ (Nat.mul_div_le _ _)
      _ ≤ base := Nat.mul_div_le _ _
  have h4 : target * 2 * (base / target / 2) % 2 ^ 64 = target * 2 * (base / target / 2) :=
    Nat.mod_eq_of_lt (by omega)
  have h5 : (base / target / 2 + 1) % 2 ^ 32 = base / target / 2 + 1 :=
    Nat.mod_eq_of_lt (by omega)
  simp only [CalculateClockFrequencyDivisor.rounded, specDivisorRounded, specDivisorFloor,
    h2, h4, h5]

theorem clamped_eq_spec (k : Consts) (base target : Nat) (hb : base < 2 ^ 32) :
    CalculateClockFrequencyDivisor.clamped k base target = specDivisor k base target := by
  simp only [CalculateClockFrequencyDivisor.clamped, specDivisor, rounded_eq_spec base target hb]
  split_ifs with h
  · exact (Nat.min_eq_right (le_of_lt h)).symm
  · exact (Nat.min_eq_left (by omega)).symm

theorem packed_eq_spec (D : Nat) :
    ((D &&& 0xFF) <<< 8) % 2 ^ 32 ||| (((D >>> 8 &&& 0x03) <<< 6) % 2 ^ 32) =
      specPackDivisor D := by
  have h1 : (D &&& 0xFF) <<< 8 < 2 ^ 32 := by
    rw [land_255, Nat.shiftLeft_eq]
    have := Nat.mod_lt D (show 256 > 0 by norm_num)
    omega
  have h2 : (D >>> 8 &&& 0x03) <<< 6 < 2 ^ 32 := by
    rw [land_3, Nat.shiftLeft_eq]
    have := Nat.mod_lt (D >>> 8) (show 4 > 0 by norm_num)
    omega
  rw [Nat.mod_eq_of_lt h1, Nat.mod_eq_of_lt h2]
  rfl

/-- What `CalculateClockFrequencyDivisor` computes when the clock service
succeeds and the target is positive, in the spec's terms: the packed clamped
divisor, and an actual frequency derived from the divisor shifted right by 8. -/
theorem CalculateClockFrequencyDivisor_eq (k : Consts) (Status : EFI_STATUS)
    (base target : Nat) (want : Bool) (hS : EFI_ERROR Status = false)
    (hb : base < 2 ^ 32) (ht : 0 < target) :
    CalculateClockFrequencyDivisor k (Status, base) target want =
      some { Status := EFI_SUCCESS
             DivisorValue := some (specPackDivisor (specDivisor k base target))
             ActualFrequency :=
               if want then
                 some (if specDivisor k base target >>> 8 = 0 then base
                   else (base / (specDivisor k base target >>> 8)) >>> 1)
               else none
             AssertHeld := decide (base ≠ 0) } := by
  have ht0 : target ≠ 0 := by omega
  simp only [CalculateClockFrequencyDivisor, hS, clamped_eq_spec k base target hb,
    packed_eq_spec, ht0]
  simp

theorem specDivisorRounded_bound (base target : Nat) (ht : 0 < target) :
    (specDivisorRounded base target = 0 ∧ base ≤ target) ∨
      (0 < specDivisorRounded base target ∧
        base ≤ target * (2 * specDivisorRounded base target)) := by
  unfold specDivisorRounded specDivisorFloor
  have hq : base < target * (base / target + 1) := Nat.lt_mul_div_succ base ht
  split_ifs with h
  · right
    refine ⟨Nat.succ_pos _, ?_⟩
    have h1 : base / target + 1 ≤ 2 * (base / target / 2 + 1) := by omega
    have h2 := Nat.mul_le_mul_left target h1
    omega
  · by_cases hlt : target < base
    · have he : target * 2 * (base / target / 2) = base := by
        by_contra hne
        exact h ⟨hlt, hne⟩
      right
      constructor
      · rcases Nat.eq_zero_or_pos (base / target / 2) with h0 | h0
        · rw [h0] at he
          omega
        · exact h0
      · rw [← Nat.mul_assoc, he]
    · left
      have h1 : base / target ≤ 1 := by
        rcases Nat.lt_or_ge base target with h2 | h2
        · rw [Nat.div_eq_of_lt h2]
          omega
        · have : base = target := by omega
          rw [this, Nat.div_self ht]
      exact ⟨Nat.div_eq_of_lt (by omega), by omega⟩

/-! ## Claims about the clock divisor -/

/-- C1 (the code at the claim's own examples): with base 51200000 the packed
divisors for the targets 400000 and 25000000 are those of the divisors 64 and 2,
but the actual frequency reported is the base frequency 51200000 in both cases,
not 400000 and 12800000: it is computed from `Divisor` after `Divisor >>= 8`. -/
theorem C1_actual_frequency_at_examples :
    CalculateClockFrequencyDivisor referenceConsts (EFI_SUCCESS, 51200000) 400000 true =
        some { Status := EFI_SUCCESS, DivisorValue := some (64 <<< 8),
               ActualFrequency := some 51200000, AssertHeld := true } ∧
      CalculateClockFrequencyDivisor referenceConsts (EFI_SUCCESS, 51200000) 25000000 true =
        some { Status := EFI_SUCCESS, DivisorValue := some (2 <<< 8),
               ActualFrequency := some 51200000, AssertHeld := true } ∧
      CalculateClockFrequencyDivisor.clamped referenceConsts 51200000 400000 = 64 ∧
      CalculateClockFrequencyDivisor.clamped referenceConsts 51200000 25000000 = 2 := by
  decide

/-- C3: when the clock service succeeds and the target is positive,
`CalculateClockFrequencyDivisor` returns `EFI_SUCCESS` and stores the packed value
`((D & 0xFF) << 8) | (((D >> 8) & 0x3) << 6)` of `D = min (D1, MAX_DIVISOR_VALUE)`,
`D1` the rounded-up `floor (floor (base / target) / 2)`; every bit of it outside
bits 15:6 is zero; and base 51200000 with target 400000 gives `D = 64`, packed
`64 << 8`, whenever the maximum divisor is at least 64. -/
theorem C3_packed_divisor (k : Consts) (Status : EFI_STATUS) (base target : Nat) (want : Bool)
    (hS : EFI_ERROR Status = false) (hb : base < 2 ^ 32) (ht : 0 < target) :
    (∃ r, CalculateClockFrequencyDivisor k (Status, base) target want = some r ∧
        r.Status = EFI_SUCCESS ∧
        r.DivisorValue = some (specPackDivisor (specDivisor k base target))) ∧
      (∀ i, i < 6 ∨ 15 < i → (specPackDivisor (specDivisor k base target)).testBit i = false) ∧
      (64 ≤ k.MAX_DIVISOR_VALUE →
        specDivisor k 51200000 400000 = 64 ∧
          (CalculateClockFrequencyDivisor k (Status, 51200000) 400000 want).map
            (fun r => r.DivisorValue) = some (some (64 <<< 8))) := by
  refine ⟨⟨_, CalculateClockFrequencyDivisor_eq k Status base target want hS hb ht, rfl, rfl⟩,
    ?_, ?_⟩
  · intro i hi
    rw [testBit_specPackDivisor]
    rcases hi with hi | hi
    · have h1 : ¬ (8 ≤ i) := by omega
      have h2 : ¬ (6 ≤ i) := by omega
      simp [h1, h2]
    · have h1 : ¬ (i < 16) := by omega
      have h2 : ¬ (i < 8) := by omega
      simp [h1, h2]
  · intro hmax
    have hD : specDivisor k 51200000 400000 = 64 := by
      have : specDivisorRounded 51200000 400000 = 64 := by decide
      simp only [specDivisor, this]
      exact Nat.min_eq_left hmax
    refine ⟨hD, ?_⟩
    rw [CalculateClockFrequencyDivisor_eq k Status 51200000 400000 want hS (by norm_num)
      (by norm_num), hD]
    rfl

/-- C3 at a concrete input: base 51200000, target 400000, maximum divisor 1023. -/
theorem C3_packed_divisor_witness :
    (∃ r, CalculateClockFrequencyDivisor referenceConsts (EFI_SUCCESS, 51200000) 400000 false =
          some r ∧ r.Status = EFI_SUCCESS ∧
        r.DivisorValue = some (specPackDivisor (specDivisor referenceConsts 51200000 400000))) ∧
      (∀ i, i < 6 ∨ 15 < i →
        (specPackDivisor (specDivisor referenceConsts 51200000 400000)).testBit i = false) ∧
      (64 ≤ referenceConsts.MAX_DIVISOR_VALUE →
        specDivisor referenceConsts 51200000 400000 = 64 ∧
          (CalculateClockFrequencyDivisor referenceConsts (EFI_SUCCESS, 51200000) 400000
            false).map (fun r => r.DivisorValue) = some (some (64 <<< 8))) :=
  C3_packed_divisor referenceConsts EFI_SUCCESS 51200000 400000 false (by decide) (by decide)
    (by decide)

/-- C4: for a base (zero or not) and a positive target whose rounded-up divisor
is not reduced by the clamp, the divisor `D` the code goes on with is either 0,
and then the target is at least the base, or positive, and then the bus frequency
`base / (2 * D)`, as a rational number, is at most the target. -/
theorem C4_round_up_not_faster (k : Consts) (base target : Nat)
    (hb : base < 2 ^ 32) (ht : 0 < target)
    (hclamp : CalculateClockFrequencyDivisor.clamped k base target =
      CalculateClockFrequencyDivisor.rounded base target) :
    (CalculateClockFrequencyDivisor.clamped k base target = 0 ∧ base ≤ target) ∨
      (0 < CalculateClockFrequencyDivisor.clamped k base target ∧
        (base : ℚ) / (2 * (CalculateClockFrequencyDivisor.clamped k base target : ℚ)) ≤
          (target : ℚ)) := by
  rw [hclamp, rounded_eq_spec base target hb]
  rcases specDivisorRounded_bound base target ht with h | ⟨hpos, hle⟩
  · exact Or.inl h
  · right
    refine ⟨hpos, ?_⟩
    have hD : (0 : ℚ) < 2 * (specDivisorRounded base target : ℚ) := by
      have : (0 : ℚ) < (specDivisorRounded base target : ℚ) := by exact_mod_cast hpos
      linarith
    rw [div_le_iff₀ hD]
    exact_mod_cast hle

/-- C4 at a concrete input: base 51200000, target 25000000 (divisor 2, bus at
12800000). -/
theorem C4_round_up_not_faster_witness :
    (CalculateClockFrequencyDivisor.clamped referenceConsts 51200000 25000000 = 0 ∧
        51200000 ≤ 25000000) ∨
      (0 < CalculateClockFrequencyDivisor.clamped referenceConsts 51200000 25000000 ∧
        ((51200000 : Nat) : ℚ) /
            (2 * (CalculateClockFrequencyDivisor.clamped referenceConsts 51200000 25000000 : ℚ)) ≤
          ((25000000 : Nat) : ℚ)) :=
  C4_round_up_not_faster referenceConsts 51200000 25000000 (by decide) (by decide) (by decide)

/-- C5: when the clock service succeeds, the target is positive and the maximum
divisor is at most 1023, reading the two sub-fields back from the packed value
that `CalculateClockFrequencyDivisor` stores yields the clamped divisor
`D = min (D1, MAX_DIVISOR_VALUE)`, which is the code's `Divisor` after the clamp;
the same holds after the packed value is OR-ed into a register value whose bits
15:6 are zero. -/
theorem C5_divisor_round_trip (k : Consts) (Status : EFI_STATUS) (base target : Nat)
    (want : Bool) (hS : EFI_ERROR Status = false) (hb : base < 2 ^ 32) (ht : 0 < target)
    (hmax : k.MAX_DIVISOR_VALUE ≤ 1023) :
    ∃ r packed, CalculateClockFrequencyDivisor k (Status, base) target want = some r ∧
      r.DivisorValue = some packed ∧
      CalculateClockFrequencyDivisor.clamped k base target = specDivisor k base target ∧
      specUnpackDivisor packed = specDivisor k base target ∧
      ∀ reg, reg &&& 0xFFC0 = 0 →
        specUnpackDivisor (reg ||| packed) = specDivisor k base target := by
  have hD : specDivisor k base target ≤ 1023 :=
    le_trans (Nat.min_le_right _ _) hmax
  refine ⟨_, _, CalculateClockFrequencyDivisor_eq k Status base target want hS hb ht, rfl,
    clamped_eq_spec k base target hb, specUnpackDivisor_specPackDivisor _ hD, ?_⟩
  intro reg hreg
  rw [specUnpackDivisor_lor, specUnpackDivisor_eq_zero reg hreg,
    specUnpackDivisor_specPackDivisor _ hD]
  exact Nat.zero_or _

/-- C5 at a concrete input: base 51200000, target 50000 (divisor 512, which uses
the upper sub-field), maximum divisor 1023. -/
theorem C5_divisor_round_trip_witness :
    ∃ r packed,
      CalculateClockFrequencyDivisor referenceConsts (EFI_SUCCESS, 51200000) 50000 false =
        some r ∧
      r.DivisorValue = some packed ∧
      CalculateClockFrequencyDivisor.clamped referenceConsts 51200000 50000 =
        specDivisor referenceConsts 51200000 50000 ∧
      specUnpackDivisor packed = specDivisor referenceConsts 51200000 50000 ∧
      ∀ reg, reg &&& 0xFFC0 = 0 →
        specUnpackDivisor (reg ||| packed) = specDivisor referenceConsts 51200000 50000 :=
  C5_divisor_round_trip referenceConsts EFI_SUCCESS 51200000 50000 false (by decide) (by decide)
    (by decide) (by decide)

/-! ## Traces of the hardware primitives -/

theorem MmioRead32_Trace (w : World) (Reg : Register) :
    (MmioRead32 w Reg).2.Trace = w.Trace ++ [Event.read Reg (MmioRead32 w Reg).1] := rfl

theorem MmioWrite32_Trace (w : World) (Reg : Register) (v : Nat) :
    (MmioWrite32 w Reg v).Trace = w.Trace ++ [Event.write Reg v] := rfl

theorem Stall_Trace (w : World) (us : Nat) :
    (Stall w us).Trace = w.Trace ++ [Event.stall us] := rfl

theorem Appended.refl (P : Event → Prop) (w : World) : Appended P w w :=
  ⟨[], by simp, by simp⟩

theorem Appended.trans {P : Event → Prop} {w1 w2 w3 : World}
    (h12 : Appended P w1 w2) (h23 : Appended P w2 w3) : Appended P w1 w3 := by
  obtain ⟨e1, t1, p1⟩ := h12
  obtain ⟨e2, t2, p2⟩ := h23
  refine ⟨e1 ++ e2, by rw [t2, t1, List.append_assoc], ?_⟩
  intro e he
  rcases List.mem_append.1 he with h | h
  · exact p1 e h
  · exact p2 e h

theorem Appended.mono {P Q : Event → Prop} {w w' : World} (hPQ : ∀ e, P e → Q e)
    (h : Appended P w w') : Appended Q w w' := by
  obtain ⟨evs, t, p⟩ := h
  exact ⟨evs, t, fun e he => hPQ e (p e he)⟩

theorem Appended.one {P : Event → Prop} {w w' : World} (e : Event)
    (h : w'.Trace = w.Trace ++ [e]) (he : P e) : Appended P w w' :=
  ⟨[e], h, by simpa using he⟩

theorem Appended.eventsSince {P : Event → Prop} {w w' : World} (h : Appended P w w') :
    ∀ e ∈ eventsSince w w', P e := by
  obtain ⟨evs, t, p⟩ := h
  intro e he
  unfold ArasanMmcHost.eventsSince at he
  rw [t, List.drop_left] at he
  exact p e he

theorem Appended.read (P : Event → Prop) (w : World) (Reg : Register)
    (h : ∀ v, P (Event.read Reg v)) : Appended P w (MmioRead32 w Reg).2 :=
  Appended.one _ (MmioRead32_Trace w Reg) (h _)

theorem Appended.write (P : Event → Prop) (w : World) (Reg : Register) (v : Nat)
    (h : P (Event.write Reg v)) : Appended P w (MmioWrite32 w Reg v) :=
  Appended.one _ (MmioWrite32_Trace w Reg v) h

theorem Appended.stall (P : Event → Prop) (w : World) (us : Nat)
    (h : P (Event.stall us)) : Appended P w (Stall w us) :=
  Appended.one _ (Stall_Trace w us) h

/-! ## Traces of polling and soft reset -/

theorem PollRegisterWithMask.loop_appended (k : Consts) (Reg : Register) (Mask Expected : Nat)
    (n rc : Nat) (w : World) :
    Appended (fun e => e.isWrite = false ∧ e.isPolling = true) w
      (PollRegisterWithMask.loop k Reg Mask Expected n rc w).2 := by
  induction n generalizing rc w with
  | zero => exact Appended.refl _ _
  | succ n ih =>
    unfold PollRegisterWithMask.loop
    simp only []
    split_ifs with h
    · refine Appended.trans (Appended.read _ w Reg (fun v => ⟨rfl, rfl⟩)) ?_
      exact Appended.trans (Appended.stall _ _ _ ⟨rfl, rfl⟩) (ih _ _)
    · exact Appended.read _ w Reg (fun v => ⟨rfl, rfl⟩)

theorem PollRegisterWithMask_appended (k : Consts) (w : World) (Reg : Register)
    (Mask Expected : Nat) :
    Appended (fun e => e.isWrite = false ∧ e.isPolling = true) w
      (PollRegisterWithMask k w Reg Mask Expected).2 := by
  unfold PollRegisterWithMask
  simp only []
  split_ifs <;> exact PollRegisterWithMask.loop_appended k Reg Mask Expected _ _ w

theorem SoftReset_appended (k : Consts) (w : World) (Mask : Nat) :
    Appended (fun e => e.isPolling = true) w (SoftReset k w Mask).2 := by
  have h1 : Appended (fun e => e.isPolling = true) w (MmioOr32 w Register.MMCHS_SYSCTL Mask) :=
    Appended.trans (Appended.read _ w _ (fun v => rfl)) (Appended.write _ _ _ _ rfl)
  have h2 : Appended (fun e => e.isPolling = true) (MmioOr32 w Register.MMCHS_SYSCTL Mask)
      (PollRegisterWithMask k (MmioOr32 w Register.MMCHS_SYSCTL Mask)
        Register.MMCHS_SYSCTL Mask 0).2 :=
    Appended.mono (fun e h => h.2)
      (PollRegisterWithMask_appended k (MmioOr32 w Register.MMCHS_SYSCTL Mask)
        Register.MMCHS_SYSCTL Mask 0)
  unfold SoftReset
  simp only []
  split_ifs <;> exact Appended.trans h1 h2

theorem MMCSendCommand.statusLoop_appended (k : Consts) (n rc : Nat) (w : World) :
    Appended (fun e => e.isPolling = true) w (MMCSendCommand.statusLoop k n rc w).2 := by
  induction n generalizing rc w with
  | zero => exact Appended.refl _ _
  | succ n ih =>
    unfold MMCSendCommand.statusLoop
    simp only []
    split_ifs with h1 h2
    · exact Appended.trans (Appended.read _ w _ (fun v => rfl)) (SoftReset_appended k _ _)
    · exact Appended.trans (Appended.read _ w _ (fun v => rfl)) (Appended.write _ _ _ _ rfl)
    · refine Appended.trans (Appended.read _ w Register.MMCHS_INT_STAT (fun v => rfl)) ?_
      exact Appended.trans (Appended.stall _ _ _ rfl) (ih _ _)

theorem debugReads_appended (k : Consts) (w : World) (Regs : List Register) :
    Appended (fun e => e.isWrite = false ∧ e.isPolling = true) w (debugReads k w Regs) := by
  unfold debugReads
  split_ifs
  · induction Regs generalizing w with
    | nil => exact Appended.refl _ _
    | cons Reg Regs ih =>
      simp only [List.foldl_cons]
      exact Appended.trans (Appended.read _ w Reg (fun v => ⟨rfl, rfl⟩)) (ih _)
  · exact Appended.refl _ _

theorem Appended.assert (P : Event → Prop) (w : World) (c : Bool)
    (h : P Event.assertFailed) : Appended P w (ASSERT w c) := by
  unfold ASSERT
  split_ifs
  · exact Appended.refl _ _
  · exact Appended.one _ rfl h

/-- The block-size step appends at most one event, a write to the block-size
register; the value 64 is written only outside application mode. -/
theorem MMCSendCommand.setBlockSize_appended (k : Consts) (w : World) (IsAppCmd IsADTCCmd : Bool)
    (MmcCmd : Nat) :
    Appended (fun e => ∃ b, e = Event.write Register.MMCHS_BLK b ∧
        (b = 64 → IsAppCmd = false ∧ MmcCmd = k.CMD6)) w
      (MMCSendCommand.setBlockSize k w IsAppCmd IsADTCCmd MmcCmd) := by
  unfold MMCSendCommand.setBlockSize
  split_ifs with h1 h2 h3 h4
  · exact Appended.write _ _ _ _ ⟨4, rfl, fun hb => absurd hb (by decide)⟩
  · exact Appended.write _ _ _ _ ⟨8, rfl, fun hb => absurd hb (by decide)⟩
  · refine Appended.write _ _ _ _ ⟨64, rfl, fun _ => ?_⟩
    simpa using h3
  · exact Appended.write _ _ _ _ ⟨BLEN_512BYTES, rfl, fun hb => absurd hb (by decide)⟩
  · exact Appended.refl _ _

theorem MMCSendCommand.Exit_Trace (w : World) (Status : EFI_STATUS) (MmcCmd : Nat) :
    (MMCSendCommand.Exit w Status MmcCmd).2.Trace = w.Trace := by
  unfold MMCSendCommand.Exit
  split_ifs <;> rfl

theorem MMCSendCommand.Exit_Status (w : World) (Status : EFI_STATUS) (MmcCmd : Nat) :
    (MMCSendCommand.Exit w Status MmcCmd).1 = Status := by
  unfold MMCSendCommand.Exit
  split_ifs <;> rfl

theorem MMCSendCommand.Exit_Last (w : World) (Status : EFI_STATUS) (MmcCmd : Nat) :
    (MMCSendCommand.Exit w Status MmcCmd).2.LastExecutedCommand =
      if EFI_ERROR Status then 0xFFFFFFFF else MmcCmd := by
  unfold MMCSendCommand.Exit
  split_ifs <;> rfl

theorem MMCSendCommand_ignored (k : Consts) (w : World) (MmcCmd Argument : Nat)
    (h : IgnoreCommand k MmcCmd = true) :
    MMCSendCommand k w MmcCmd Argument = (EFI_SUCCESS, w) := by
  simp [MMCSendCommand, h]

theorem MMCSendCommand_unsupported (k : Consts) (w : World) (MmcCmd Argument : Nat)
    (hign : IgnoreCommand k MmcCmd = false)
    (h : (TranslateCommand k w.LastExecutedCommand MmcCmd Argument).1 = 0xffffffff) :
    MMCSendCommand k w MmcCmd Argument =
      (EFI_UNSUPPORTED,
        ASSERT w (TranslateCommand k w.LastExecutedCommand MmcCmd Argument).2) := by
  simp [MMCSendCommand, hign, h]

/-- The shape of a dispatch after translation: the status is success, timeout
or device error, `LastExecutedCommand` is set by the `Exit` label, and the events
added are either write-free (readiness timeout) or a write-free prefix, the
block-size step, the five programming accesses ending in the write of the native
code to the command register, and polling traffic. -/
theorem MMCSendCommand.dispatch_shape (k : Consts) (w : World) (IsAppCmd : Bool)
    (MmcCmd Argument : Nat) (r : EFI_STATUS × World)
    (hr : MMCSendCommand.dispatch k w IsAppCmd MmcCmd Argument = r) :
    (r.1 = EFI_SUCCESS ∨ r.1 = EFI_TIMEOUT ∨ r.1 = EFI_DEVICE_ERROR) ∧
      r.2.LastExecutedCommand = (if EFI_ERROR r.1 then 0xFFFFFFFF else MmcCmd) ∧
      ∃ pre, (∀ e ∈ pre, Event.isWrite e = false ∧ Event.isPolling e = true) ∧
        ((r.1 = EFI_TIMEOUT ∧ r.2.Trace = w.Trace ++ pre) ∨
          ∃ blk x tail,
            r.2.Trace =
              w.Trace ++ pre ++ blk ++
                [Event.read Register.MMCHS_SYSCTL x,
                 Event.write Register.MMCHS_SYSCTL ((x &&& not32 k.DTO_MASK) ||| k.DTO_VAL),
                 Event.write Register.MMCHS_INT_STAT (k.ALL_EN &&& not32 k.CARD_INS),
                 Event.write Register.MMCHS_ARG Argument,
                 Event.write Register.MMCHS_CMD MmcCmd] ++ tail ∧
            (∀ e ∈ blk, ∃ b, e = Event.write Register.MMCHS_BLK b ∧
              (b = 64 → IsAppCmd = false ∧ MmcCmd = k.CMD6)) ∧
            (∀ e ∈ tail, Event.isPolling e = true)) := by
  unfold MMCSendCommand.dispatch at hr
  simp only [] at hr
  generalize (if ((decide (MmcCmd &&& k.CMD_R1B = k.CMD_R1B) &&
      decide (MmcCmd &&& k.TYPE k.CMD_TYPE_ABORT ≠ k.TYPE k.CMD_TYPE_ABORT)) ||
      decide (MmcCmd &&& k.CMD_R1_ADTC = k.CMD_R1_ADTC) || decide (MmcCmd = k.CMD_SEND_STATUS)) = true
    then k.CMDI_MASK ||| k.DATI_MASK else k.CMDI_MASK) = mask at hr
  obtain ⟨pre, hpre, ppre⟩ := PollRegisterWithMask_appended k w MMCHS_PRES_STATE mask 0
  generalize PollRegisterWithMask k w MMCHS_PRES_STATE mask 0 = p at hr hpre
  split_ifs at hr with hto
  · obtain ⟨dbg, hdbg, pdbg⟩ := debugReads_appended k p.2 [MMCHS_PRES_STATE, MMCHS_INT_STAT]
    subst hr
    refine ⟨Or.inr (Or.inl (MMCSendCommand.Exit_Status _ _ _)), ?_, pre ++ dbg, ?_, Or.inl
      ⟨MMCSendCommand.Exit_Status _ _ _, ?_⟩⟩
    · rw [MMCSendCommand.Exit_Last, MMCSendCommand.Exit_Status]
    · intro e he
      rcases List.mem_append.1 he with h | h
      · exact ppre e h
      · exact pdbg e h
    · rw [MMCSendCommand.Exit_Trace, hdbg, hpre, List.append_assoc]
  · obtain ⟨blk, hblk, pblk⟩ := MMCSendCommand.setBlockSize_appended k p.2 IsAppCmd
      (decide (MmcCmd &&& k.CMD_R1_ADTC = k.CMD_R1_ADTC)) MmcCmd
    generalize MMCSendCommand.setBlockSize k p.2 IsAppCmd
      (decide (MmcCmd &&& k.CMD_R1_ADTC = k.CMD_R1_ADTC)) MmcCmd = wb at hr hblk
    have hwc : (MmioWrite32 (MmioWrite32 (MmioWrite32
        (MmioAndThenOr32 wb MMCHS_SYSCTL (not32 k.DTO_MASK) k.DTO_VAL)
        MMCHS_INT_STAT (k.ALL_EN &&& not32 k.CARD_INS)) MMCHS_ARG Argument)
        MMCHS_CMD MmcCmd).Trace =
        wb.Trace ++
          [Event.read MMCHS_SYSCTL (MmioRead32 wb MMCHS_SYSCTL).1,
           Event.write MMCHS_SYSCTL
             (((MmioRead32 wb MMCHS_SYSCTL).1 &&& not32 k.DTO_MASK) ||| k.DTO_VAL),
           Event.write MMCHS_INT_STAT (k.ALL_EN &&& not32 k.CARD_INS),
           Event.write MMCHS_ARG Argument,
           Event.write MMCHS_CMD MmcCmd] := by
      simp [MmioAndThenOr32, MmioWrite32_Trace, MmioRead32_Trace]
    generalize (MmioWrite32 (MmioWrite32 (MmioWrite32
        (MmioAndThenOr32 wb MMCHS_SYSCTL (not32 k.DTO_MASK) k.DTO_VAL)
        MMCHS_INT_STAT (k.ALL_EN &&& not32 k.CARD_INS)) MMCHS_ARG Argument)
        MMCHS_CMD MmcCmd) = wc at hr hwc
    obtain ⟨tail, htail, ptail⟩ := MMCSendCommand.statusLoop_appended k k.MAX_RETRY_COUNT 0 wc
    generalize MMCSendCommand.statusLoop k k.MAX_RETRY_COUNT 0 wc = l at hr htail
    obtain ⟨l1, l2⟩ := l
    have hshape : ∀ (wf : World) (extra : List Event), wf.Trace = l2.Trace ++ extra →
        (∀ e ∈ extra, Event.isPolling e = true) →
        ∃ blk x tail,
          wf.Trace =
            w.Trace ++ pre ++ blk ++
              [Event.read Register.MMCHS_SYSCTL x,
               Event.write Register.MMCHS_SYSCTL ((x &&& not32 k.DTO_MASK) ||| k.DTO_VAL),
               Event.write Register.MMCHS_INT_STAT (k.ALL_EN &&& not32 k.CARD_INS),
               Event.write Register.MMCHS_ARG Argument,
               Event.write Register.MMCHS_CMD MmcCmd] ++ tail ∧
          (∀ e ∈ blk, ∃ b, e = Event.write Register.MMCHS_BLK b ∧
            (b = 64 → IsAppCmd = false ∧ MmcCmd = k.CMD6)) ∧
          (∀ e ∈ tail, Event.isPolling e = true) := by
      intro wf extra hwf pextra
      refine ⟨blk, (MmioRead32 wb MMCHS_SYSCTL).1, tail ++ extra, ?_, pblk, ?_⟩
      · rw [hwf, htail, hwc, hblk, hpre]
        simp only [List.append_assoc]
      · intro e he
        rcases List.mem_append.1 he with h | h
        · exact ptail e h
        · exact pextra e h
    cases l1 with
    | error =>
      simp only at hr
      subst hr
      refine ⟨Or.inr (Or.inr (MMCSendCommand.Exit_Status _ _ _)), ?_, pre, ppre, Or.inr ?_⟩
      · rw [MMCSendCommand.Exit_Last, MMCSendCommand.Exit_Status]
      · rw [MMCSendCommand.Exit_Trace]
        exact hshape l2 [] (by simp) (by simp)
    | finished rc =>
      simp only at hr
      split_ifs at hr with hrc
      · obtain ⟨dbg, hdbg, pdbg⟩ :=
          debugReads_appended k (Stall l2 k.STALL_AFTER_SEND_CMD_US) [MMCHS_PRES_STATE]
        subst hr
        refine ⟨Or.inr (Or.inl (MMCSendCommand.Exit_Status _ _ _)), ?_, pre, ppre, Or.inr ?_⟩
        · rw [MMCSendCommand.Exit_Last, MMCSendCommand.Exit_Status]
        · rw [MMCSendCommand.Exit_Trace]
          refine hshape _ (Event.stall k.STALL_AFTER_SEND_CMD_US :: dbg) ?_ ?_
          · rw [hdbg, Stall_Trace, List.append_assoc]
            rfl
          · intro e he
            rcases List.mem_cons.1 he with h | h
            · rw [h]
              rfl
            · exact (pdbg e h).2
      · subst hr
        refine ⟨Or.inl (MMCSendCommand.Exit_Status _ _ _), ?_, pre, ppre, Or.inr ?_⟩
        · rw [MMCSendCommand.Exit_Last, MMCSendCommand.Exit_Status]
        · rw [MMCSendCommand.Exit_Trace]
          exact hshape _ [Event.stall k.STALL_AFTER_SEND_CMD_US] (Stall_Trace _ _)
            (by intro e he; rw [List.mem_singleton.1 he]; rfl)


/-! ## Command translation -/

theorem lookup_of_mem_of_nodup {α : Type} (l : List (Nat × α)) (a : Nat) (b : α)
    (h : (l.map Prod.fst).Nodup) (hm : (a, b) ∈ l) : l.lookup a = some b := by
  induction l with
  | nil => simp at hm
  | cons p l ih =>
    obtain ⟨x, y⟩ := p
    simp only [List.map_cons, List.nodup_cons] at h
    rcases List.mem_cons.1 hm with heq | hmem
    · cases heq
      simp [List.lookup]
    · have hne : a ≠ x := by
        intro hax
        apply h.1
        rw [← hax]
        exact List.mem_map.2 ⟨(a, b), hmem, rfl⟩
      have hbeq : (a == x) = false := by simpa using hne
      simp only [List.lookup, hbeq]
      exact ih h.2 hmem

theorem TranslateCommand_app_other (k : Consts) (Command Argument : Nat)
    (h : Command ∉ appLabels k) :
    TranslateCommand k k.CMD55 Command Argument = (0xffffffff, true) := by
  simp only [appLabels, List.mem_cons, List.mem_singleton, List.not_mem_nil, or_false,
    not_or] at h
  obtain ⟨h1, h2, h3, h4⟩ := h
  simp [TranslateCommand, h1, h2, h3, h4]

theorem TranslateCommand_app_labels (k : Consts) (Argument : Nat) (h : (appLabels k).Nodup) :
    TranslateCommand k k.CMD55 k.MMC_CMD6 Argument = (k.ACMD6, true) ∧
      TranslateCommand k k.CMD55 k.MMC_ACMD22 Argument = (k.ACMD22, true) ∧
      TranslateCommand k k.CMD55 k.MMC_ACMD41 Argument = (k.ACMD41, true) ∧
      TranslateCommand k k.CMD55 k.MMC_ACMD51 Argument = (k.ACMD51, true) := by
  simp only [appLabels, List.nodup_cons, List.mem_cons, List.mem_singleton, List.not_mem_nil,
    or_false, not_or, List.nodup_nil, and_true, not_false_eq_true] at h
  obtain ⟨⟨h1, h2, h3⟩, ⟨h4, h5⟩, h6⟩ := h
  refine ⟨?_, ?_, ?_, ?_⟩ <;>
    simp [TranslateCommand, Ne.symm h1, Ne.symm h2, Ne.symm h3, Ne.symm h4, Ne.symm h5, Ne.symm h6]

theorem TranslateCommand_standard_other (k : Consts) (Last Command Argument : Nat)
    (hLast : Last ≠ k.CMD55) (h : Command ∉ standardLabels k) :
    TranslateCommand k Last Command Argument = (0xffffffff, true) := by
  simp only [standardLabels, List.mem_cons, List.mem_singleton, List.not_mem_nil, or_false,
    not_or] at h
  obtain ⟨h0, h1, h2, h3, h5, h6, h7, h8, h9, h11, h12, h13, h16, h17, h18, h23, h24, h25,
    h55⟩ := h
  simp only [TranslateCommand, hLast, h0, h1, h2, h3, h5, h6, h7, h8, h9, h11, h12, h13, h16, h17,
    h18, h23, h24, h25, h55, if_false]

/-- The standard-command `switch` computes the table lookup. -/
theorem TranslateCommand_standard_lookup (k : Consts) (Last Command Argument : Nat)
    (hLast : Last ≠ k.CMD55) :
    (TranslateCommand k Last Command Argument).1 =
      ((standardTable k Argument).lookup Command).getD 0xffffffff := by
  simp only [TranslateCommand, hLast, if_false, standardTable, List.lookup]
  by_cases h0 : Command = k.MMC_CMD0
  · have b : (Command == k.MMC_CMD0) = true := by simpa using h0
    simp only [if_pos h0, b]
    rfl
  have b0 : (Command == k.MMC_CMD0) = false := by simpa using h0
  simp only [if_neg h0, b0]
  by_cases h1 : Command = k.MMC_CMD1
  · have b : (Command == k.MMC_CMD1) = true := by simpa using h1
    simp only [if_pos h1, b]
    rfl
  have b1 : (Command == k.MMC_CMD1) = false := by simpa using h1
  simp only [if_neg h1, b1]
  by_cases h2 : Command = k.MMC_CMD2
  · have b : (Command == k.MMC_CMD2) = true := by simpa using h2
    simp only [if_pos h2, b]
    rfl
  have b2 : (Command == k.MMC_CMD2) = false := by simpa using h2
  simp only [if_neg h2, b2]
  by_cases h3 : Command = k.MMC_CMD3
  · have b : (Command == k.MMC_CMD3) = true := by simpa using h3
    simp only [if_pos h3, b]
    rfl
  have b3 : (Command == k.MMC_CMD3) = false := by simpa using h3
  simp only [if_neg h3, b3]
  by_cases h5 : Command = k.MMC_CMD5
  · have b : (Command == k.MMC_CMD5) = true := by simpa using h5
    simp only [if_pos h5, b]
    rfl
  have b5 : (Command == k.MMC_CMD5) = false := by simpa using h5
  simp only [if_neg h5, b5]
  by_cases h6 : Command = k.MMC_CMD6
  · have b : (Command == k.MMC_CMD6) = true := by simpa using h6
    simp only [if_pos h6, b]
    rfl
  have b6 : (Command == k.MMC_CMD6) = false := by simpa using h6
  simp only [if_neg h6, b6]
  by_cases h7 : Command = k.MMC_CMD7
  · have b : (Command == k.MMC_CMD7) = true := by simpa using h7
    simp only [if_pos h7, b]
    rfl
  have b7 : (Command == k.MMC_CMD7) = false := by simpa using h7
  simp only [if_neg h7, b7]
  by_cases h8 : Command = k.MMC_CMD8
  · have b : (Command == k.MMC_CMD8) = true := by simpa using h8
    simp only [if_pos h8, b]
    split_ifs <;> rfl
  have b8 : (Command == k.MMC_CMD8) = false := by simpa using h8
  simp only [if_neg h8, b8]
  by_cases h9 : Command = k.MMC_CMD9
  · have b : (Command == k.MMC_CMD9) = true := by simpa using h9
    simp only [if_pos h9, b]
    rfl
  have b9 : (Command == k.MMC_CMD9) = false := by simpa using h9
  simp only [if_neg h9, b9]
  by_cases h11 : Command = k.MMC_CMD11
  · have b : (Command == k.MMC_CMD11) = true := by simpa using h11
    simp only [if_pos h11, b]
    rfl
  have b11 : (Command == k.MMC_CMD11) = false := by simpa using h11
  simp only [if_neg h11, b11]
  by_cases h12 : Command = k.MMC_CMD12
  · have b : (Command == k.MMC_CMD12) = true := by simpa using h12
    simp only [if_pos h12, b]
    rfl
  have b12 : (Command == k.MMC_CMD12) = false := by simpa using h12
  simp only [if_neg h12, b12]
  by_cases h13 : Command = k.MMC_CMD13
  · have b : (Command == k.MMC_CMD13) = true := by simpa using h13
    simp only [if_pos h13, b]
    rfl
  have b13 : (Command == k.MMC_CMD13) = false := by simpa using h13
  simp only [if_neg h13, b13]
  by_cases h16 : Command = k.MMC_CMD16
  · have b : (Command == k.MMC_CMD16) = true := by simpa using h16
    simp only [if_pos h16, b]
    rfl
  have b16 : (Command == k.MMC_CMD16) = false := by simpa using h16
  simp only [if_neg h16, b16]
  by_cases h17 : Command = k.MMC_CMD17
  · have b : (Command == k.MMC_CMD17) = true := by simpa using h17
    simp only [if_pos h17, b]
    rfl
  have b17 : (Command == k.MMC_CMD17) = false := by simpa using h17
  simp only [if_neg h17, b17]
  by_cases h18 : Command = k.MMC_CMD18
  · have b : (Command == k.MMC_CMD18) = true := by simpa using h18
    simp only [if_pos h18, b]
    rfl
  have b18 : (Command == k.MMC_CMD18) = false := by simpa using h18
  simp only [if_neg h18, b18]
  by_cases h23 : Command = k.MMC_CMD23
  · have b : (Command == k.MMC_CMD23) = true := by simpa using h23
    simp only [if_pos h23, b]
    rfl
  have b23 : (Command == k.MMC_CMD23) = false := by simpa using h23
  simp only [if_neg h23, b23]
  by_cases h24 : Command = k.MMC_CMD24
  · have b : (Command == k.MMC_CMD24) = true := by simpa using h24
    simp only [if_pos h24, b]
    rfl
  have b24 : (Command == k.MMC_CMD24) = false := by simpa using h24
  simp only [if_neg h24, b24]
  by_cases h25 : Command = k.MMC_CMD25
  · have b : (Command == k.MMC_CMD25) = true := by simpa using h25
    simp only [if_pos h25, b]
    rfl
  have b25 : (Command == k.MMC_CMD25) = false := by simpa using h25
  simp only [if_neg h25, b25]
  by_cases h55 : Command = k.MMC_CMD55
  · have b : (Command == k.MMC_CMD55) = true := by simpa using h55
    simp only [if_pos h55, b]
    rfl
  have b55 : (Command == k.MMC_CMD55) = false := by simpa using h55
  simp only [if_neg h55, b55]
  rfl

theorem standardTable_keys (k : Consts) (Argument : Nat) :
    (standardTable k Argument).map Prod.fst = standardLabels k := rfl

theorem standardTable_values (k : Consts) (Argument : Nat) :
    ∀ p ∈ standardTable k Argument, p.2 ∈ standardCodes k := by
  intro p hp
  simp only [standardTable, List.mem_cons, List.mem_singleton, List.not_mem_nil, or_false] at hp
  rcases hp with h | h | h | h | h | h | h | h | h | h | h | h | h | h | h | h | h | h | h <;>
    subst h
  all_goals first
    | (dsimp only; split_ifs <;> simp [standardCodes])
    | simp [standardCodes]

/-- Under a label of the standard `switch` the translation is the table entry. -/
theorem TranslateCommand_standard_entry (k : Consts) (Last Argument : Nat)
    (hLast : Last ≠ k.CMD55) (h : (standardLabels k).Nodup) (Command Code : Nat)
    (hm : (Command, Code) ∈ standardTable k Argument) :
    (TranslateCommand k Last Command Argument).1 = Code := by
  rw [TranslateCommand_standard_lookup k Last Command Argument hLast,
    lookup_of_mem_of_nodup _ Command Code (by rw [standardTable_keys]; exact h) hm]
  rfl

theorem TranslateCommand_standard_supported (k : Consts) (Last Command Argument : Nat)
    (hLast : Last ≠ k.CMD55) (h : (standardLabels k).Nodup)
    (hcodes : ∀ c ∈ standardCodes k, c ≠ 0xffffffff) :
    (TranslateCommand k Last Command Argument).1 ≠ 0xffffffff ↔ Command ∈ standardLabels k := by
  constructor
  · intro hne
    by_contra hnot
    exact hne (by rw [TranslateCommand_standard_other k Last Command Argument hLast hnot])
  · intro hmem
    rw [← standardTable_keys k Argument] at hmem
    obtain ⟨p, hp, hfst⟩ := List.mem_map.1 hmem
    obtain ⟨a, c⟩ := p
    simp only at hfst
    subst hfst
    rw [TranslateCommand_standard_entry k Last Argument hLast h a c hp]
    exact hcodes c (standardTable_values k Argument (a, c) hp)

theorem eventsSince_eq {w w' : World} {evs : List Event} (h : w'.Trace = w.Trace ++ evs) :
    eventsSince w w' = evs := by
  unfold eventsSince
  rw [h, List.drop_left]

theorem IgnoreCommand_eq_false (k : Consts) (Command : Nat) (h : Command ≠ k.MMC_CMD20) :
    IgnoreCommand k Command = false := by
  simp [IgnoreCommand, h]

/-- The shape of `MMCSendCommand` for a command that is not ignored and whose
translation is not the Unsupported value. -/
theorem MMCSendCommand_shape (k : Consts) (w : World) (Command Argument : Nat)
    (hign : IgnoreCommand k Command = false)
    (hnat : (TranslateCommand k w.LastExecutedCommand Command Argument).1 ≠ 0xffffffff)
    (r : EFI_STATUS × World) (hr : MMCSendCommand k w Command Argument = r) :
    (r.1 = EFI_SUCCESS ∨ r.1 = EFI_TIMEOUT ∨ r.1 = EFI_DEVICE_ERROR) ∧
      r.2.LastExecutedCommand =
        (if EFI_ERROR r.1 then 0xFFFFFFFF
          else (TranslateCommand k w.LastExecutedCommand Command Argument).1) ∧
      ∃ pre, (∀ e ∈ pre, Event.isWrite e = false) ∧
        ((r.1 = EFI_TIMEOUT ∧ r.2.Trace = w.Trace ++ pre) ∨
          ∃ blk x tail,
            r.2.Trace =
              w.Trace ++ pre ++ blk ++
                [Event.read Register.MMCHS_SYSCTL x,
                 Event.write Register.MMCHS_SYSCTL ((x &&& not32 k.DTO_MASK) ||| k.DTO_VAL),
                 Event.write Register.MMCHS_INT_STAT (k.ALL_EN &&& not32 k.CARD_INS),
                 Event.write Register.MMCHS_ARG Argument,
                 Event.write Register.MMCHS_CMD
                   (TranslateCommand k w.LastExecutedCommand Command Argument).1] ++ tail ∧
            (∀ e ∈ blk, ∃ b, e = Event.write Register.MMCHS_BLK b ∧
              (b = 64 → w.LastExecutedCommand ≠ k.CMD55 ∧
                (TranslateCommand k w.LastExecutedCommand Command Argument).1 = k.CMD6)) ∧
            (∀ e ∈ tail, Event.isPolling e = true)) := by
  unfold MMCSendCommand at hr
  simp only [hign, Bool.false_eq_true, if_false, if_neg hnat] at hr
  obtain ⟨hstat, hlast, pre, ppre, hcases⟩ := MMCSendCommand.dispatch_shape k _ _ _ _ r hr
  obtain ⟨a, ha, pa⟩ := Appended.assert (fun e => Event.isWrite e = false) w
    (TranslateCommand k w.LastExecutedCommand Command Argument).2 rfl
  refine ⟨hstat, hlast, a ++ pre, ?_, ?_⟩
  · intro e he
    rcases List.mem_append.1 he with h | h
    · exact pa e h
    · exact (ppre e h).1
  · rcases hcases with ⟨hto, htr⟩ | ⟨blk, x, tail, htr, pblk, ptail⟩
    · left
      refine ⟨hto, ?_⟩
      rw [htr, ha, List.append_assoc]
    · right
      refine ⟨blk, x, tail, ?_, ?_, ptail⟩
      · rw [htr, ha]
        simp only [List.append_assoc]
      · intro e he
        obtain ⟨b, hb, h64⟩ := pblk e he
        refine ⟨b, hb, fun hb64 => ?_⟩
        have := h64 hb64
        simpa using this

/-- In a dispatch that was not ignored and passed translation, every write to the
command register carries the native code, it occurs when the status is success,
and the block-size register receives 64 only outside application mode. -/
theorem MMCSendCommand_writes (k : Consts) (w : World) (Command Argument : Nat)
    (hign : IgnoreCommand k Command = false)
    (hnat : (TranslateCommand k w.LastExecutedCommand Command Argument).1 ≠ 0xffffffff) :
    (∀ v, Event.write Register.MMCHS_CMD v ∈
        eventsSince w (MMCSendCommand k w Command Argument).2 →
        v = (TranslateCommand k w.LastExecutedCommand Command Argument).1) ∧
      ((MMCSendCommand k w Command Argument).1 = EFI_SUCCESS →
        Event.write Register.MMCHS_CMD
          (TranslateCommand k w.LastExecutedCommand Command Argument).1 ∈
          eventsSince w (MMCSendCommand k w Command Argument).2) ∧
      (Event.write Register.MMCHS_BLK 64 ∈
          eventsSince w (MMCSendCommand k w Command Argument).2 →
        w.LastExecutedCommand ≠ k.CMD55) := by
  obtain ⟨-, -, pre, ppre, hcases⟩ :=
    MMCSendCommand_shape k w Command Argument hign hnat _ rfl
  rcases hcases with ⟨hto, htr⟩ | ⟨blk, x, tail, htr, pblk, ptail⟩
  · rw [eventsSince_eq htr]
    refine ⟨?_, ?_, ?_⟩
    · intro v hv
      exact absurd (ppre _ hv) (by simp [Event.isWrite])
    · intro hs
      rw [hs] at hto
      exact absurd hto (by decide)
    · intro hv
      exact absurd (ppre _ hv) (by simp [Event.isWrite])
  · simp only [List.append_assoc] at htr
    rw [eventsSince_eq htr]
    refine ⟨?_, ?_, ?_⟩
    · intro v hv
      rcases List.mem_append.1 hv with h | h
      · exact absurd (ppre _ h) (by simp [Event.isWrite])
      rcases List.mem_append.1 h with h | h
      · obtain ⟨b, hb, -⟩ := pblk _ h
        simp at hb
      rcases List.mem_append.1 h with h | h
      · simpa using h
      · exact absurd (ptail _ h) (by simp [Event.isPolling])
    · intro _
      simp
    · intro hv
      rcases List.mem_append.1 hv with h | h
      · exact absurd (ppre _ h) (by simp [Event.isWrite])
      rcases List.mem_append.1 h with h | h
      · obtain ⟨b, hb, h64⟩ := pblk _ h
        simp only [Event.write.injEq, true_and] at hb
        exact (h64 hb.symm).1
      rcases List.mem_append.1 h with h | h
      · simp at h
      · exact absurd (ptail _ h) (by simp [Event.isPolling])

/-! ## Claims about translation and dispatch -/

/-- C2 (counterexample): with `LastExecutedCommand = CMD55`, the dispatch of the
standard command 0 fails with `EFI_UNSUPPORTED`, a failure status, and
`LastExecutedCommand` afterwards is still `CMD55`, not the sentinel `0xFFFFFFFF`. -/
theorem C2_counterexample :
    (MMCSendCommand referenceConsts (worldOf referenceConsts.CMD55 [])
        referenceConsts.MMC_CMD0 0).1 = EFI_UNSUPPORTED ∧
      EFI_ERROR (MMCSendCommand referenceConsts (worldOf referenceConsts.CMD55 [])
        referenceConsts.MMC_CMD0 0).1 = true ∧
      (MMCSendCommand referenceConsts (worldOf referenceConsts.CMD55 [])
        referenceConsts.MMC_CMD0 0).2.LastExecutedCommand = referenceConsts.CMD55 ∧
      (MMCSendCommand referenceConsts (worldOf referenceConsts.CMD55 [])
        referenceConsts.MMC_CMD0 0).2.LastExecutedCommand ≠ 0xFFFFFFFF := by
  decide

/-- C2 (amended): for every call of `MMCSendCommand`, from any state: if it
returns `EFI_SUCCESS` for a command that is not the ignored one, then
`LastExecutedCommand` afterwards is the native code of the command, that code was
written to the command register and nothing else was; if it returns
`EFI_TIMEOUT` or `EFI_DEVICE_ERROR`, `LastExecutedCommand` afterwards is the
sentinel `0xFFFFFFFF`; if it returns `EFI_UNSUPPORTED`, `LastExecutedCommand` is
unchanged; and it returns no other status. -/
theorem C2_last_executed_command (k : Consts) (w : World) (Command Argument : Nat) :
    ((MMCSendCommand k w Command Argument).1 = EFI_SUCCESS → Command ≠ k.MMC_CMD20 →
        (MMCSendCommand k w Command Argument).2.LastExecutedCommand =
            (TranslateCommand k w.LastExecutedCommand Command Argument).1 ∧
          Event.write Register.MMCHS_CMD
              (MMCSendCommand k w Command Argument).2.LastExecutedCommand ∈
            eventsSince w (MMCSendCommand k w Command Argument).2 ∧
          ∀ v, Event.write Register.MMCHS_CMD v ∈
              eventsSince w (MMCSendCommand k w Command Argument).2 →
            v = (MMCSendCommand k w Command Argument).2.LastExecutedCommand) ∧
      ((MMCSendCommand k w Command Argument).1 = EFI_TIMEOUT ∨
          (MMCSendCommand k w Command Argument).1 = EFI_DEVICE_ERROR →
        (MMCSendCommand k w Command Argument).2.LastExecutedCommand = 0xFFFFFFFF) ∧
      ((MMCSendCommand k w Command Argument).1 = EFI_UNSUPPORTED →
        (MMCSendCommand k w Command Argument).2.LastExecutedCommand =
          w.LastExecutedCommand) ∧
      ((MMCSendCommand k w Command Argument).1 = EFI_SUCCESS ∨
        (MMCSendCommand k w Command Argument).1 = EFI_UNSUPPORTED ∨
        (MMCSendCommand k w Command Argument).1 = EFI_TIMEOUT ∨
        (MMCSendCommand k w Command Argument).1 = EFI_DEVICE_ERROR) := by
  by_cases hign : IgnoreCommand k Command = true
  · have h20 : Command = k.MMC_CMD20 := by
      by_contra hne
      rw [IgnoreCommand_eq_false k Command hne] at hign
      exact absurd hign (by decide)
    rw [MMCSendCommand_ignored k w Command Argument hign]
    refine ⟨fun _ hne => absurd h20 hne, ?_, ?_, Or.inl rfl⟩
    · intro h
      rcases h with h | h <;> simp at h
    · intro h
      simp at h
  · have hign' : IgnoreCommand k Command = false := by simpa using hign
    by_cases hnat : (TranslateCommand k w.LastExecutedCommand Command Argument).1 = 0xffffffff
    · rw [MMCSendCommand_unsupported k w Command Argument hign' hnat]
      refine ⟨fun h => by simp at h, ?_, ?_, Or.inr (Or.inl rfl)⟩
      · intro h
        rcases h with h | h <;> simp at h
      · intro _
        unfold ASSERT
        split_ifs <;> rfl
    · obtain ⟨hstat, hlast, -⟩ := MMCSendCommand_shape k w Command Argument hign' hnat _ rfl
      obtain ⟨hall, hmem, -⟩ := MMCSendCommand_writes k w Command Argument hign' hnat
      refine ⟨?_, ?_, ?_, ?_⟩
      · intro hs _
        have hl : (MMCSendCommand k w Command Argument).2.LastExecutedCommand =
            (TranslateCommand k w.LastExecutedCommand Command Argument).1 := by
          rw [hlast, hs]
          rfl
        rw [hl]
        exact ⟨rfl, hmem hs, hall⟩
      · intro h
        rw [hlast]
        rcases h with h | h <;> rw [h] <;> rfl
      · intro h
        rcases hstat with h' | h' | h' <;> rw [h'] at h <;> exact absurd h (by decide)
      · rcases hstat with h' | h' | h'
        · exact Or.inl h'
        · exact Or.inr (Or.inr (Or.inl h'))
        · exact Or.inr (Or.inr (Or.inr h'))

/-- C2 at a concrete input: from the initial state, command 55 with the hardware
ready and the command completing at the first status read. -/
theorem C2_last_executed_command_witness :
    (MMCSendCommand referenceConsts (worldOf 0xFFFFFFFF [0, 0, 1])
        referenceConsts.MMC_CMD55 0).2.LastExecutedCommand =
        (TranslateCommand referenceConsts (worldOf 0xFFFFFFFF [0, 0, 1]).LastExecutedCommand
          referenceConsts.MMC_CMD55 0).1 ∧
      Event.write Register.MMCHS_CMD
          (MMCSendCommand referenceConsts (worldOf 0xFFFFFFFF [0, 0, 1])
            referenceConsts.MMC_CMD55 0).2.LastExecutedCommand ∈
        eventsSince (worldOf 0xFFFFFFFF [0, 0, 1])
          (MMCSendCommand referenceConsts (worldOf 0xFFFFFFFF [0, 0, 1])
            referenceConsts.MMC_CMD55 0).2 ∧
      ∀ v, Event.write Register.MMCHS_CMD v ∈
          eventsSince (worldOf 0xFFFFFFFF [0, 0, 1])
            (MMCSendCommand referenceConsts (worldOf 0xFFFFFFFF [0, 0, 1])
              referenceConsts.MMC_CMD55 0).2 →
        v = (MMCSendCommand referenceConsts (worldOf 0xFFFFFFFF [0, 0, 1])
          referenceConsts.MMC_CMD55 0).2.LastExecutedCommand :=
  (C2_last_executed_command referenceConsts (worldOf 0xFFFFFFFF [0, 0, 1])
    referenceConsts.MMC_CMD55 0).1 (by decide) (by decide)

theorem TranslateCommand_app_supported (k : Consts) (Command Argument : Nat)
    (h : (appLabels k).Nodup) (hcodes : ∀ c ∈ appCodes k, c ≠ 0xffffffff) :
    (TranslateCommand k k.CMD55 Command Argument).1 ≠ 0xffffffff ↔ Command ∈ appLabels k := by
  obtain ⟨e1, e2, e3, e4⟩ := TranslateCommand_app_labels k Argument h
  constructor
  · intro hne
    by_contra hnot
    exact hne (by rw [TranslateCommand_app_other k Command Argument hnot])
  · intro hmem
    simp only [appLabels, List.mem_cons, List.mem_singleton, List.not_mem_nil, or_false] at hmem
    rcases hmem with hc | hc | hc | hc <;> subst hc
    · rw [e1]
      exact hcodes _ (by simp [appCodes])
    · rw [e2]
      exact hcodes _ (by simp [appCodes])
    · rw [e3]
      exact hcodes _ (by simp [appCodes])
    · rw [e4]
      exact hcodes _ (by simp [appCodes])

/-- C6 (counterexample): with `LastExecutedCommand = CMD55`, `TranslateCommand`
yields the Unsupported value for the generic command 20, but `MMCSendCommand` of
that command returns `EFI_SUCCESS`, not `EFI_UNSUPPORTED`. -/
theorem C6_counterexample :
    (TranslateCommand referenceConsts referenceConsts.CMD55 referenceConsts.MMC_CMD20 0).1 =
        0xFFFFFFFF ∧
      (MMCSendCommand referenceConsts (worldOf referenceConsts.CMD55 [])
        referenceConsts.MMC_CMD20 0).1 = EFI_SUCCESS ∧
      (MMCSendCommand referenceConsts (worldOf referenceConsts.CMD55 [])
        referenceConsts.MMC_CMD20 0).1 ≠ EFI_UNSUPPORTED := by
  decide

/-- C6 (amended): when `LastExecutedCommand` is `CMD55` (the four labels of the
application `switch` being distinct and its codes different from `0xFFFFFFFF`),
`TranslateCommand` maps `MMC_CMD6`, `MMC_ACMD22`, `MMC_ACMD41`, `MMC_ACMD51` to
`ACMD6`, `ACMD22`, `ACMD41`, `ACMD51` and returns `0xFFFFFFFF` for every other
generic command and every argument, the standard commands 0 and 55 included; for
each such command other than the ignored `MMC_CMD20`, `MMCSendCommand` returns
`EFI_UNSUPPORTED` and leaves the state as it was, `LastExecutedCommand` still
`CMD55`. -/
theorem C6_app_translation (k : Consts) (hlabels : (appLabels k).Nodup)
    (hcodes : ∀ c ∈ appCodes k, c ≠ 0xffffffff)
    (hstd : k.MMC_CMD0 ∉ appLabels k ∧ k.MMC_CMD55 ∉ appLabels k) :
    (∀ Argument,
        (TranslateCommand k k.CMD55 k.MMC_CMD6 Argument).1 = k.ACMD6 ∧
        (TranslateCommand k k.CMD55 k.MMC_ACMD22 Argument).1 = k.ACMD22 ∧
        (TranslateCommand k k.CMD55 k.MMC_ACMD41 Argument).1 = k.ACMD41 ∧
        (TranslateCommand k k.CMD55 k.MMC_ACMD51 Argument).1 = k.ACMD51) ∧
      (∀ Command Argument,
        (TranslateCommand k k.CMD55 Command Argument).1 ≠ 0xffffffff ↔
          Command ∈ appLabels k) ∧
      (∀ Command Argument, Command ∉ appLabels k →
        (TranslateCommand k k.CMD55 Command Argument).1 = 0xffffffff) ∧
      (∀ Argument,
        (TranslateCommand k k.CMD55 k.MMC_CMD0 Argument).1 = 0xffffffff ∧
        (TranslateCommand k k.CMD55 k.MMC_CMD55 Argument).1 = 0xffffffff) ∧
      (∀ (w : World) Command Argument, w.LastExecutedCommand = k.CMD55 →
        Command ∉ appLabels k → Command ≠ k.MMC_CMD20 →
        MMCSendCommand k w Command Argument = (EFI_UNSUPPORTED, w) ∧
          (MMCSendCommand k w Command Argument).2.LastExecutedCommand = k.CMD55) := by
  refine ⟨?_, ?_, ?_, ?_, ?_⟩
  · intro Argument
    obtain ⟨e1, e2, e3, e4⟩ := TranslateCommand_app_labels k Argument hlabels
    rw [e1, e2, e3, e4]
    exact ⟨rfl, rfl, rfl, rfl⟩
  · intro Command Argument
    exact TranslateCommand_app_supported k Command Argument hlabels hcodes
  · intro Command Argument h
    rw [TranslateCommand_app_other k Command Argument h]
  · intro Argument
    rw [TranslateCommand_app_other k _ Argument hstd.1,
      TranslateCommand_app_other k _ Argument hstd.2]
    exact ⟨rfl, rfl⟩
  · intro w Command Argument hw hc h20
    have ht : TranslateCommand k w.LastExecutedCommand Command Argument = (0xffffffff, true) := by
      rw [hw]
      exact TranslateCommand_app_other k Command Argument hc
    have hr : MMCSendCommand k w Command Argument = (EFI_UNSUPPORTED, w) := by
      rw [MMCSendCommand_unsupported k w Command Argument (IgnoreCommand_eq_false k _ h20)
        (by rw [ht]), ht]
      rfl
    rw [hr]
    exact ⟨rfl, hw⟩

/-- C6 at a concrete assignment of the header names. -/
theorem C6_app_translation_witness :
    (∀ Argument,
        (TranslateCommand referenceConsts referenceConsts.CMD55 referenceConsts.MMC_CMD6
          Argument).1 = referenceConsts.ACMD6 ∧
        (TranslateCommand referenceConsts referenceConsts.CMD55 referenceConsts.MMC_ACMD22
          Argument).1 = referenceConsts.ACMD22 ∧
        (TranslateCommand referenceConsts referenceConsts.CMD55 referenceConsts.MMC_ACMD41
          Argument).1 = referenceConsts.ACMD41 ∧
        (TranslateCommand referenceConsts referenceConsts.CMD55 referenceConsts.MMC_ACMD51
          Argument).1 = referenceConsts.ACMD51) ∧
      (∀ Command Argument,
        (TranslateCommand referenceConsts referenceConsts.CMD55 Command Argument).1 ≠
            0xffffffff ↔ Command ∈ appLabels referenceConsts) ∧
      (∀ Command Argument, Command ∉ appLabels referenceConsts →
        (TranslateCommand referenceConsts referenceConsts.CMD55 Command Argument).1 =
          0xffffffff) ∧
      (∀ Argument,
        (TranslateCommand referenceConsts referenceConsts.CMD55 referenceConsts.MMC_CMD0
          Argument).1 = 0xffffffff ∧
        (TranslateCommand referenceConsts referenceConsts.CMD55 referenceConsts.MMC_CMD55
          Argument).1 = 0xffffffff) ∧
      (∀ (w : World) Command Argument, w.LastExecutedCommand = referenceConsts.CMD55 →
        Command ∉ appLabels referenceConsts → Command ≠ referenceConsts.MMC_CMD20 →
        MMCSendCommand referenceConsts w Command Argument = (EFI_UNSUPPORTED, w) ∧
          (MMCSendCommand referenceConsts w Command Argument).2.LastExecutedCommand =
            referenceConsts.CMD55) :=
  C6_app_translation referenceConsts (by decide) (by decide) (by decide)

/-- C7: when `LastExecutedCommand` is not `CMD55` (the labels of the standard
`switch` being distinct, its codes different from `0xFFFFFFFF`, and the
application-only identifiers not among its labels), `TranslateCommand` returns a
native code exactly for the commands 0, 1, 2, 3, 5, 6, 7, 8, 9, 11, 12, 13, 16,
17, 18, 23, 24, 25, 55, each mapped to the native code of the same index
(command 8 to `CMD8_SD` or `CMD8_MMC` by its argument, command 6 to `CMD6`, which
is not `ACMD6` when the two codes differ), and `0xFFFFFFFF` for every other
identifier, `MMC_ACMD22`, `MMC_ACMD41` and `MMC_ACMD51` included. -/
theorem C7_standard_translation (k : Consts) (Last : Nat) (hLast : Last ≠ k.CMD55)
    (hlabels : (standardLabels k).Nodup)
    (hcodes : ∀ c ∈ standardCodes k, c ≠ 0xffffffff)
    (happ : k.MMC_ACMD22 ∉ standardLabels k ∧ k.MMC_ACMD41 ∉ standardLabels k ∧
      k.MMC_ACMD51 ∉ standardLabels k) :
    (∀ Command Argument,
        (TranslateCommand k Last Command Argument).1 ≠ 0xffffffff ↔
          Command ∈ standardLabels k) ∧
      (∀ Command Argument, Command ∉ standardLabels k →
        (TranslateCommand k Last Command Argument).1 = 0xffffffff) ∧
      (∀ Command Code Argument, (Command, Code) ∈ standardTable k Argument →
        (TranslateCommand k Last Command Argument).1 = Code) ∧
      (∀ Argument,
        (TranslateCommand k Last k.MMC_CMD0 Argument).1 = k.CMD0 ∧
        (TranslateCommand k Last k.MMC_CMD1 Argument).1 = k.CMD1 ∧
        (TranslateCommand k Last k.MMC_CMD2 Argument).1 = k.CMD2 ∧
        (TranslateCommand k Last k.MMC_CMD3 Argument).1 = k.CMD3 ∧
        (TranslateCommand k Last k.MMC_CMD5 Argument).1 = k.CMD5 ∧
        (TranslateCommand k Last k.MMC_CMD6 Argument).1 = k.CMD6 ∧
        (TranslateCommand k Last k.MMC_CMD7 Argument).1 = k.CMD7 ∧
        (TranslateCommand k Last k.MMC_CMD8 Argument).1 =
          (if Argument = k.CMD8_SD_ARG then k.CMD8_SD else k.CMD8_MMC) ∧
        (TranslateCommand k Last k.MMC_CMD9 Argument).1 = k.CMD9 ∧
        (TranslateCommand k Last k.MMC_CMD11 Argument).1 = k.CMD11 ∧
        (TranslateCommand k Last k.MMC_CMD12 Argument).1 = k.CMD12 ∧
        (TranslateCommand k Last k.MMC_CMD13 Argument).1 = k.CMD13 ∧
        (TranslateCommand k Last k.MMC_CMD16 Argument).1 = k.CMD16 ∧
        (TranslateCommand k Last k.MMC_CMD17 Argument).1 = k.CMD17 ∧
        (TranslateCommand k Last k.MMC_CMD18 Argument).1 = k.CMD18 ∧
        (TranslateCommand k Last k.MMC_CMD23 Argument).1 = k.CMD23 ∧
        (TranslateCommand k Last k.MMC_CMD24 Argument).1 = k.CMD24 ∧
        (TranslateCommand k Last k.MMC_CMD25 Argument).1 = k.CMD25 ∧
        (TranslateCommand k Last k.MMC_CMD55 Argument).1 = k.CMD55) ∧
      (k.CMD6 ≠ k.ACMD6 → ∀ Argument,
        (TranslateCommand k Last k.MMC_CMD6 Argument).1 ≠ k.ACMD6) ∧
      (∀ Argument,
        (TranslateCommand k Last k.MMC_ACMD22 Argument).1 = 0xffffffff ∧
        (TranslateCommand k Last k.MMC_ACMD41 Argument).1 = 0xffffffff ∧
        (TranslateCommand k Last k.MMC_ACMD51 Argument).1 = 0xffffffff) := by
  have hentry : ∀ Command Code Argument, (Command, Code) ∈ standardTable k Argument →
      (TranslateCommand k Last Command Argument).1 = Code :=
    fun Command Code Argument hm =>
      TranslateCommand_standard_entry k Last Argument hLast hlabels Command Code hm
  refine ⟨?_, ?_, hentry, ?_, ?_, ?_⟩
  · intro Command Argument
    exact TranslateCommand_standard_supported k Last Command Argument hLast hlabels hcodes
  · intro Command Argument h
    rw [TranslateCommand_standard_other k Last Command Argument hLast h]
  · intro Argument
    refine ⟨?_, ?_, ?_, ?_, ?_, ?_, ?_, ?_, ?_, ?_, ?_, ?_, ?_, ?_, ?_, ?_, ?_, ?_, ?_⟩ <;>
      exact hentry _ _ Argument (by simp [standardTable])
  · intro hne Argument
    rw [hentry k.MMC_CMD6 k.CMD6 Argument (by simp [standardTable])]
    exact hne
  · intro Argument
    rw [TranslateCommand_standard_other k Last _ Argument hLast happ.1,
      TranslateCommand_standard_other k Last _ Argument hLast happ.2.1,
      TranslateCommand_standard_other k Last _ Argument hLast happ.2.2]
    exact ⟨rfl, rfl, rfl⟩

/-- C7 at a concrete assignment of the header names, from the initial state
(`LastExecutedCommand` the sentinel). -/
theorem C7_standard_translation_witness :
    (∀ Command Argument,
        (TranslateCommand referenceConsts 0xFFFFFFFF Command Argument).1 ≠ 0xffffffff ↔
          Command ∈ standardLabels referenceConsts) ∧
      (∀ Command Argument, Command ∉ standardLabels referenceConsts →
        (TranslateCommand referenceConsts 0xFFFFFFFF Command Argument).1 = 0xffffffff) ∧
      (∀ Command Code Argument, (Command, Code) ∈ standardTable referenceConsts Argument →
        (TranslateCommand referenceConsts 0xFFFFFFFF Command Argument).1 = Code) ∧
      (∀ Argument,
        (TranslateCommand referenceConsts 0xFFFFFFFF referenceConsts.MMC_CMD0 Argument).1 = referenceConsts.CMD0 ∧
        (TranslateCommand referenceConsts 0xFFFFFFFF referenceConsts.MMC_CMD1 Argument).1 = referenceConsts.CMD1 ∧
        (TranslateCommand referenceConsts 0xFFFFFFFF referenceConsts.MMC_CMD2 Argument).1 = referenceConsts.CMD2 ∧
        (TranslateCommand referenceConsts 0xFFFFFFFF referenceConsts.MMC_CMD3 Argument).1 = referenceConsts.CMD3 ∧
        (TranslateCommand referenceConsts 0xFFFFFFFF referenceConsts.MMC_CMD5 Argument).1 = referenceConsts.CMD5 ∧
        (TranslateCommand referenceConsts 0xFFFFFFFF referenceConsts.MMC_CMD6 Argument).1 = referenceConsts.CMD6 ∧
        (TranslateCommand referenceConsts 0xFFFFFFFF referenceConsts.MMC_CMD7 Argument).1 = referenceConsts.CMD7 ∧
        (TranslateCommand referenceConsts 0xFFFFFFFF referenceConsts.MMC_CMD8 Argument).1 =
          (if Argument = referenceConsts.CMD8_SD_ARG then referenceConsts.CMD8_SD else referenceConsts.CMD8_MMC) ∧
        (TranslateCommand referenceConsts 0xFFFFFFFF referenceConsts.MMC_CMD9 Argument).1 = referenceConsts.CMD9 ∧
        (TranslateCommand referenceConsts 0xFFFFFFFF referenceConsts.MMC_CMD11 Argument).1 = referenceConsts.CMD11 ∧
        (TranslateCommand referenceConsts 0xFFFFFFFF referenceConsts.MMC_CMD12 Argument).1 = referenceConsts.CMD12 ∧
        (TranslateCommand referenceConsts 0xFFFFFFFF referenceConsts.MMC_CMD13 Argument).1 = referenceConsts.CMD13 ∧
        (TranslateCommand referenceConsts 0xFFFFFFFF referenceConsts.MMC_CMD16 Argument).1 = referenceConsts.CMD16 ∧
        (TranslateCommand referenceConsts 0xFFFFFFFF referenceConsts.MMC_CMD17 Argument).1 = referenceConsts.CMD17 ∧
        (TranslateCommand referenceConsts 0xFFFFFFFF referenceConsts.MMC_CMD18 Argument).1 = referenceConsts.CMD18 ∧
        (TranslateCommand referenceConsts 0xFFFFFFFF referenceConsts.MMC_CMD23 Argument).1 = referenceConsts.CMD23 ∧
        (TranslateCommand referenceConsts 0xFFFFFFFF referenceConsts.MMC_CMD24 Argument).1 = referenceConsts.CMD24 ∧
        (TranslateCommand referenceConsts 0xFFFFFFFF referenceConsts.MMC_CMD25 Argument).1 = referenceConsts.CMD25 ∧
        (TranslateCommand referenceConsts 0xFFFFFFFF referenceConsts.MMC_CMD55 Argument).1 = referenceConsts.CMD55) ∧
      (referenceConsts.CMD6 ≠ referenceConsts.ACMD6 → ∀ Argument,
        (TranslateCommand referenceConsts 0xFFFFFFFF referenceConsts.MMC_CMD6 Argument).1 ≠ referenceConsts.ACMD6) ∧
      (∀ Argument,
        (TranslateCommand referenceConsts 0xFFFFFFFF referenceConsts.MMC_ACMD22 Argument).1 = 0xffffffff ∧
        (TranslateCommand referenceConsts 0xFFFFFFFF referenceConsts.MMC_ACMD41 Argument).1 = 0xffffffff ∧
        (TranslateCommand referenceConsts 0xFFFFFFFF referenceConsts.MMC_ACMD51 Argument).1 = 0xffffffff) :=
  C7_standard_translation referenceConsts 0xFFFFFFFF (by decide) (by decide) (by decide)
    (by decide)

/-- C8: from a state whose `LastExecutedCommand` is not `CMD55` (the labels of the
standard `switch` being distinct and commands 55 and 6 not the ignored one), if
the dispatch of the generic command 55 returns `EFI_SUCCESS`, then
`LastExecutedCommand` is `CMD55` and the following dispatch of the generic
command 6, with any argument, translates it to `ACMD6`: every value it writes to
the command register is `ACMD6` (so never `CMD6`, when the two codes differ), it
does not write 64 to the block-size register, and when it returns `EFI_SUCCESS`
it has written `ACMD6` to the command register and `LastExecutedCommand` is
`ACMD6`. -/
theorem C8_app_command_after_cmd55 (k : Consts) (w : World) (Argument55 Argument6 : Nat)
    (hLast : w.LastExecutedCommand ≠ k.CMD55) (hlabels : (standardLabels k).Nodup)
    (h20 : k.MMC_CMD55 ≠ k.MMC_CMD20 ∧ k.MMC_CMD6 ≠ k.MMC_CMD20)
    (hfirst : (MMCSendCommand k w k.MMC_CMD55 Argument55).1 = EFI_SUCCESS) :
    (MMCSendCommand k w k.MMC_CMD55 Argument55).2.LastExecutedCommand = k.CMD55 ∧
      TranslateCommand k (MMCSendCommand k w k.MMC_CMD55 Argument55).2.LastExecutedCommand
        k.MMC_CMD6 Argument6 = (k.ACMD6, true) ∧
      (∀ v, Event.write Register.MMCHS_CMD v ∈
          eventsSince (MMCSendCommand k w k.MMC_CMD55 Argument55).2
            (MMCSendCommand k (MMCSendCommand k w k.MMC_CMD55 Argument55).2
              k.MMC_CMD6 Argument6).2 →
        v = k.ACMD6) ∧
      (k.ACMD6 ≠ k.CMD6 →
        Event.write Register.MMCHS_CMD k.CMD6 ∉
          eventsSince (MMCSendCommand k w k.MMC_CMD55 Argument55).2
            (MMCSendCommand k (MMCSendCommand k w k.MMC_CMD55 Argument55).2
              k.MMC_CMD6 Argument6).2) ∧
      Event.write Register.MMCHS_BLK 64 ∉
        eventsSince (MMCSendCommand k w k.MMC_CMD55 Argument55).2
          (MMCSendCommand k (MMCSendCommand k w k.MMC_CMD55 Argument55).2
            k.MMC_CMD6 Argument6).2 ∧
      ((MMCSendCommand k (MMCSendCommand k w k.MMC_CMD55 Argument55).2
          k.MMC_CMD6 Argument6).1 = EFI_SUCCESS →
        (MMCSendCommand k (MMCSendCommand k w k.MMC_CMD55 Argument55).2
          k.MMC_CMD6 Argument6).2.LastExecutedCommand = k.ACMD6 ∧
        Event.write Register.MMCHS_CMD k.ACMD6 ∈
          eventsSince (MMCSendCommand k w k.MMC_CMD55 Argument55).2
            (MMCSendCommand k (MMCSendCommand k w k.MMC_CMD55 Argument55).2
              k.MMC_CMD6 Argument6).2) := by
  have hign55 := IgnoreCommand_eq_false k _ h20.1
  have hign6 := IgnoreCommand_eq_false k _ h20.2
  have ht55 : (TranslateCommand k w.LastExecutedCommand k.MMC_CMD55 Argument55).1 = k.CMD55 :=
    TranslateCommand_standard_entry k _ Argument55 hLast hlabels _ _ (by simp [standardTable])
  have hnat55 : (TranslateCommand k w.LastExecutedCommand k.MMC_CMD55 Argument55).1 ≠
      0xffffffff := by
    intro hbad
    rw [MMCSendCommand_unsupported k w _ Argument55 hign55 hbad] at hfirst
    simp at hfirst
  have hw1 : (MMCSendCommand k w k.MMC_CMD55 Argument55).2.LastExecutedCommand = k.CMD55 := by
    obtain ⟨-, hlast, -⟩ := MMCSendCommand_shape k w _ Argument55 hign55 hnat55 _ rfl
    rw [hlast, hfirst, ht55]
    rfl
  generalize (MMCSendCommand k w k.MMC_CMD55 Argument55).2 = w1 at hw1 ⊢
  have ht6 : TranslateCommand k w1.LastExecutedCommand k.MMC_CMD6 Argument6 = (k.ACMD6, true) := by
    rw [hw1]
    simp [TranslateCommand]
  refine ⟨hw1, ht6, ?_⟩
  by_cases hnat6 : k.ACMD6 = 0xffffffff
  · have hr : MMCSendCommand k w1 k.MMC_CMD6 Argument6 = (EFI_UNSUPPORTED, w1) := by
      rw [MMCSendCommand_unsupported k w1 _ Argument6 hign6 (by rw [ht6]; exact hnat6), ht6]
      rfl
    rw [hr]
    have hev : eventsSince w1 w1 = [] := eventsSince_eq (by simp)
    simp only [hev, List.not_mem_nil, false_imp_iff, implies_true, not_false_eq_true,
      true_and]
    intro h
    simp at h
  · have hnat6' : (TranslateCommand k w1.LastExecutedCommand k.MMC_CMD6 Argument6).1 ≠
        0xffffffff := by
      rw [ht6]
      exact hnat6
    obtain ⟨hall, hmem, hblk⟩ := MMCSendCommand_writes k w1 _ Argument6 hign6 hnat6'
    obtain ⟨-, hlast, -⟩ := MMCSendCommand_shape k w1 _ Argument6 hign6 hnat6' _ rfl
    rw [ht6] at hall hmem hlast
    refine ⟨hall, ?_, ?_, ?_⟩
    · intro hne hin
      exact hne (hall _ hin).symm
    · intro hin
      exact hblk hin hw1
    · intro hs
      refine ⟨?_, hmem hs⟩
      rw [hlast, hs]
      rfl

/-- C8 at a concrete input: from the initial state, with the hardware ready and
the command 55 completing at the first status read. -/
theorem C8_app_command_after_cmd55_witness :
    (MMCSendCommand referenceConsts (worldOf 0xFFFFFFFF [0, 0, 1, 0, 0, 1])
        referenceConsts.MMC_CMD55 0).2.LastExecutedCommand = referenceConsts.CMD55 ∧
      (MMCSendCommand referenceConsts
        (MMCSendCommand referenceConsts (worldOf 0xFFFFFFFF [0, 0, 1, 0, 0, 1])
          referenceConsts.MMC_CMD55 0).2 referenceConsts.MMC_CMD6 2).1 = EFI_SUCCESS ∧
      (MMCSendCommand referenceConsts
        (MMCSendCommand referenceConsts (worldOf 0xFFFFFFFF [0, 0, 1, 0, 0, 1])
          referenceConsts.MMC_CMD55 0).2 referenceConsts.MMC_CMD6 2).2.LastExecutedCommand =
        referenceConsts.ACMD6 ∧
      Event.write Register.MMCHS_BLK 64 ∉
        eventsSince
          (MMCSendCommand referenceConsts (worldOf 0xFFFFFFFF [0, 0, 1, 0, 0, 1])
            referenceConsts.MMC_CMD55 0).2
          (MMCSendCommand referenceConsts
            (MMCSendCommand referenceConsts (worldOf 0xFFFFFFFF [0, 0, 1, 0, 0, 1])
              referenceConsts.MMC_CMD55 0).2 referenceConsts.MMC_CMD6 2).2 :=
  have h := C8_app_command_after_cmd55 referenceConsts (worldOf 0xFFFFFFFF [0, 0, 1, 0, 0, 1])
    0 2 (by decide) (by decide) (by decide) (by decide)
  ⟨h.1, by decide, (h.2.2.2.2.2 (by decide)).1, h.2.2.2.2.1⟩

/-- C9 (counterexample): from the initial state `TranslateCommand` yields the
Unsupported value for the generic command 20, but `MMCSendCommand` of that
command returns `EFI_SUCCESS`, not `EFI_UNSUPPORTED`. -/
theorem C9_counterexample :
    (TranslateCommand referenceConsts (worldOf 0xFFFFFFFF []).LastExecutedCommand
        referenceConsts.MMC_CMD20 0).1 = 0xFFFFFFFF ∧
      (MMCSendCommand referenceConsts (worldOf 0xFFFFFFFF []) referenceConsts.MMC_CMD20 0).1 ≠
        EFI_UNSUPPORTED := by
  decide

/-- C9 (amended): for every generic command other than the ignored `MMC_CMD20`
and every argument for which `TranslateCommand` yields `0xFFFFFFFF` in the
current state, `MMCSendCommand` returns `EFI_UNSUPPORTED`, performs no register
read or write, and leaves `LastExecutedCommand` as it was. -/
theorem C9_unsupported_no_effect (k : Consts) (w : World) (Command Argument : Nat)
    (h20 : Command ≠ k.MMC_CMD20)
    (h : (TranslateCommand k w.LastExecutedCommand Command Argument).1 = 0xffffffff) :
    (MMCSendCommand k w Command Argument).1 = EFI_UNSUPPORTED ∧
      (MMCSendCommand k w Command Argument).2.LastExecutedCommand = w.LastExecutedCommand ∧
      (MMCSendCommand k w Command Argument).2.Reads = w.Reads ∧
      (∀ e ∈ eventsSince w (MMCSendCommand k w Command Argument).2,
        Event.isAccess e = false) ∧
      ((TranslateCommand k w.LastExecutedCommand Command Argument).2 = true →
        MMCSendCommand k w Command Argument = (EFI_UNSUPPORTED, w)) := by
  rw [MMCSendCommand_unsupported k w Command Argument (IgnoreCommand_eq_false k _ h20) h]
  refine ⟨rfl, ?_, ?_, ?_, ?_⟩
  · unfold ASSERT
    split_ifs <;> rfl
  · unfold ASSERT
    split_ifs <;> rfl
  · exact Appended.eventsSince (Appended.assert (fun e => Event.isAccess e = false) w _ rfl)
  · intro ht
    rw [ht]
    rfl

/-- C9 at a concrete input: the standard command 0 while `LastExecutedCommand`
is `CMD55`. -/
theorem C9_unsupported_no_effect_witness :
    (MMCSendCommand referenceConsts (worldOf referenceConsts.CMD55 [])
        referenceConsts.MMC_CMD0 7).1 = EFI_UNSUPPORTED ∧
      (MMCSendCommand referenceConsts (worldOf referenceConsts.CMD55 [])
        referenceConsts.MMC_CMD0 7).2.LastExecutedCommand =
        (worldOf referenceConsts.CMD55 []).LastExecutedCommand ∧
      (MMCSendCommand referenceConsts (worldOf referenceConsts.CMD55 [])
        referenceConsts.MMC_CMD0 7).2.Reads = (worldOf referenceConsts.CMD55 []).Reads ∧
      (∀ e ∈ eventsSince (worldOf referenceConsts.CMD55 [])
          (MMCSendCommand referenceConsts (worldOf referenceConsts.CMD55 [])
            referenceConsts.MMC_CMD0 7).2,
        Event.isAccess e = false) ∧
      ((TranslateCommand referenceConsts (worldOf referenceConsts.CMD55 []).LastExecutedCommand
          referenceConsts.MMC_CMD0 7).2 = true →
        MMCSendCommand referenceConsts (worldOf referenceConsts.CMD55 [])
          referenceConsts.MMC_CMD0 7 = (EFI_UNSUPPORTED, worldOf referenceConsts.CMD55 [])) :=
  C9_unsupported_no_effect referenceConsts (worldOf referenceConsts.CMD55 [])
    referenceConsts.MMC_CMD0 7 (by decide) (by decide)

/-- C10: for every argument and every state, `MMCSendCommand` of the generic
command 20 returns `EFI_SUCCESS` and the state it leaves is the state it found:
no event is added to the trace (no register read or write, and no assertion of
`TranslateCommand`), and `LastExecutedCommand` is unchanged, so a recorded
`CMD55` still selects the application commands afterwards. -/
theorem C10_command20_ignored (k : Consts) (w : World) (Argument : Nat) :
    MMCSendCommand k w k.MMC_CMD20 Argument = (EFI_SUCCESS, w) ∧
      eventsSince w (MMCSendCommand k w k.MMC_CMD20 Argument).2 = [] ∧
      (MMCSendCommand k w k.MMC_CMD20 Argument).2.LastExecutedCommand =
        w.LastExecutedCommand ∧
      ∀ Command Argument',
        TranslateCommand k (MMCSendCommand k w k.MMC_CMD20 Argument).2.LastExecutedCommand
            Command Argument' =
          TranslateCommand k w.LastExecutedCommand Command Argument' := by
  have h : MMCSendCommand k w k.MMC_CMD20 Argument = (EFI_SUCCESS, w) :=
    MMCSendCommand_ignored k w _ Argument (by simp [IgnoreCommand])
  rw [h]
  exact ⟨rfl, eventsSince_eq (by simp), rfl, fun _ _ => rfl⟩

/-! ## Polls against the hardware sequence -/

theorem firstRead_eq_none_iff (P : Nat → Bool) (Mmio : Nat → Nat) (n start : Nat) :
    firstRead P Mmio n start = none ↔ ∀ i, i < n → P (Mmio (start + i) % 2 ^ 32) = false := by
  induction n generalizing start with
  | zero => simp [firstRead]
  | succ n ih =>
    unfold firstRead
    split_ifs with h
    · simp only [false_iff, not_forall]
      exact ⟨0, Nat.succ_pos n, by simpa using h⟩
    · rw [Option.map_eq_none', ih]
      constructor
      · intro hall i hi
        rcases Nat.eq_zero_or_pos i with h0 | h0
        · subst h0
          simpa using h
        · have := hall (i - 1) (by omega)
          rwa [show start + 1 + (i - 1) = start + i by omega] at this
      · intro hall i hi
        have := hall (i + 1) (by omega)
        rwa [show start + (i + 1) = start + 1 + i by omega] at this

theorem firstRead_eq_some_iff (P : Nat → Bool) (Mmio : Nat → Nat) (n start j : Nat) :
    firstRead P Mmio n start = some j ↔
      j < n ∧ P (Mmio (start + j) % 2 ^ 32) = true ∧
        ∀ i, i < j → P (Mmio (start + i) % 2 ^ 32) = false := by
  induction n generalizing start j with
  | zero => simp [firstRead]
  | succ n ih =>
    unfold firstRead
    split_ifs with h
    · constructor
      · intro hj
        have hj0 : j = 0 := by simpa using hj.symm
        subst hj0
        exact ⟨Nat.succ_pos n, by simpa using h, fun i hi => absurd hi (Nat.not_lt_zero i)⟩
      · rintro ⟨-, -, hall⟩
        rcases Nat.eq_zero_or_pos j with h0 | h0
        · rw [h0]
        · have := hall 0 h0
          rw [Nat.add_zero, h] at this
          exact absurd this (by decide)
    · rw [Option.map_eq_some']
      constructor
      · rintro ⟨a, ha, rfl⟩
        obtain ⟨h1, h2, h3⟩ := (ih (start + 1) a).1 ha
        refine ⟨by omega, ?_, ?_⟩
        · rwa [show start + (a + 1) = start + 1 + a by omega]
        · intro i hi
          rcases Nat.eq_zero_or_pos i with h0 | h0
          · subst h0
            simpa using h
          · have := h3 (i - 1) (by omega)
            rwa [show start + 1 + (i - 1) = start + i by omega] at this
      · rintro ⟨h1, h2, h3⟩
        rcases Nat.eq_zero_or_pos j with h0 | h0
        · subst h0
          rw [Nat.add_zero] at h2
          exact absurd h2 h
        · refine ⟨j - 1, (ih (start + 1) (j - 1)).2 ⟨by omega, ?_, ?_⟩, by omega⟩
          · rwa [show start + 1 + (j - 1) = start + j by omega]
          · intro i hi
            have := h3 (i + 1) (by omega)
            rwa [show start + (i + 1) = start + 1 + i by omega] at this

theorem failedPolls_spec (k : Consts) (Reg : Register) (j : Nat) (w : World) :
    (failedPolls k Reg j w).Mmio = w.Mmio ∧
      (failedPolls k Reg j w).Reads = w.Reads + j ∧
      (failedPolls k Reg j w).LastExecutedCommand = w.LastExecutedCommand ∧
      (failedPolls k Reg j w).Trace = w.Trace ++ failedPollEvents k Reg w.Mmio w.Reads j := by
  induction j generalizing w with
  | zero => simp [failedPolls, failedPollEvents]
  | succ j ih =>
    obtain ⟨h1, h2, h3, h4⟩ := ih (Stall (MmioRead32 w Reg).2 k.STALL_AFTER_RETRY_US)
    unfold failedPolls
    refine ⟨h1, ?_, h3, ?_⟩
    · rw [h2]
      show w.Reads + 1 + j = w.Reads + (j + 1)
      omega
    · rw [h4]
      show (w.Trace ++ [Event.read Reg (w.Mmio w.Reads % 2 ^ 32)] ++
        [Event.stall k.STALL_AFTER_RETRY_US]) ++
          failedPollEvents k Reg w.Mmio (w.Reads + 1) j = _
      simp [failedPollEvents]

theorem PollRegisterWithMask.loop_eq (k : Consts) (Reg : Register) (Mask Expected : Nat)
    (n rc : Nat) (w : World) :
    PollRegisterWithMask.loop k Reg Mask Expected n rc w =
      match firstRead (fun v => decide (v &&& Mask = Expected)) w.Mmio n w.Reads with
      | none => (rc + n, failedPolls k Reg n w)
      | some j => (rc + j, (MmioRead32 (failedPolls k Reg j w) Reg).2) := by
  induction n generalizing rc w with
  | zero => rfl
  | succ n ih =>
    unfold PollRegisterWithMask.loop firstRead
    simp only []
    by_cases h : (MmioRead32 w Reg).1 &&& Mask = Expected
    · have h' : (w.Mmio w.Reads % 2 ^ 32) &&& Mask = Expected := h
      simp only [h, h', ne_eq, not_true_eq_false, if_false, decide_True, if_true]
      rfl
    · have h' : ¬ ((w.Mmio w.Reads % 2 ^ 32) &&& Mask = Expected) := h
      simp only [h, h', ne_eq, not_false_eq_true, if_true, decide_False, Bool.false_eq_true,
        if_false]
      rw [ih]
      show (match firstRead (fun v => decide (v &&& Mask = Expected)) w.Mmio n (w.Reads + 1) with
        | none => _
        | some j => _) = _
      cases firstRead (fun v => decide (v &&& Mask = Expected)) w.Mmio n (w.Reads + 1) with
      | none =>
        simp only [Option.map_none']
        rw [failedPolls]
        congr 1
        omega
      | some j =>
        simp only [Option.map_some']
        rw [failedPolls]
        congr 1
        omega

theorem PollRegisterWithMask_eq (k : Consts) (w : World) (Reg : Register)
    (Mask Expected : Nat) :
    PollRegisterWithMask k w Reg Mask Expected =
      match firstRead (fun v => decide (v &&& Mask = Expected)) w.Mmio k.MAX_RETRY_COUNT
          w.Reads with
      | none => (EFI_TIMEOUT, failedPolls k Reg k.MAX_RETRY_COUNT w)
      | some j => (EFI_SUCCESS, (MmioRead32 (failedPolls k Reg j w) Reg).2) := by
  unfold PollRegisterWithMask
  simp only []
  rw [PollRegisterWithMask.loop_eq]
  cases h : firstRead (fun v => decide (v &&& Mask = Expected)) w.Mmio k.MAX_RETRY_COUNT
      w.Reads with
  | none => simp
  | some j =>
    have hj := ((firstRead_eq_some_iff _ _ _ _ _).1 h).1
    have hne : ¬ (j = k.MAX_RETRY_COUNT) := by omega
    simp [hne]

theorem PollRegisterWithMask_status (k : Consts) (w : World) (Reg : Register)
    (Mask Expected : Nat) :
    (PollRegisterWithMask k w Reg Mask Expected).1 = EFI_SUCCESS ∨
      (PollRegisterWithMask k w Reg Mask Expected).1 = EFI_TIMEOUT := by
  rw [PollRegisterWithMask_eq]
  cases firstRead (fun v => decide (v &&& Mask = Expected)) w.Mmio k.MAX_RETRY_COUNT
      w.Reads with
  | none => exact Or.inr rfl
  | some j => exact Or.inl rfl

theorem SoftReset_status (k : Consts) (w : World) (Mask : Nat) :
    (SoftReset k w Mask).1 =
      (PollRegisterWithMask k (MmioOr32 w Register.MMCHS_SYSCTL Mask)
        Register.MMCHS_SYSCTL Mask 0).1 := by
  unfold SoftReset
  simp only []
  split_ifs with h
  · exact h.symm
  · rcases PollRegisterWithMask_status k (MmioOr32 w Register.MMCHS_SYSCTL Mask)
      Register.MMCHS_SYSCTL Mask 0 with h' | h'
    · exact h'.symm
    · exact absurd h' h

/-- The outcome of `PollRegisterWithMask` when the `j`-th of the reads allowed is
the first to show the expected value. -/
theorem PollRegisterWithMask_ready (k : Consts) (w : World) (Reg : Register)
    (Mask Expected j : Nat) (hj : j < k.MAX_RETRY_COUNT)
    (hsat : (w.Mmio (w.Reads + j) % 2 ^ 32) &&& Mask = Expected)
    (hfirst : ∀ i, i < j → (w.Mmio (w.Reads + i) % 2 ^ 32) &&& Mask ≠ Expected) :
    PollRegisterWithMask k w Reg Mask Expected =
      (EFI_SUCCESS, (MmioRead32 (failedPolls k Reg j w) Reg).2) := by
  have h : firstRead (fun v => decide (v &&& Mask = Expected)) w.Mmio k.MAX_RETRY_COUNT
      w.Reads = some j :=
    (firstRead_eq_some_iff _ _ _ _ _).2
      ⟨hj, by simpa using hsat, fun i hi => by simpa using hfirst i hi⟩
  rw [PollRegisterWithMask_eq, h]

/-- The outcome of `PollRegisterWithMask` when none of the reads allowed shows
the expected value. -/
theorem PollRegisterWithMask_exhausted (k : Consts) (w : World) (Reg : Register)
    (Mask Expected : Nat)
    (hnone : ∀ i, i < k.MAX_RETRY_COUNT → (w.Mmio (w.Reads + i) % 2 ^ 32) &&& Mask ≠ Expected) :
    PollRegisterWithMask k w Reg Mask Expected =
      (EFI_TIMEOUT, failedPolls k Reg k.MAX_RETRY_COUNT w) := by
  have h : firstRead (fun v => decide (v &&& Mask = Expected)) w.Mmio k.MAX_RETRY_COUNT
      w.Reads = none :=
    (firstRead_eq_none_iff _ _ _ _).2 (fun i hi => by simpa using hnone i hi)
  rw [PollRegisterWithMask_eq, h]

/-- Either some read within the budget shows the expected value, and then there
is a first one, or none does. -/
theorem first_or_none (sat : Nat → Prop) [DecidablePred sat] (n : Nat) :
    (∃ j, j < n ∧ sat j ∧ ∀ i, i < j → ¬ sat i) ∨ ∀ i, i < n → ¬ sat i := by
  by_cases h : ∃ j, j < n ∧ sat j
  · left
    refine ⟨Nat.find h, (Nat.find_spec h).1, (Nat.find_spec h).2, ?_⟩
    intro i hi hs
    exact Nat.find_min h hi ⟨lt_trans hi (Nat.find_spec h).1, hs⟩
  · right
    intro i hi hs
    exact h ⟨i, hi, hs⟩

theorem eventsSince_read_failedPolls (k : Consts) (Reg : Register) (j : Nat) (w : World) :
    eventsSince w (MmioRead32 (failedPolls k Reg j w) Reg).2 =
      failedPollEvents k Reg w.Mmio w.Reads j ++
        [Event.read Reg (w.Mmio (w.Reads + j) % 2 ^ 32)] := by
  obtain ⟨h1, h2, -, h4⟩ := failedPolls_spec k Reg j w
  apply eventsSince_eq
  rw [MmioRead32_Trace, h4, List.append_assoc]
  show _ ++ (_ ++ [Event.read Reg ((failedPolls k Reg j w).Mmio (failedPolls k Reg j w).Reads
    % 2 ^ 32)]) = _
  rw [h1, h2]

/-- C20: `PollRegisterWithMask` returns for every hardware sequence, after at
most `MAX_RETRY_COUNT` reads of the register, with `EFI_SUCCESS` or
`EFI_TIMEOUT`: `EFI_SUCCESS` exactly when one of the first `MAX_RETRY_COUNT`
reads `r` has `(r & Mask) == ExpectedValue`, and then it stops at the first such
read (the events are the unsuccessful polls, each a read and a stall, and that
read, nothing after it); `EFI_TIMEOUT` otherwise, after `MAX_RETRY_COUNT` polls.
`SoftReset (Mask)` returns `EFI_TIMEOUT` exactly when none of the
`MAX_RETRY_COUNT` reads after its read-modify-write shows the bits of `Mask`
all clear, and `EFI_SUCCESS` otherwise. -/
theorem C20_poll_terminates (k : Consts) (w : World) (Reg : Register) (Mask Expected : Nat) :
    ((PollRegisterWithMask k w Reg Mask Expected).1 = EFI_SUCCESS ∨
        (PollRegisterWithMask k w Reg Mask Expected).1 = EFI_TIMEOUT) ∧
      (PollRegisterWithMask k w Reg Mask Expected).2.Reads ≤ w.Reads + k.MAX_RETRY_COUNT ∧
      ((PollRegisterWithMask k w Reg Mask Expected).1 = EFI_SUCCESS ↔
        ∃ i, i < k.MAX_RETRY_COUNT ∧ (w.Mmio (w.Reads + i) % 2 ^ 32) &&& Mask = Expected) ∧
      (∀ j, j < k.MAX_RETRY_COUNT → (w.Mmio (w.Reads + j) % 2 ^ 32) &&& Mask = Expected →
        (∀ i, i < j → (w.Mmio (w.Reads + i) % 2 ^ 32) &&& Mask ≠ Expected) →
        (PollRegisterWithMask k w Reg Mask Expected).1 = EFI_SUCCESS ∧
          (PollRegisterWithMask k w Reg Mask Expected).2.Reads = w.Reads + j + 1 ∧
          eventsSince w (PollRegisterWithMask k w Reg Mask Expected).2 =
            failedPollEvents k Reg w.Mmio w.Reads j ++
              [Event.read Reg (w.Mmio (w.Reads + j) % 2 ^ 32)]) ∧
      ((∀ i, i < k.MAX_RETRY_COUNT → (w.Mmio (w.Reads + i) % 2 ^ 32) &&& Mask ≠ Expected) →
        (PollRegisterWithMask k w Reg Mask Expected).1 = EFI_TIMEOUT ∧
          (PollRegisterWithMask k w Reg Mask Expected).2.Reads = w.Reads + k.MAX_RETRY_COUNT ∧
          eventsSince w (PollRegisterWithMask k w Reg Mask Expected).2 =
            failedPollEvents k Reg w.Mmio w.Reads k.MAX_RETRY_COUNT) ∧
      ((SoftReset k w Mask).1 = EFI_TIMEOUT ↔
        ∀ i, i < k.MAX_RETRY_COUNT → (w.Mmio (w.Reads + 1 + i) % 2 ^ 32) &&& Mask ≠ 0) ∧
      ((SoftReset k w Mask).1 = EFI_SUCCESS ∨ (SoftReset k w Mask).1 = EFI_TIMEOUT) := by
  have hready : ∀ j, j < k.MAX_RETRY_COUNT →
      (w.Mmio (w.Reads + j) % 2 ^ 32) &&& Mask = Expected →
      (∀ i, i < j → (w.Mmio (w.Reads + i) % 2 ^ 32) &&& Mask ≠ Expected) →
      (PollRegisterWithMask k w Reg Mask Expected).1 = EFI_SUCCESS ∧
        (PollRegisterWithMask k w Reg Mask Expected).2.Reads = w.Reads + j + 1 ∧
        eventsSince w (PollRegisterWithMask k w Reg Mask Expected).2 =
          failedPollEvents k Reg w.Mmio w.Reads j ++
            [Event.read Reg (w.Mmio (w.Reads + j) % 2 ^ 32)] := by
    intro j hj hsat hfirst
    rw [PollRegisterWithMask_ready k w Reg Mask Expected j hj hsat hfirst]
    refine ⟨rfl, ?_, eventsSince_read_failedPolls k Reg j w⟩
    show (failedPolls k Reg j w).Reads + 1 = _
    rw [(failedPolls_spec k Reg j w).2.1]
  have hnone : (∀ i, i < k.MAX_RETRY_COUNT →
      (w.Mmio (w.Reads + i) % 2 ^ 32) &&& Mask ≠ Expected) →
      (PollRegisterWithMask k w Reg Mask Expected).1 = EFI_TIMEOUT ∧
        (PollRegisterWithMask k w Reg Mask Expected).2.Reads = w.Reads + k.MAX_RETRY_COUNT ∧
        eventsSince w (PollRegisterWithMask k w Reg Mask Expected).2 =
          failedPollEvents k Reg w.Mmio w.Reads k.MAX_RETRY_COUNT := by
    intro hall
    rw [PollRegisterWithMask_exhausted k w Reg Mask Expected hall]
    obtain ⟨-, h2, -, h4⟩ := failedPolls_spec k Reg k.MAX_RETRY_COUNT w
    exact ⟨rfl, h2, eventsSince_eq h4⟩
  have hcases := first_or_none
    (fun i => (w.Mmio (w.Reads + i) % 2 ^ 32) &&& Mask = Expected) k.MAX_RETRY_COUNT
  have hstat := PollRegisterWithMask_status k w Reg Mask Expected
  have hor : (MmioOr32 w Register.MMCHS_SYSCTL Mask).Mmio = w.Mmio ∧
      (MmioOr32 w Register.MMCHS_SYSCTL Mask).Reads = w.Reads + 1 := ⟨rfl, rfl⟩
  refine ⟨hstat, ?_, ?_, hready, hnone, ?_, ?_⟩
  · rcases hcases with ⟨j, hj, hsat, hfirst⟩ | hall
    · rw [(hready j hj hsat hfirst).2.1]
      omega
    · rw [(hnone hall).2.1]
  · constructor
    · intro hs
      rcases hcases with ⟨j, hj, hsat, -⟩ | hall
      · exact ⟨j, hj, hsat⟩
      · rw [(hnone hall).1] at hs
        exact absurd hs (by decide)
    · rintro ⟨i, hi, hsat⟩
      rcases hcases with ⟨j, hj, hsat', hfirst⟩ | hall
      · exact (hready j hj hsat' hfirst).1
      · exact absurd hsat (hall i hi)
  · rw [SoftReset_status]
    rcases first_or_none
      (fun i => (w.Mmio (w.Reads + 1 + i) % 2 ^ 32) &&& Mask = 0) k.MAX_RETRY_COUNT with
      ⟨j, hj, hsat, hfirst⟩ | hall
    · rw [PollRegisterWithMask_ready k _ Register.MMCHS_SYSCTL Mask 0 j hj
        (by rw [hor.1, hor.2]; exact hsat) (by rw [hor.1, hor.2]; exact hfirst)]
      constructor
      · intro h
        simp at h
      · intro hall
        exact absurd hsat (hall j hj)
    · rw [PollRegisterWithMask_exhausted k _ Register.MMCHS_SYSCTL Mask 0
        (by rw [hor.1, hor.2]; exact hall)]
      exact ⟨fun _ => hall, fun _ => rfl⟩
  · rw [SoftReset_status]
    exact PollRegisterWithMask_status k _ _ _ _

/-- C20 at a concrete input: the register shows the expected value at the third
read. -/
theorem C20_poll_terminates_witness :
    (PollRegisterWithMask referenceConsts (worldOf 0xFFFFFFFF [1, 1, 0])
        Register.MMCHS_PRES_STATE 1 0).1 = EFI_SUCCESS ∧
      (PollRegisterWithMask referenceConsts (worldOf 0xFFFFFFFF [1, 1, 0])
        Register.MMCHS_PRES_STATE 1 0).2.Reads = (worldOf 0xFFFFFFFF [1, 1, 0]).Reads + 2 + 1 ∧
      eventsSince (worldOf 0xFFFFFFFF [1, 1, 0])
          (PollRegisterWithMask referenceConsts (worldOf 0xFFFFFFFF [1, 1, 0])
            Register.MMCHS_PRES_STATE 1 0).2 =
        failedPollEvents referenceConsts Register.MMCHS_PRES_STATE
            (worldOf 0xFFFFFFFF [1, 1, 0]).Mmio (worldOf 0xFFFFFFFF [1, 1, 0]).Reads 2 ++
          [Event.read Register.MMCHS_PRES_STATE
            ((worldOf 0xFFFFFFFF [1, 1, 0]).Mmio ((worldOf 0xFFFFFFFF [1, 1, 0]).Reads + 2) %
              2 ^ 32)] :=
  (C20_poll_terminates referenceConsts (worldOf 0xFFFFFFFF [1, 1, 0])
    Register.MMCHS_PRES_STATE 1 0).2.2.2.1 2 (by decide) (by decide) (by decide)

/-! ## The dual-purpose command 8 -/

theorem nodup_getElem_ne {l : List Nat} (h : l.Nodup) (i j : Nat) (hi : i < l.length)
    (hj : j < l.length) (hij : i ≠ j) : l[i] ≠ l[j] := by
  intro heq
  exact hij ((List.Nodup.getElem_inj_iff h).1 heq)

theorem TranslateCommand_command8 (k : Consts) (Last Argument : Nat) (hLast : Last ≠ k.CMD55)
    (hlabels : (standardLabels k).Nodup) :
    TranslateCommand k Last k.MMC_CMD8 Argument =
      (if Argument = k.CMD8_SD_ARG then (k.CMD8_SD, true)
        else (k.CMD8_MMC, decide (Argument = k.CMD8_MMC_ARG))) := by
  have hlen : (standardLabels k).length = 19 := rfl
  have h0 : ¬ k.MMC_CMD8 = k.MMC_CMD0 :=
    nodup_getElem_ne hlabels 7 0 (by rw [hlen]; omega) (by rw [hlen]; omega) (by omega)
  have h1 : ¬ k.MMC_CMD8 = k.MMC_CMD1 :=
    nodup_getElem_ne hlabels 7 1 (by rw [hlen]; omega) (by rw [hlen]; omega) (by omega)
  have h2 : ¬ k.MMC_CMD8 = k.MMC_CMD2 :=
    nodup_getElem_ne hlabels 7 2 (by rw [hlen]; omega) (by rw [hlen]; omega) (by omega)
  have h3 : ¬ k.MMC_CMD8 = k.MMC_CMD3 :=
    nodup_getElem_ne hlabels 7 3 (by rw [hlen]; omega) (by rw [hlen]; omega) (by omega)
  have h5 : ¬ k.MMC_CMD8 = k.MMC_CMD5 :=
    nodup_getElem_ne hlabels 7 4 (by rw [hlen]; omega) (by rw [hlen]; omega) (by omega)
  have h6 : ¬ k.MMC_CMD8 = k.MMC_CMD6 :=
    nodup_getElem_ne hlabels 7 5 (by rw [hlen]; omega) (by rw [hlen]; omega) (by omega)
  have h7 : ¬ k.MMC_CMD8 = k.MMC_CMD7 :=
    nodup_getElem_ne hlabels 7 6 (by rw [hlen]; omega) (by rw [hlen]; omega) (by omega)
  simp only [TranslateCommand, hLast, if_false, h0, h1, h2, h3, h5, h6, h7, if_true]

/-- C11: in standard mode (`LastExecutedCommand` not `CMD55`, the labels of the
standard `switch` being distinct), `TranslateCommand` of the generic command 8
returns `CMD8_SD` when the argument equals `CMD8_SD_ARG` and `CMD8_MMC` for every
other argument (so `CMD8_SD` exactly for `CMD8_SD_ARG`, the two codes being
different); on that other branch the asserted condition holds exactly when the
argument equals `CMD8_MMC_ARG`; an argument matching neither fails the assertion
and still yields `CMD8_MMC`, which is not the Unsupported value. -/
theorem C11_command8_variants (k : Consts) (Last Argument : Nat) (hLast : Last ≠ k.CMD55)
    (hlabels : (standardLabels k).Nodup) (hcodes : k.CMD8_SD ≠ k.CMD8_MMC)
    (hmmc : k.CMD8_MMC ≠ 0xffffffff) :
    ((TranslateCommand k Last k.MMC_CMD8 Argument).1 = k.CMD8_SD ↔
        Argument = k.CMD8_SD_ARG) ∧
      (Argument = k.CMD8_SD_ARG →
        TranslateCommand k Last k.MMC_CMD8 Argument = (k.CMD8_SD, true)) ∧
      (Argument ≠ k.CMD8_SD_ARG →
        (TranslateCommand k Last k.MMC_CMD8 Argument).1 = k.CMD8_MMC ∧
          ((TranslateCommand k Last k.MMC_CMD8 Argument).2 = true ↔
            Argument = k.CMD8_MMC_ARG)) ∧
      (Argument ≠ k.CMD8_SD_ARG → Argument ≠ k.CMD8_MMC_ARG →
        (TranslateCommand k Last k.MMC_CMD8 Argument).2 = false ∧
          (TranslateCommand k Last k.MMC_CMD8 Argument).1 ≠ 0xffffffff) := by
  rw [TranslateCommand_command8 k Last Argument hLast hlabels]
  by_cases hsd : Argument = k.CMD8_SD_ARG
  · simp [hsd]
  · simp only [hsd, if_false, false_imp_iff, true_imp_iff, not_false_eq_true, iff_false,
      true_and, decide_eq_true_eq, decide_eq_false_iff_not]
    exact ⟨fun h => hcodes h.symm, fun _ => trivial, fun _ h => ⟨h, hmmc⟩⟩

/-- C11 at a concrete input: from the initial state, an argument that is neither
`CMD8_SD_ARG` nor `CMD8_MMC_ARG`. -/
theorem C11_command8_variants_witness :
    ((TranslateCommand referenceConsts 0xFFFFFFFF referenceConsts.MMC_CMD8 5).1 =
        referenceConsts.CMD8_SD ↔ 5 = referenceConsts.CMD8_SD_ARG) ∧
      (5 = referenceConsts.CMD8_SD_ARG →
        TranslateCommand referenceConsts 0xFFFFFFFF referenceConsts.MMC_CMD8 5 =
          (referenceConsts.CMD8_SD, true)) ∧
      (5 ≠ referenceConsts.CMD8_SD_ARG →
        (TranslateCommand referenceConsts 0xFFFFFFFF referenceConsts.MMC_CMD8 5).1 =
            referenceConsts.CMD8_MMC ∧
          ((TranslateCommand referenceConsts 0xFFFFFFFF referenceConsts.MMC_CMD8 5).2 = true ↔
            5 = referenceConsts.CMD8_MMC_ARG)) ∧
      (5 ≠ referenceConsts.CMD8_SD_ARG → 5 ≠ referenceConsts.CMD8_MMC_ARG →
        (TranslateCommand referenceConsts 0xFFFFFFFF referenceConsts.MMC_CMD8 5).2 = false ∧
          (TranslateCommand referenceConsts 0xFFFFFFFF referenceConsts.MMC_CMD8 5).1 ≠
            0xffffffff) :=
  C11_command8_variants referenceConsts 0xFFFFFFFF 5 (by decide) (by decide) (by decide)
    (by decide)

/-! ## The stages of a dispatch -/

theorem MMCSendCommand.dispatch_eq (k : Consts) (w : World) (IsAppCmd : Bool)
    (MmcCmd Argument : Nat) :
    MMCSendCommand.dispatch k w IsAppCmd MmcCmd Argument =
      if (PollRegisterWithMask k w Register.MMCHS_PRES_STATE
          (MMCSendCommand.CmdSendOKMask k MmcCmd) 0).1 = EFI_TIMEOUT then
        MMCSendCommand.Exit
          (debugReads k (PollRegisterWithMask k w Register.MMCHS_PRES_STATE
            (MMCSendCommand.CmdSendOKMask k MmcCmd) 0).2
            [Register.MMCHS_PRES_STATE, Register.MMCHS_INT_STAT]) EFI_TIMEOUT MmcCmd
      else
        MMCSendCommand.complete k
          (MMCSendCommand.programmed k (PollRegisterWithMask k w Register.MMCHS_PRES_STATE
            (MMCSendCommand.CmdSendOKMask k MmcCmd) 0).2 IsAppCmd MmcCmd Argument) MmcCmd :=
  rfl

theorem MMCSendCommand_eq_dispatch (k : Consts) (w : World) (Command Argument : Nat)
    (hign : IgnoreCommand k Command = false)
    (hnat : (TranslateCommand k w.LastExecutedCommand Command Argument).1 ≠ 0xffffffff) :
    MMCSendCommand k w Command Argument =
      MMCSendCommand.dispatch k
        (ASSERT w (TranslateCommand k w.LastExecutedCommand Command Argument).2)
        (decide (w.LastExecutedCommand = k.CMD55))
        (TranslateCommand k w.LastExecutedCommand Command Argument).1 Argument := by
  unfold MMCSendCommand
  simp only [hign, Bool.false_eq_true, if_false, if_neg hnat]

theorem ASSERT_Mmio_Reads (w : World) (c : Bool) :
    (ASSERT w c).Mmio = w.Mmio ∧ (ASSERT w c).Reads = w.Reads := by
  unfold ASSERT
  split_ifs <;> exact ⟨rfl, rfl⟩

theorem MMCSendCommand.complete_appended (k : Consts) (w : World) (MmcCmd : Nat) :
    Appended (fun e => Event.isPolling e = true) w (MMCSendCommand.complete k w MmcCmd).2 := by
  have hloop := MMCSendCommand.statusLoop_appended k k.MAX_RETRY_COUNT 0 w
  unfold MMCSendCommand.complete
  simp only []
  generalize MMCSendCommand.statusLoop k k.MAX_RETRY_COUNT 0 w = l at hloop
  obtain ⟨l1, l2⟩ := l
  cases l1 with
  | error =>
    simp only
    obtain ⟨evs, ht, hp⟩ := hloop
    exact ⟨evs, by rw [MMCSendCommand.Exit_Trace]; exact ht, hp⟩
  | finished rc =>
    simp only
    have hstall : Appended (fun e => Event.isPolling e = true) w
        (Stall l2 k.STALL_AFTER_SEND_CMD_US) :=
      Appended.trans hloop (Appended.stall _ _ _ rfl)
    split_ifs with hrc
    · have hdbg : Appended (fun e => Event.isPolling e = true)
          (Stall l2 k.STALL_AFTER_SEND_CMD_US)
          (debugReads k (Stall l2 k.STALL_AFTER_SEND_CMD_US) [Register.MMCHS_PRES_STATE]) :=
        Appended.mono (fun e h => h.2) (debugReads_appended k _ _)
      obtain ⟨evs, ht, hp⟩ := Appended.trans hstall hdbg
      exact ⟨evs, by rw [MMCSendCommand.Exit_Trace]; exact ht, hp⟩
    · obtain ⟨evs, ht, hp⟩ := hstall
      exact ⟨evs, by rw [MMCSendCommand.Exit_Trace]; exact ht, hp⟩

/-- The block-size step adds no event or a single write to the block-size
register, and a write whenever the native code carries the data-present marker. -/
theorem MMCSendCommand.setBlockSize_events (k : Consts) (w : World) (IsAppCmd IsADTCCmd : Bool)
    (MmcCmd : Nat) :
    ∃ blk, (MMCSendCommand.setBlockSize k w IsAppCmd IsADTCCmd MmcCmd).Trace = w.Trace ++ blk ∧
      (blk = [] ∨ ∃ b, blk = [Event.write Register.MMCHS_BLK b]) ∧
      (IsADTCCmd = true → ∃ b, blk = [Event.write Register.MMCHS_BLK b]) := by
  unfold MMCSendCommand.setBlockSize
  split_ifs with h1 h2 h3 h4
  · exact ⟨_, MmioWrite32_Trace _ _ _, Or.inr ⟨4, rfl⟩, fun _ => ⟨4, rfl⟩⟩
  · exact ⟨_, MmioWrite32_Trace _ _ _, Or.inr ⟨8, rfl⟩, fun _ => ⟨8, rfl⟩⟩
  · exact ⟨_, MmioWrite32_Trace _ _ _, Or.inr ⟨64, rfl⟩, fun _ => ⟨64, rfl⟩⟩
  · exact ⟨_, MmioWrite32_Trace _ _ _, Or.inr ⟨_, rfl⟩, fun _ => ⟨_, rfl⟩⟩
  · exact ⟨[], by simp, Or.inl rfl, fun h => absurd h h4⟩

theorem MMCSendCommand.programmed_Trace (k : Consts) (w : World) (IsAppCmd : Bool)
    (MmcCmd Argument : Nat) :
    ∃ blk, (MMCSendCommand.programmed k w IsAppCmd MmcCmd Argument).Trace =
        w.Trace ++ blk ++
          [Event.read Register.MMCHS_SYSCTL (w.Mmio w.Reads % 2 ^ 32),
           Event.write Register.MMCHS_SYSCTL
             (((w.Mmio w.Reads % 2 ^ 32) &&& not32 k.DTO_MASK) ||| k.DTO_VAL),
           Event.write Register.MMCHS_INT_STAT (k.ALL_EN &&& not32 k.CARD_INS),
           Event.write Register.MMCHS_ARG Argument,
           Event.write Register.MMCHS_CMD MmcCmd] ∧
      (blk = [] ∨ ∃ b, blk = [Event.write Register.MMCHS_BLK b]) ∧
      (MmcCmd &&& k.CMD_R1_ADTC = k.CMD_R1_ADTC →
        ∃ b, blk = [Event.write Register.MMCHS_BLK b]) ∧
      (MMCSendCommand.programmed k w IsAppCmd MmcCmd Argument).Mmio = w.Mmio ∧
      (MMCSendCommand.programmed k w IsAppCmd MmcCmd Argument).Reads = w.Reads + 1 := by
  obtain ⟨blk, hblk, hshape, hadtc⟩ := MMCSendCommand.setBlockSize_events k w IsAppCmd
    (decide (MmcCmd &&& k.CMD_R1_ADTC = k.CMD_R1_ADTC)) MmcCmd
  have hmr : (MMCSendCommand.setBlockSize k w IsAppCmd
      (decide (MmcCmd &&& k.CMD_R1_ADTC = k.CMD_R1_ADTC)) MmcCmd).Mmio = w.Mmio ∧
      (MMCSendCommand.setBlockSize k w IsAppCmd
      (decide (MmcCmd &&& k.CMD_R1_ADTC = k.CMD_R1_ADTC)) MmcCmd).Reads = w.Reads := by
    unfold MMCSendCommand.setBlockSize
    split_ifs <;> exact ⟨rfl, rfl⟩
  refine ⟨blk, ?_, hshape, fun h => hadtc (by simpa using h), ?_, ?_⟩
  · unfold MMCSendCommand.programmed
    simp only [MmioAndThenOr32, MmioWrite32_Trace, MmioRead32_Trace, hblk, List.append_assoc,
      List.cons_append, List.nil_append]
    simp only [MmioRead32, hmr.1, hmr.2]
  · unfold MMCSendCommand.programmed
    exact hmr.1
  · unfold MMCSendCommand.programmed
    show (MMCSendCommand.setBlockSize k w IsAppCmd
      (decide (MmcCmd &&& k.CMD_R1_ADTC = k.CMD_R1_ADTC)) MmcCmd).Reads + 1 = _
    rw [hmr.2]

theorem countP_eq_zero_of_forall (p : Event → Bool) (l : List Event)
    (h : ∀ e ∈ l, p e = false) : l.countP p = 0 := by
  rw [List.countP_eq_zero]
  intro e he
  simp [h e he]

theorem isWriteTo_of_not_isWrite (Reg : Register) (e : Event) (h : Event.isWrite e = false) :
    Event.isWriteTo Reg e = false := by
  cases e <;> simp_all [Event.isWrite, Event.isWriteTo]

theorem isWriteTo_of_isPolling (Reg : Register) (e : Event) (h : Event.isPolling e = true)
    (hReg : Reg ≠ Register.MMCHS_SYSCTL ∧ Reg ≠ Register.MMCHS_INT_STAT) :
    Event.isWriteTo Reg e = false := by
  cases e with
  | write r v =>
    simp only [Event.isWriteTo, decide_eq_false_iff_not]
    intro hr
    subst hr
    cases r <;> simp_all [Event.isPolling]
  | _ => rfl

/-- C12: for a command that is not ignored and has a translation, if none of the
`MAX_RETRY_COUNT` pre-flight reads of the present-state register shows the
readiness mask clear (`CMDI_MASK`, with `DATI_MASK` for data-bearing, non-abort
busy-response and send-status commands), `MMCSendCommand` returns `EFI_TIMEOUT`,
writes no register at all (so no command is sent), and leaves the sentinel in
`LastExecutedCommand`. -/
theorem C12_not_ready_timeout (k : Consts) (w : World) (Command Argument : Nat)
    (h20 : Command ≠ k.MMC_CMD20)
    (hnat : (TranslateCommand k w.LastExecutedCommand Command Argument).1 ≠ 0xffffffff)
    (hbusy : ∀ i, i < k.MAX_RETRY_COUNT →
      (w.Mmio (w.Reads + i) % 2 ^ 32) &&&
        MMCSendCommand.CmdSendOKMask k
          (TranslateCommand k w.LastExecutedCommand Command Argument).1 ≠ 0) :
    (MMCSendCommand k w Command Argument).1 = EFI_TIMEOUT ∧
      (MMCSendCommand k w Command Argument).2.LastExecutedCommand = 0xFFFFFFFF ∧
      (∀ e ∈ eventsSince w (MMCSendCommand k w Command Argument).2,
        Event.isWrite e = false) ∧
      (∀ c, MMCSendCommand.CmdSendOKMask k c =
        if (c &&& k.CMD_R1B = k.CMD_R1B ∧
              c &&& k.TYPE k.CMD_TYPE_ABORT ≠ k.TYPE k.CMD_TYPE_ABORT) ∨
            c &&& k.CMD_R1_ADTC = k.CMD_R1_ADTC ∨ c = k.CMD_SEND_STATUS then
          k.CMDI_MASK ||| k.DATI_MASK
        else k.CMDI_MASK) := by
  have hA := ASSERT_Mmio_Reads w (TranslateCommand k w.LastExecutedCommand Command Argument).2
  have hpoll := PollRegisterWithMask_exhausted k
    (ASSERT w (TranslateCommand k w.LastExecutedCommand Command Argument).2)
    Register.MMCHS_PRES_STATE
    (MMCSendCommand.CmdSendOKMask k (TranslateCommand k w.LastExecutedCommand Command Argument).1)
    0 (by rw [hA.1, hA.2]; exact hbusy)
  have happ := Appended.trans
    (Appended.assert (fun e => Event.isWrite e = false) w
      (TranslateCommand k w.LastExecutedCommand Command Argument).2 rfl)
    (Appended.trans
      (Appended.mono (fun e h => h.1) (PollRegisterWithMask_appended k
        (ASSERT w (TranslateCommand k w.LastExecutedCommand Command Argument).2)
        Register.MMCHS_PRES_STATE
        (MMCSendCommand.CmdSendOKMask k
          (TranslateCommand k w.LastExecutedCommand Command Argument).1) 0))
      (Appended.mono (fun e h => h.1) (debugReads_appended k _
        [Register.MMCHS_PRES_STATE, Register.MMCHS_INT_STAT])))
  rw [MMCSendCommand_eq_dispatch k w Command Argument (IgnoreCommand_eq_false k _ h20) hnat,
    MMCSendCommand.dispatch_eq]
  have hto : (PollRegisterWithMask k
      (ASSERT w (TranslateCommand k w.LastExecutedCommand Command Argument).2)
      Register.MMCHS_PRES_STATE
      (MMCSendCommand.CmdSendOKMask k
        (TranslateCommand k w.LastExecutedCommand Command Argument).1) 0).1 = EFI_TIMEOUT := by
    rw [hpoll]
  rw [if_pos hto]
  refine ⟨MMCSendCommand.Exit_Status _ _ _, ?_, ?_, ?_⟩
  · rw [MMCSendCommand.Exit_Last]
    rfl
  · obtain ⟨evs, ht, hp⟩ := happ
    have : eventsSince w (MMCSendCommand.Exit (debugReads k (PollRegisterWithMask k
        (ASSERT w (TranslateCommand k w.LastExecutedCommand Command Argument).2)
        Register.MMCHS_PRES_STATE
        (MMCSendCommand.CmdSendOKMask k
          (TranslateCommand k w.LastExecutedCommand Command Argument).1) 0).2
        [Register.MMCHS_PRES_STATE, Register.MMCHS_INT_STAT]) EFI_TIMEOUT
        (TranslateCommand k w.LastExecutedCommand Command Argument).1).2 = evs :=
      eventsSince_eq (by rw [MMCSendCommand.Exit_Trace]; exact ht)
    rw [this]
    exact hp
  · intro c
    simp only [MMCSendCommand.CmdSendOKMask, Bool.or_eq_true, Bool.and_eq_true,
      decide_eq_true_eq, or_assoc]

/-- C12 at a concrete input: command 55 from the initial state while the
present-state register shows command-inhibit at each of three polls. -/
theorem C12_not_ready_timeout_witness :
    (MMCSendCommand shortRetryConsts (worldOf 0xFFFFFFFF [1, 1, 1])
        shortRetryConsts.MMC_CMD55 0).1 = EFI_TIMEOUT ∧
      (MMCSendCommand shortRetryConsts (worldOf 0xFFFFFFFF [1, 1, 1])
        shortRetryConsts.MMC_CMD55 0).2.LastExecutedCommand = 0xFFFFFFFF ∧
      (∀ e ∈ eventsSince (worldOf 0xFFFFFFFF [1, 1, 1])
          (MMCSendCommand shortRetryConsts (worldOf 0xFFFFFFFF [1, 1, 1])
            shortRetryConsts.MMC_CMD55 0).2,
        Event.isWrite e = false) :=
  have h := C12_not_ready_timeout shortRetryConsts (worldOf 0xFFFFFFFF [1, 1, 1])
    shortRetryConsts.MMC_CMD55 0 (by decide) (by decide) (by decide)
  ⟨h.1, h.2.1, h.2.2.1⟩

/-- A dispatch whose readiness poll succeeds within the budget: it continues
from the programmed registers, and its events are a write-free prefix, the
block-size step, the five programming accesses and polling traffic. -/
theorem MMCSendCommand_passed (k : Consts) (w : World) (Command Argument : Nat)
    (h20 : Command ≠ k.MMC_CMD20)
    (hnat : (TranslateCommand k w.LastExecutedCommand Command Argument).1 ≠ 0xffffffff)
    (hpass : ∃ i, i < k.MAX_RETRY_COUNT ∧
      (w.Mmio (w.Reads + i) % 2 ^ 32) &&&
        MMCSendCommand.CmdSendOKMask k
          (TranslateCommand k w.LastExecutedCommand Command Argument).1 = 0) :
    MMCSendCommand k w Command Argument =
        MMCSendCommand.complete k
          (MMCSendCommand.programmed k
            (PollRegisterWithMask k
              (ASSERT w (TranslateCommand k w.LastExecutedCommand Command Argument).2)
              Register.MMCHS_PRES_STATE
              (MMCSendCommand.CmdSendOKMask k
                (TranslateCommand k w.LastExecutedCommand Command Argument).1) 0).2
            (decide (w.LastExecutedCommand = k.CMD55))
            (TranslateCommand k w.LastExecutedCommand Command Argument).1 Argument)
          (TranslateCommand k w.LastExecutedCommand Command Argument).1 ∧
      ∃ pre blk x tail,
        eventsSince w (MMCSendCommand k w Command Argument).2 =
          pre ++ blk ++
            [Event.read Register.MMCHS_SYSCTL x,
             Event.write Register.MMCHS_SYSCTL ((x &&& not32 k.DTO_MASK) ||| k.DTO_VAL),
             Event.write Register.MMCHS_INT_STAT (k.ALL_EN &&& not32 k.CARD_INS),
             Event.write Register.MMCHS_ARG Argument,
             Event.write Register.MMCHS_CMD
               (TranslateCommand k w.LastExecutedCommand Command Argument).1] ++ tail ∧
        (∀ e ∈ pre, Event.isWrite e = false) ∧
        (∀ e ∈ tail, Event.isPolling e = true) ∧
        (blk = [] ∨ ∃ b, blk = [Event.write Register.MMCHS_BLK b]) ∧
        ((TranslateCommand k w.LastExecutedCommand Command Argument).1 &&& k.CMD_R1_ADTC =
            k.CMD_R1_ADTC → ∃ b, blk = [Event.write Register.MMCHS_BLK b]) := by
  have hA := ASSERT_Mmio_Reads w (TranslateCommand k w.LastExecutedCommand Command Argument).2
  obtain ⟨i, hi, hsat⟩ := hpass
  have hstat : (PollRegisterWithMask k
      (ASSERT w (TranslateCommand k w.LastExecutedCommand Command Argument).2)
      Register.MMCHS_PRES_STATE
      (MMCSendCommand.CmdSendOKMask k
        (TranslateCommand k w.LastExecutedCommand Command Argument).1) 0).1 ≠ EFI_TIMEOUT := by
    intro hto
    rcases first_or_none (fun i => (w.Mmio (w.Reads + i) % 2 ^ 32) &&&
        MMCSendCommand.CmdSendOKMask k
          (TranslateCommand k w.LastExecutedCommand Command Argument).1 = 0)
        k.MAX_RETRY_COUNT with ⟨j, hj, hs, hf⟩ | hall
    · rw [PollRegisterWithMask_ready k _ Register.MMCHS_PRES_STATE _ 0 j hj
        (by rw [hA.1, hA.2]; exact hs) (by rw [hA.1, hA.2]; exact hf)] at hto
      simp at hto
    · exact hall i hi hsat
  have heq : MMCSendCommand k w Command Argument =
      MMCSendCommand.complete k
        (MMCSendCommand.programmed k
          (PollRegisterWithMask k
            (ASSERT w (TranslateCommand k w.LastExecutedCommand Command Argument).2)
            Register.MMCHS_PRES_STATE
            (MMCSendCommand.CmdSendOKMask k
              (TranslateCommand k w.LastExecutedCommand Command Argument).1) 0).2
          (decide (w.LastExecutedCommand = k.CMD55))
          (TranslateCommand k w.LastExecutedCommand Command Argument).1 Argument)
        (TranslateCommand k w.LastExecutedCommand Command Argument).1 := by
    rw [MMCSendCommand_eq_dispatch k w Command Argument (IgnoreCommand_eq_false k _ h20) hnat,
      MMCSendCommand.dispatch_eq, if_neg hstat]
  refine ⟨heq, ?_⟩
  obtain ⟨a, ha, pa⟩ := Appended.assert (fun e => Event.isWrite e = false) w
    (TranslateCommand k w.LastExecutedCommand Command Argument).2 rfl
  obtain ⟨pl, hpl, ppl⟩ := PollRegisterWithMask_appended k
    (ASSERT w (TranslateCommand k w.LastExecutedCommand Command Argument).2)
    Register.MMCHS_PRES_STATE
    (MMCSendCommand.CmdSendOKMask k
      (TranslateCommand k w.LastExecutedCommand Command Argument).1) 0
  rw [heq]
  generalize (PollRegisterWithMask k
    (ASSERT w (TranslateCommand k w.LastExecutedCommand Command Argument).2)
    Register.MMCHS_PRES_STATE
    (MMCSendCommand.CmdSendOKMask k
      (TranslateCommand k w.LastExecutedCommand Command Argument).1) 0).2 = wp at hpl ⊢
  obtain ⟨blk, hblk, hshape, hadtc, -, -⟩ := MMCSendCommand.programmed_Trace k wp
    (decide (w.LastExecutedCommand = k.CMD55))
    (TranslateCommand k w.LastExecutedCommand Command Argument).1 Argument
  obtain ⟨tail, htail, ptail⟩ := MMCSendCommand.complete_appended k
    (MMCSendCommand.programmed k wp (decide (w.LastExecutedCommand = k.CMD55))
      (TranslateCommand k w.LastExecutedCommand Command Argument).1 Argument)
    (TranslateCommand k w.LastExecutedCommand Command Argument).1
  refine ⟨a ++ pl, blk, wp.Mmio wp.Reads % 2 ^ 32, tail, ?_, ?_, ptail, hshape, hadtc⟩
  · apply eventsSince_eq
    rw [htail, hblk, hpl, ha]
    simp only [List.append_assoc]
  · intro e he
    rcases List.mem_append.1 he with h | h
    · exact pa e h
    · exact (ppl e h).1

/-- C13: for a command that is not ignored, has a translation and passes the
pre-flight readiness poll, the events of `MMCSendCommand` are, in order: a
prefix without register writes, at most one write to the block-size register,
the read-modify-write of the system-control register, the write of the
interrupt-status register, the write of the caller's argument to the argument
register, the write of the native code to the command register, and polling
traffic (which writes only the system-control and interrupt-status registers).
So the argument and command registers are written exactly once each, the
argument first; and when the native code carries the data-present marker the
block-size register is written exactly once, before the argument register. -/
theorem C13_write_order (k : Consts) (w : World) (Command Argument : Nat)
    (h20 : Command ≠ k.MMC_CMD20)
    (hnat : (TranslateCommand k w.LastExecutedCommand Command Argument).1 ≠ 0xffffffff)
    (hpass : ∃ i, i < k.MAX_RETRY_COUNT ∧
      (w.Mmio (w.Reads + i) % 2 ^ 32) &&&
        MMCSendCommand.CmdSendOKMask k
          (TranslateCommand k w.LastExecutedCommand Command Argument).1 = 0) :
    (∃ pre blk x tail,
        eventsSince w (MMCSendCommand k w Command Argument).2 =
          pre ++ blk ++
            [Event.read Register.MMCHS_SYSCTL x,
             Event.write Register.MMCHS_SYSCTL ((x &&& not32 k.DTO_MASK) ||| k.DTO_VAL),
             Event.write Register.MMCHS_INT_STAT (k.ALL_EN &&& not32 k.CARD_INS),
             Event.write Register.MMCHS_ARG Argument,
             Event.write Register.MMCHS_CMD
               (TranslateCommand k w.LastExecutedCommand Command Argument).1] ++ tail ∧
        (∀ e ∈ pre, Event.isWrite e = false) ∧
        (∀ e ∈ tail, Event.isPolling e = true) ∧
        (blk = [] ∨ ∃ b, blk = [Event.write Register.MMCHS_BLK b]) ∧
        ((TranslateCommand k w.LastExecutedCommand Command Argument).1 &&& k.CMD_R1_ADTC =
            k.CMD_R1_ADTC → ∃ b, blk = [Event.write Register.MMCHS_BLK b])) ∧
      (eventsSince w (MMCSendCommand k w Command Argument).2).countP
          (Event.isWriteTo Register.MMCHS_ARG) = 1 ∧
      (eventsSince w (MMCSendCommand k w Command Argument).2).countP
          (Event.isWriteTo Register.MMCHS_CMD) = 1 ∧
      ((TranslateCommand k w.LastExecutedCommand Command Argument).1 &&& k.CMD_R1_ADTC =
          k.CMD_R1_ADTC →
        (eventsSince w (MMCSendCommand k w Command Argument).2).countP
          (Event.isWriteTo Register.MMCHS_BLK) = 1) := by
  obtain ⟨-, pre, blk, x, tail, hev, ppre, ptail, hshape, hadtc⟩ :=
    MMCSendCommand_passed k w Command Argument h20 hnat hpass
  have cpre : ∀ Reg, pre.countP (Event.isWriteTo Reg) = 0 := fun Reg =>
    countP_eq_zero_of_forall _ _ (fun e he => isWriteTo_of_not_isWrite Reg e (ppre e he))
  have ctail : ∀ Reg, Reg ≠ Register.MMCHS_SYSCTL ∧ Reg ≠ Register.MMCHS_INT_STAT →
      tail.countP (Event.isWriteTo Reg) = 0 := fun Reg hReg =>
    countP_eq_zero_of_forall _ _ (fun e he => isWriteTo_of_isPolling Reg e (ptail e he) hReg)
  have cblk : ∀ Reg, Reg ≠ Register.MMCHS_BLK → blk.countP (Event.isWriteTo Reg) = 0 := by
    intro Reg hReg
    rcases hshape with h | ⟨b, h⟩
    · rw [h]
      rfl
    · rw [h]
      simp [List.countP_cons, Event.isWriteTo, hReg.symm]
  refine ⟨⟨pre, blk, x, tail, hev, ppre, ptail, hshape, hadtc⟩, ?_, ?_, ?_⟩
  · rw [hev]
    simp only [List.countP_append, cpre, cblk Register.MMCHS_ARG (by decide),
      ctail Register.MMCHS_ARG ⟨by decide, by decide⟩]
    simp [List.countP_cons, Event.isWriteTo]
  · rw [hev]
    simp only [List.countP_append, cpre, cblk Register.MMCHS_CMD (by decide),
      ctail Register.MMCHS_CMD ⟨by decide, by decide⟩]
    simp [List.countP_cons, Event.isWriteTo]
  · intro h
    obtain ⟨b, hb⟩ := hadtc h
    rw [hev, hb]
    simp only [List.countP_append, cpre, ctail Register.MMCHS_BLK ⟨by decide, by decide⟩]
    simp [List.countP_cons, Event.isWriteTo]

/-- C13 at a concrete input: the data-bearing command 17 from the initial state,
the hardware ready at once and the command completing at the first status read. -/
theorem C13_write_order_witness :
    (eventsSince (worldOf 0xFFFFFFFF [0, 0, 1])
        (MMCSendCommand referenceConsts (worldOf 0xFFFFFFFF [0, 0, 1])
          referenceConsts.MMC_CMD17 7).2).countP (Event.isWriteTo Register.MMCHS_ARG) = 1 ∧
      (eventsSince (worldOf 0xFFFFFFFF [0, 0, 1])
        (MMCSendCommand referenceConsts (worldOf 0xFFFFFFFF [0, 0, 1])
          referenceConsts.MMC_CMD17 7).2).countP (Event.isWriteTo Register.MMCHS_CMD) = 1 ∧
      (eventsSince (worldOf 0xFFFFFFFF [0, 0, 1])
        (MMCSendCommand referenceConsts (worldOf 0xFFFFFFFF [0, 0, 1])
          referenceConsts.MMC_CMD17 7).2).countP (Event.isWriteTo Register.MMCHS_BLK) = 1 :=
  have h := C13_write_order referenceConsts (worldOf 0xFFFFFFFF [0, 0, 1])
    referenceConsts.MMC_CMD17 7 (by decide) (by decide) ⟨0, by decide, by decide⟩
  ⟨h.2.1, h.2.2.1, h.2.2.2 (by decide)⟩

/-! ## The wait for the command status -/

theorem MMCSendCommand.statusLoop_eq (k : Consts) (n rc : Nat) (w : World) :
    MMCSendCommand.statusLoop k n rc w =
      match firstRead (fun v => decide (v &&& k.ERRI ≠ 0) || decide (v &&& k.CC = k.CC))
          w.Mmio n w.Reads with
      | none => (StatusLoopExit.finished (rc + n), failedPolls k Register.MMCHS_INT_STAT n w)
      | some j =>
        if (MmioRead32 (failedPolls k Register.MMCHS_INT_STAT j w)
            Register.MMCHS_INT_STAT).1 &&& k.ERRI ≠ 0 then
          (StatusLoopExit.error,
            (SoftReset k (MmioRead32 (failedPolls k Register.MMCHS_INT_STAT j w)
              Register.MMCHS_INT_STAT).2 k.SRC).2)
        else
          (StatusLoopExit.finished (rc + j),
            MmioWrite32 (MmioRead32 (failedPolls k Register.MMCHS_INT_STAT j w)
              Register.MMCHS_INT_STAT).2 Register.MMCHS_INT_STAT k.CC) := by
  induction n generalizing rc w with
  | zero => rfl
  | succ n ih =>
    unfold MMCSendCommand.statusLoop firstRead
    simp only []
    have hv : (MmioRead32 w Register.MMCHS_INT_STAT).1 = w.Mmio w.Reads % 2 ^ 32 := rfl
    by_cases he : (w.Mmio w.Reads % 2 ^ 32) &&& k.ERRI ≠ 0
    · have hP : (decide ((w.Mmio w.Reads % 2 ^ 32) &&& k.ERRI ≠ 0) ||
          decide ((w.Mmio w.Reads % 2 ^ 32) &&& k.CC = k.CC)) = true := by
        rw [Bool.or_eq_true]
        exact Or.inl (decide_eq_true he)
      rw [hv, if_pos he, if_pos hP]
      simp only [failedPolls]
      rw [hv, if_pos he]
    · by_cases hc : (w.Mmio w.Reads % 2 ^ 32) &&& k.CC = k.CC
      · have hP : (decide ((w.Mmio w.Reads % 2 ^ 32) &&& k.ERRI ≠ 0) ||
            decide ((w.Mmio w.Reads % 2 ^ 32) &&& k.CC = k.CC)) = true := by
          rw [Bool.or_eq_true]
          exact Or.inr (decide_eq_true hc)
        rw [hv, if_neg he, if_pos hc, if_pos hP]
        simp only [failedPolls]
        rw [hv, if_neg he]
        rfl
      · have hP : ¬ ((decide ((w.Mmio w.Reads % 2 ^ 32) &&& k.ERRI ≠ 0) ||
            decide ((w.Mmio w.Reads % 2 ^ 32) &&& k.CC = k.CC)) = true) := by
          rw [Bool.or_eq_true]
          rintro (h | h)
          · exact he (of_decide_eq_true h)
          · exact hc (of_decide_eq_true h)
        rw [hv, if_neg he, if_neg hc, if_neg hP, ih]
        show (match firstRead (fun v => decide (v &&& k.ERRI ≠ 0) || decide (v &&& k.CC = k.CC))
          w.Mmio n (w.Reads + 1) with
          | none => _
          | some j => _) = _
        cases firstRead (fun v => decide (v &&& k.ERRI ≠ 0) || decide (v &&& k.CC = k.CC))
            w.Mmio n (w.Reads + 1) with
        | none =>
          simp only [Option.map_none']
          rw [failedPolls]
          congr 2
          omega
        | some j =>
          simp only [Option.map_some']
          rw [failedPolls]
          split_ifs
          · rfl
          · congr 2
            omega

theorem SoftReset_Trace (k : Consts) (w : World) (Mask : Nat) :
    ∃ rest, (SoftReset k w Mask).2.Trace =
        w.Trace ++
          [Event.read Register.MMCHS_SYSCTL (w.Mmio w.Reads % 2 ^ 32),
           Event.write Register.MMCHS_SYSCTL ((w.Mmio w.Reads % 2 ^ 32) ||| Mask)] ++ rest ∧
      ∀ e ∈ rest, Event.isWrite e = false := by
  obtain ⟨rest, hrest, prest⟩ := PollRegisterWithMask_appended k
    (MmioOr32 w Register.MMCHS_SYSCTL Mask) Register.MMCHS_SYSCTL Mask 0
  have hor : (MmioOr32 w Register.MMCHS_SYSCTL Mask).Trace =
      w.Trace ++
        [Event.read Register.MMCHS_SYSCTL (w.Mmio w.Reads % 2 ^ 32),
         Event.write Register.MMCHS_SYSCTL ((w.Mmio w.Reads % 2 ^ 32) ||| Mask)] := by
    simp [MmioOr32, MmioWrite32_Trace, MmioRead32_Trace, MmioRead32]
  refine ⟨rest, ?_, fun e he => (prest e he).1⟩
  unfold SoftReset
  simp only []
  split_ifs <;> rw [hrest, hor]

theorem read_failedPolls_spec (k : Consts) (Reg : Register) (j : Nat) (w : World) :
    (MmioRead32 (failedPolls k Reg j w) Reg).1 = w.Mmio (w.Reads + j) % 2 ^ 32 ∧
      (MmioRead32 (failedPolls k Reg j w) Reg).2.Mmio = w.Mmio ∧
      (MmioRead32 (failedPolls k Reg j w) Reg).2.Reads = w.Reads + j + 1 ∧
      (MmioRead32 (failedPolls k Reg j w) Reg).2.Trace =
        w.Trace ++ (failedPollEvents k Reg w.Mmio w.Reads j ++
          [Event.read Reg (w.Mmio (w.Reads + j) % 2 ^ 32)]) := by
  obtain ⟨h1, h2, -, h4⟩ := failedPolls_spec k Reg j w
  refine ⟨?_, h1, ?_, ?_⟩
  · show (failedPolls k Reg j w).Mmio (failedPolls k Reg j w).Reads % 2 ^ 32 = _
    rw [h1, h2]
  · show (failedPolls k Reg j w).Reads + 1 = _
    rw [h2]
  · rw [MmioRead32_Trace, h4, List.append_assoc]
    show _ ++ (_ ++ [Event.read Reg ((failedPolls k Reg j w).Mmio (failedPolls k Reg j w).Reads
      % 2 ^ 32)]) = _
    rw [h1, h2]

/-- C19: from the world `wc` right after the write of the command register, the
outcome of `MMCSendCommand` is decided by the first of the `MAX_RETRY_COUNT`
interrupt-status reads that shows `ERRI` or `CC`.  If that read shows `ERRI`
(whether or not it shows `CC`, and whatever the command), the soft reset of the
command sub-block follows at once (the system-control register is read and
written back with `SRC` set, then polled) and the status is `EFI_DEVICE_ERROR`;
if it shows `CC` and not `ERRI`, `CC` is written to the interrupt-status
register, the settle delay follows and the status is `EFI_SUCCESS`; if none of
the reads shows either, the status is `EFI_TIMEOUT` and nothing is written.  A
call of `MMCSendCommand` that passes translation and the readiness poll is such
a run. -/
theorem C19_command_status (k : Consts) (wc : World) (MmcCmd : Nat) :
    (∀ j, j < k.MAX_RETRY_COUNT →
        ((wc.Mmio (wc.Reads + j) % 2 ^ 32) &&& k.ERRI ≠ 0 ∨
          (wc.Mmio (wc.Reads + j) % 2 ^ 32) &&& k.CC = k.CC) →
        (∀ i, i < j → ¬ ((wc.Mmio (wc.Reads + i) % 2 ^ 32) &&& k.ERRI ≠ 0 ∨
          (wc.Mmio (wc.Reads + i) % 2 ^ 32) &&& k.CC = k.CC)) →
        ((wc.Mmio (wc.Reads + j) % 2 ^ 32) &&& k.ERRI ≠ 0 →
          (MMCSendCommand.complete k wc MmcCmd).1 = EFI_DEVICE_ERROR ∧
            ∃ rest,
              eventsSince wc (MMCSendCommand.complete k wc MmcCmd).2 =
                failedPollEvents k Register.MMCHS_INT_STAT wc.Mmio wc.Reads j ++
                  [Event.read Register.MMCHS_INT_STAT (wc.Mmio (wc.Reads + j) % 2 ^ 32),
                   Event.read Register.MMCHS_SYSCTL (wc.Mmio (wc.Reads + j + 1) % 2 ^ 32),
                   Event.write Register.MMCHS_SYSCTL
                     ((wc.Mmio (wc.Reads + j + 1) % 2 ^ 32) ||| k.SRC)] ++ rest ∧
              ∀ e ∈ rest, Event.isWrite e = false) ∧
        ((wc.Mmio (wc.Reads + j) % 2 ^ 32) &&& k.ERRI = 0 →
          (MMCSendCommand.complete k wc MmcCmd).1 = EFI_SUCCESS ∧
            eventsSince wc (MMCSendCommand.complete k wc MmcCmd).2 =
              failedPollEvents k Register.MMCHS_INT_STAT wc.Mmio wc.Reads j ++
                [Event.read Register.MMCHS_INT_STAT (wc.Mmio (wc.Reads + j) % 2 ^ 32),
                 Event.write Register.MMCHS_INT_STAT k.CC,
                 Event.stall k.STALL_AFTER_SEND_CMD_US])) ∧
      ((∀ i, i < k.MAX_RETRY_COUNT →
          ¬ ((wc.Mmio (wc.Reads + i) % 2 ^ 32) &&& k.ERRI ≠ 0 ∨
            (wc.Mmio (wc.Reads + i) % 2 ^ 32) &&& k.CC = k.CC)) →
        (MMCSendCommand.complete k wc MmcCmd).1 = EFI_TIMEOUT ∧
          ∀ e ∈ eventsSince wc (MMCSendCommand.complete k wc MmcCmd).2,
            Event.isWrite e = false) ∧
      (∀ (w : World) (Command Argument : Nat), Command ≠ k.MMC_CMD20 →
        (TranslateCommand k w.LastExecutedCommand Command Argument).1 ≠ 0xffffffff →
        (∃ i, i < k.MAX_RETRY_COUNT ∧
          (w.Mmio (w.Reads + i) % 2 ^ 32) &&&
            MMCSendCommand.CmdSendOKMask k
              (TranslateCommand k w.LastExecutedCommand Command Argument).1 = 0) →
        MMCSendCommand k w Command Argument =
          MMCSendCommand.complete k
            (MMCSendCommand.programmed k
              (PollRegisterWithMask k
                (ASSERT w (TranslateCommand k w.LastExecutedCommand Command Argument).2)
                Register.MMCHS_PRES_STATE
                (MMCSendCommand.CmdSendOKMask k
                  (TranslateCommand k w.LastExecutedCommand Command Argument).1) 0).2
              (decide (w.LastExecutedCommand = k.CMD55))
              (TranslateCommand k w.LastExecutedCommand Command Argument).1 Argument)
            (TranslateCommand k w.LastExecutedCommand Command Argument).1) := by
  have hP : ∀ i, ((fun v => decide (v &&& k.ERRI ≠ 0) || decide (v &&& k.CC = k.CC))
      (wc.Mmio (wc.Reads + i) % 2 ^ 32) = true) ↔
      ((wc.Mmio (wc.Reads + i) % 2 ^ 32) &&& k.ERRI ≠ 0 ∨
        (wc.Mmio (wc.Reads + i) % 2 ^ 32) &&& k.CC = k.CC) := by
    intro i
    simp only [Bool.or_eq_true, decide_eq_true_eq]
  refine ⟨?_, ?_, ?_⟩
  · intro j hj hdec hfirst
    have hfr : firstRead (fun v => decide (v &&& k.ERRI ≠ 0) || decide (v &&& k.CC = k.CC))
        wc.Mmio k.MAX_RETRY_COUNT wc.Reads = some j :=
      (firstRead_eq_some_iff _ _ _ _ _).2
        ⟨hj, (hP j).2 hdec, fun i hi => by
          rw [← Bool.not_eq_true]
          exact fun h => hfirst i hi ((hP i).1 h)⟩
    obtain ⟨hv, -, hreads, htrace⟩ := read_failedPolls_spec k Register.MMCHS_INT_STAT j wc
    have hloop := MMCSendCommand.statusLoop_eq k k.MAX_RETRY_COUNT 0 wc
    rw [hfr] at hloop
    simp only [hv] at hloop
    constructor
    · intro he
      rw [if_pos he] at hloop
      have hc : MMCSendCommand.complete k wc MmcCmd =
          MMCSendCommand.Exit (SoftReset k (MmioRead32
            (failedPolls k Register.MMCHS_INT_STAT j wc) Register.MMCHS_INT_STAT).2 k.SRC).2
            EFI_DEVICE_ERROR MmcCmd := by
        unfold MMCSendCommand.complete
        simp only [hloop]
      rw [hc]
      refine ⟨MMCSendCommand.Exit_Status _ _ _, ?_⟩
      obtain ⟨rest, hrest, prest⟩ := SoftReset_Trace k (MmioRead32
        (failedPolls k Register.MMCHS_INT_STAT j wc) Register.MMCHS_INT_STAT).2 k.SRC
      refine ⟨rest, ?_, prest⟩
      apply eventsSince_eq
      rw [MMCSendCommand.Exit_Trace, hrest, htrace]
      rw [(read_failedPolls_spec k Register.MMCHS_INT_STAT j wc).2.1, hreads]
      simp only [List.append_assoc, List.cons_append, List.nil_append]
    · intro he
      have he' : ¬ ((wc.Mmio (wc.Reads + j) % 2 ^ 32) &&& k.ERRI ≠ 0) := by
        simpa using he
      rw [if_neg he'] at hloop
      have hne : ¬ (0 + j = k.MAX_RETRY_COUNT) := by omega
      have hc : MMCSendCommand.complete k wc MmcCmd =
          MMCSendCommand.Exit (Stall (MmioWrite32 (MmioRead32
            (failedPolls k Register.MMCHS_INT_STAT j wc) Register.MMCHS_INT_STAT).2
            Register.MMCHS_INT_STAT k.CC) k.STALL_AFTER_SEND_CMD_US) EFI_SUCCESS MmcCmd := by
        unfold MMCSendCommand.complete
        simp only [hloop, hne, if_false]
      rw [hc]
      refine ⟨MMCSendCommand.Exit_Status _ _ _, ?_⟩
      apply eventsSince_eq
      rw [MMCSendCommand.Exit_Trace, Stall_Trace, MmioWrite32_Trace, htrace]
      simp only [List.append_assoc, List.cons_append, List.nil_append]
  · intro hall
    have hfr : firstRead (fun v => decide (v &&& k.ERRI ≠ 0) || decide (v &&& k.CC = k.CC))
        wc.Mmio k.MAX_RETRY_COUNT wc.Reads = none :=
      (firstRead_eq_none_iff _ _ _ _).2 (fun i hi => by
        rw [← Bool.not_eq_true]
        exact fun h => hall i hi ((hP i).1 h))
    have hloop := MMCSendCommand.statusLoop_eq k k.MAX_RETRY_COUNT 0 wc
    rw [hfr] at hloop
    have hc : MMCSendCommand.complete k wc MmcCmd =
        MMCSendCommand.Exit (debugReads k (Stall
          (failedPolls k Register.MMCHS_INT_STAT k.MAX_RETRY_COUNT wc)
          k.STALL_AFTER_SEND_CMD_US) [Register.MMCHS_PRES_STATE]) EFI_TIMEOUT MmcCmd := by
      unfold MMCSendCommand.complete
      simp only [hloop, Nat.zero_add, if_true]
    rw [hc]
    refine ⟨MMCSendCommand.Exit_Status _ _ _, ?_⟩
    obtain ⟨-, -, -, h4⟩ := failedPolls_spec k Register.MMCHS_INT_STAT k.MAX_RETRY_COUNT wc
    obtain ⟨dbg, hdbg, pdbg⟩ := debugReads_appended k (Stall
      (failedPolls k Register.MMCHS_INT_STAT k.MAX_RETRY_COUNT wc)
      k.STALL_AFTER_SEND_CMD_US) [Register.MMCHS_PRES_STATE]
    have hev : eventsSince wc (MMCSendCommand.Exit (debugReads k (Stall
        (failedPolls k Register.MMCHS_INT_STAT k.MAX_RETRY_COUNT wc)
        k.STALL_AFTER_SEND_CMD_US) [Register.MMCHS_PRES_STATE]) EFI_TIMEOUT MmcCmd).2 =
        failedPollEvents k Register.MMCHS_INT_STAT wc.Mmio wc.Reads k.MAX_RETRY_COUNT ++
          ([Event.stall k.STALL_AFTER_SEND_CMD_US] ++ dbg) := by
      apply eventsSince_eq
      rw [MMCSendCommand.Exit_Trace, hdbg, Stall_Trace, h4]
      simp only [List.append_assoc]
    rw [hev]
    have hpolls : ∀ e ∈ failedPollEvents k Register.MMCHS_INT_STAT wc.Mmio wc.Reads
        k.MAX_RETRY_COUNT, Event.isWrite e = false := by
      generalize wc.Reads = s
      generalize k.MAX_RETRY_COUNT = n
      induction n generalizing s with
      | zero => simp [failedPollEvents]
      | succ n ih =>
        intro e he
        simp only [failedPollEvents, List.mem_cons] at he
        rcases he with h | h | h
        · rw [h]; rfl
        · rw [h]; rfl
        · exact ih (s + 1) e h
    intro e he
    rcases List.mem_append.1 he with h | h
    · exact hpolls e h
    rcases List.mem_append.1 h with h | h
    · rw [List.mem_singleton.1 h]
      rfl
    · exact (pdbg e h).1
  · intro w Command Argument h20 hnat hpass
    exact (MMCSendCommand_passed k w Command Argument h20 hnat hpass).1

/-! ## Block data transfer -/

/-- C14: for `MMCReadBlockData` and `MMCWriteBlockData` and every block address,
if the buffer is null or the length is not a multiple of 4 (6, for example), the
call returns `EFI_INVALID_PARAMETER` and leaves the world as it found it: no
register read or write, no change of the activity indicator; the read leaves the
buffer as it was (the write never stores to it). -/
theorem C14_invalid_arguments (k : Consts) (w : World) (Lba Length : Nat)
    (Buffer : Option (Nat → Nat)) (h : Buffer = none ∨ Length % 4 ≠ 0) :
    MMCReadBlockData k w Lba Length Buffer = some (EFI_INVALID_PARAMETER, w, Buffer) ∧
      MMCWriteBlockData k w Lba Length Buffer = some (EFI_INVALID_PARAMETER, w) ∧
      (∀ B, MMCReadBlockData k w Lba 6 (some B) = some (EFI_INVALID_PARAMETER, w, some B) ∧
        MMCWriteBlockData k w Lba 6 (some B) = some (EFI_INVALID_PARAMETER, w)) := by
  refine ⟨?_, ?_, fun B => ⟨rfl, rfl⟩⟩
  · cases Buffer with
    | none => rfl
    | some B =>
      rcases h with h | h
      · exact absurd h (by simp)
      · simp [MMCReadBlockData, h]
  · cases Buffer with
    | none => rfl
    | some B =>
      rcases h with h | h
      · exact absurd h (by simp)
      · simp [MMCWriteBlockData, h]

/-- C14 at a concrete input: a buffer and the length 6. -/
theorem C14_invalid_arguments_witness :
    MMCReadBlockData referenceConsts (worldOf 0xFFFFFFFF []) 0 6 (some (fun _ => 0)) =
        some (EFI_INVALID_PARAMETER, worldOf 0xFFFFFFFF [], some (fun _ => 0)) ∧
      MMCWriteBlockData referenceConsts (worldOf 0xFFFFFFFF []) 0 6 (some (fun _ => 0)) =
        some (EFI_INVALID_PARAMETER, worldOf 0xFFFFFFFF []) :=
  have h := C14_invalid_arguments referenceConsts (worldOf 0xFFFFFFFF []) 0 6
    (some (fun _ => 0)) (Or.inr (by decide))
  ⟨h.1, h.2.1⟩

theorem dataValues_append (l1 l2 : List Event) :
    dataValues (l1 ++ l2) = dataValues l1 ++ dataValues l2 := by
  simp [dataValues, List.filterMap_append]

theorem dataValues_failedPollEvents (k : Consts) (Mmio : Nat → Nat) (start j : Nat) :
    dataValues (failedPollEvents k Register.MMCHS_INT_STAT Mmio start j) = [] := by
  induction j generalizing start with
  | zero => rfl
  | succ j ih =>
    simp only [failedPollEvents, dataValues, List.filterMap_cons]
    exact ih (start + 1)

theorem dataValues_dataReadEvents_length (Mmio : Nat → Nat) (start n : Nat) :
    (dataValues (dataReadEvents Mmio start n)).length = n := by
  induction n generalizing start with
  | zero => rfl
  | succ n ih =>
    show (Mmio start % 2 ^ 32 :: dataValues (dataReadEvents Mmio (start + 1) n)).length = n + 1
    rw [List.length_cons, ih (start + 1)]

theorem storeWords_nil (B : Nat → Nat) (idx : Nat) : storeWords B idx [] = B := by
  funext i
  unfold storeWords
  have : ¬ (idx ≤ i ∧ i < idx + ([] : List Nat).length) := by
    simp only [List.length_nil]
    omega
  rw [if_neg this]

theorem storeWords_cons (B : Nat → Nat) (idx v : Nat) (l : List Nat) :
    storeWords (fun i => if i = idx then v else B i) (idx + 1) l = storeWords B idx (v :: l) := by
  funext i
  unfold storeWords
  simp only [List.length_cons]
  by_cases h1 : idx + 1 ≤ i ∧ i < idx + 1 + l.length
  · have h2 : idx ≤ i ∧ i < idx + (l.length + 1) := by omega
    rw [if_pos h1, if_pos h2]
    have h3 : i - idx = (i - (idx + 1)) + 1 := by omega
    rw [h3]
    rfl
  · rw [if_neg h1]
    by_cases h4 : i = idx
    · have h2 : idx ≤ i ∧ i < idx + (l.length + 1) := by omega
      rw [if_pos h4, if_pos h2, h4, Nat.sub_self]
      rfl
    · have h2 : ¬ (idx ≤ i ∧ i < idx + (l.length + 1)) := by omega
      rw [if_neg h4, if_neg h2]

theorem storeWords_append (B : Nat → Nat) (idx : Nat) (l1 l2 : List Nat) :
    storeWords (storeWords B idx l1) (idx + l1.length) l2 = storeWords B idx (l1 ++ l2) := by
  induction l1 generalizing B idx with
  | nil => simp [storeWords_nil]
  | cons v l1 ih =>
    rw [← storeWords_cons, List.cons_append, ← storeWords_cons, List.length_cons,
      show idx + (l1.length + 1) = idx + 1 + l1.length by omega]
    exact ih _ _

theorem MMCReadBlockData.words_spec (n : Nat) (w : World) (B : Nat → Nat) (idx : Nat) :
    (MMCReadBlockData.words n w B idx).1.Mmio = w.Mmio ∧
      (MMCReadBlockData.words n w B idx).1.Reads = w.Reads + n ∧
      (MMCReadBlockData.words n w B idx).1.Trace =
        w.Trace ++ dataReadEvents w.Mmio w.Reads n ∧
      (MMCReadBlockData.words n w B idx).2 =
        storeWords B idx (dataValues (dataReadEvents w.Mmio w.Reads n)) := by
  induction n generalizing w B idx with
  | zero =>
    refine ⟨rfl, rfl, ?_, ?_⟩
    · simp [MMCReadBlockData.words, dataReadEvents]
    · simp [MMCReadBlockData.words, dataReadEvents, dataValues, storeWords_nil]
  | succ n ih =>
    obtain ⟨h1, h2, h3, h4⟩ := ih (MmioRead32 w Register.MMCHS_DATA).2
      (fun i => if i = idx then (MmioRead32 w Register.MMCHS_DATA).1 else B i) (idx + 1)
    unfold MMCReadBlockData.words
    refine ⟨h1, ?_, ?_, ?_⟩
    · rw [h2]
      show w.Reads + 1 + n = _
      omega
    · rw [h3, MmioRead32_Trace]
      simp only [dataReadEvents, List.append_assoc, List.singleton_append]
      rfl
    · rw [h4]
      show storeWords _ (idx + 1) (dataValues (dataReadEvents w.Mmio (w.Reads + 1) n)) = _
      rw [storeWords_cons]
      rfl

theorem MMCReadBlockData.poll_eq (k : Consts) (BlockLen n rc : Nat) (w : World)
    (B : Nat → Nat) (idx : Nat) :
    MMCReadBlockData.poll k BlockLen n rc w B idx =
      match firstRead (fun v => decide (v &&& k.BRR ≠ 0)) w.Mmio n w.Reads with
      | none => (rc + n, failedPolls k Register.MMCHS_INT_STAT n w, B)
      | some j =>
        (rc + j,
          SetLed (MMCReadBlockData.words ((BlockLen + 3) / 4)
            (SetLed (MmioWrite32 (MmioRead32 (failedPolls k Register.MMCHS_INT_STAT j w)
              Register.MMCHS_INT_STAT).2 Register.MMCHS_INT_STAT k.BRR) true) B idx).1 false,
          (MMCReadBlockData.words ((BlockLen + 3) / 4)
            (SetLed (MmioWrite32 (MmioRead32 (failedPolls k Register.MMCHS_INT_STAT j w)
              Register.MMCHS_INT_STAT).2 Register.MMCHS_INT_STAT k.BRR) true) B idx).2) := by
  induction n generalizing rc w with
  | zero => rfl
  | succ n ih =>
    unfold MMCReadBlockData.poll firstRead
    simp only []
    have hv : (MmioRead32 w Register.MMCHS_INT_STAT).1 = w.Mmio w.Reads % 2 ^ 32 := rfl
    by_cases hb : (w.Mmio w.Reads % 2 ^ 32) &&& k.BRR ≠ 0
    · rw [hv, if_pos hb, if_pos (decide_eq_true hb)]
      rfl
    · have hP : ¬ (decide ((w.Mmio w.Reads % 2 ^ 32) &&& k.BRR ≠ 0) = true) :=
        fun h => hb (of_decide_eq_true h)
      rw [hv, if_neg hb, if_neg hP, ih]
      show (match firstRead (fun v => decide (v &&& k.BRR ≠ 0)) w.Mmio n (w.Reads + 1) with
        | none => _
        | some j => _) = _
      cases firstRead (fun v => decide (v &&& k.BRR ≠ 0)) w.Mmio n (w.Reads + 1) with
      | none =>
        simp only [Option.map_none']
        rw [failedPolls]
        congr 1
        omega
      | some j =>
        simp only [Option.map_some']
        rw [failedPolls]
        congr 1
        omega

theorem chunkLengths_zero : chunkLengths 0 = [] := rfl

theorem chunkLengths_step (N : Nat) (h : N ≠ 0) :
    chunkLengths N = min N BLEN_512BYTES :: chunkLengths (N - min N BLEN_512BYTES) := by
  have hB : BLEN_512BYTES = 512 := rfl
  rw [hB]
  by_cases hN : 512 ≤ N
  · have hmin : min N 512 = 512 := Nat.min_eq_right hN
    have hq : N / 512 = (N - 512) / 512 + 1 := by omega
    have hr : (N - 512) % 512 = N % 512 := by omega
    rw [hmin]
    unfold chunkLengths
    rw [hq, hr, List.replicate_succ, List.cons_append]
  · have hmin : min N 512 = N := Nat.min_eq_left (by omega)
    have hq : N / 512 = 0 := by omega
    have hr : N % 512 = N := by omega
    rw [hmin, Nat.sub_self, chunkLengths_zero]
    unfold chunkLengths
    rw [hq, hr, if_neg h]
    rfl

/-- The world and the buffer after a chunk whose poll found readiness at its
`j`-th read, the delay after the chunk included. -/
theorem MMCReadBlockData.chunk_spec (k : Consts) (L j : Nat) (w : World) (B : Nat → Nat)
    (idx : Nat) :
    (Stall (SetLed (MMCReadBlockData.words ((L + 3) / 4)
        (SetLed (MmioWrite32 (MmioRead32 (failedPolls k Register.MMCHS_INT_STAT j w)
          Register.MMCHS_INT_STAT).2 Register.MMCHS_INT_STAT k.BRR) true) B idx).1 false)
        k.STALL_AFTER_READ_US).Mmio = w.Mmio ∧
      (Stall (SetLed (MMCReadBlockData.words ((L + 3) / 4)
        (SetLed (MmioWrite32 (MmioRead32 (failedPolls k Register.MMCHS_INT_STAT j w)
          Register.MMCHS_INT_STAT).2 Register.MMCHS_INT_STAT k.BRR) true) B idx).1 false)
        k.STALL_AFTER_READ_US).Reads = w.Reads + j + 1 + (L + 3) / 4 ∧
      (Stall (SetLed (MMCReadBlockData.words ((L + 3) / 4)
        (SetLed (MmioWrite32 (MmioRead32 (failedPolls k Register.MMCHS_INT_STAT j w)
          Register.MMCHS_INT_STAT).2 Register.MMCHS_INT_STAT k.BRR) true) B idx).1 false)
        k.STALL_AFTER_READ_US).Trace =
        w.Trace ++
          ChunkRun.readEvents k w.Mmio { start := w.Reads, polls := j, bytes := L } ∧
      (MMCReadBlockData.words ((L + 3) / 4)
        (SetLed (MmioWrite32 (MmioRead32 (failedPolls k Register.MMCHS_INT_STAT j w)
          Register.MMCHS_INT_STAT).2 Register.MMCHS_INT_STAT k.BRR) true) B idx).2 =
        storeWords B idx (dataValues
          (ChunkRun.readEvents k w.Mmio { start := w.Reads, polls := j, bytes := L })) ∧
      (dataValues
        (ChunkRun.readEvents k w.Mmio { start := w.Reads, polls := j, bytes := L })).length =
        (L + 3) / 4 := by
  obtain ⟨-, hm, hr, ht⟩ := read_failedPolls_spec k Register.MMCHS_INT_STAT j w
  obtain ⟨w1, w2, w3, w4⟩ := MMCReadBlockData.words_spec ((L + 3) / 4)
    (SetLed (MmioWrite32 (MmioRead32 (failedPolls k Register.MMCHS_INT_STAT j w)
      Register.MMCHS_INT_STAT).2 Register.MMCHS_INT_STAT k.BRR) true) B idx
  have hm' : (SetLed (MmioWrite32 (MmioRead32 (failedPolls k Register.MMCHS_INT_STAT j w)
      Register.MMCHS_INT_STAT).2 Register.MMCHS_INT_STAT k.BRR) true).Mmio = w.Mmio := hm
  have hr' : (SetLed (MmioWrite32 (MmioRead32 (failedPolls k Register.MMCHS_INT_STAT j w)
      Register.MMCHS_INT_STAT).2 Register.MMCHS_INT_STAT k.BRR) true).Reads =
      w.Reads + j + 1 := hr
  have ht' : (SetLed (MmioWrite32 (MmioRead32 (failedPolls k Register.MMCHS_INT_STAT j w)
      Register.MMCHS_INT_STAT).2 Register.MMCHS_INT_STAT k.BRR) true).Trace =
      w.Trace ++ (failedPollEvents k Register.MMCHS_INT_STAT w.Mmio w.Reads j ++
        [Event.read Register.MMCHS_INT_STAT (w.Mmio (w.Reads + j) % 2 ^ 32)]) ++
        [Event.write Register.MMCHS_INT_STAT k.BRR] ++ [Event.led true] := by
    show (MmioRead32 (failedPolls k Register.MMCHS_INT_STAT j w)
      Register.MMCHS_INT_STAT).2.Trace ++ _ ++ _ = _
    rw [ht]
  rw [hm', hr'] at w3 w4
  have hdv : dataValues
      (ChunkRun.readEvents k w.Mmio { start := w.Reads, polls := j, bytes := L }) =
      dataValues (dataReadEvents w.Mmio (w.Reads + j + 1) ((L + 3) / 4)) := by
    unfold ChunkRun.readEvents
    simp only [dataValues_append, dataValues_failedPollEvents, List.nil_append]
    simp [dataValues]
  refine ⟨?_, ?_, ?_, ?_, ?_⟩
  · show (MMCReadBlockData.words _ _ B idx).1.Mmio = _
    rw [w1, hm']
  · show (MMCReadBlockData.words _ _ B idx).1.Reads = _
    rw [w2, hr']
  · show (MMCReadBlockData.words _ _ B idx).1.Trace ++ [Event.led false] ++
      [Event.stall k.STALL_AFTER_READ_US] = _
    rw [w3, ht']
    unfold ChunkRun.readEvents
    simp only [List.append_assoc, List.cons_append, List.nil_append]
  · rw [w4, hdv]
  · rw [hdv, dataValues_dataReadEvents_length]

theorem readRuns_cons (k : Consts) (Mmio : Nat → Nat) (L : Nat) (rest : List Nat)
    (start : Nat) :
    readRuns k Mmio (L :: rest) start =
      match firstRead (fun v => decide (v &&& k.BRR ≠ 0)) Mmio k.MAX_RETRY_COUNT start with
      | none => []
      | some j =>
        { start := start, polls := j, bytes := L } ::
          readRuns k Mmio rest (start + j + 1 + (L + 3) / 4) := rfl

/-- The outer loop of `MMCReadBlockData` against the hardware sequence: it
returns (the fuel is enough), having transferred the chunks of `readRuns`; with
`EFI_SUCCESS` and the final clear of `BRR` when these are all the chunks, with
`EFI_TIMEOUT` after `MAX_RETRY_COUNT` unsuccessful polls otherwise. -/
theorem MMCReadBlockData.loop_spec (k : Consts) (fuel : Nat) :
    ∀ (Rem : Nat) (w : World) (B : Nat → Nat) (idx : Nat), Rem < fuel →
      ∃ st w',
        MMCReadBlockData.loop k fuel Rem w B idx =
          some (st, w', storeWords B idx (dataValues (readRunsEvents k w.Mmio
            (readRuns k w.Mmio (chunkLengths Rem) w.Reads)))) ∧
        (((readRuns k w.Mmio (chunkLengths Rem) w.Reads).length = (chunkLengths Rem).length ∧
            st = EFI_SUCCESS ∧
            w'.Trace = w.Trace ++
              readRunsEvents k w.Mmio (readRuns k w.Mmio (chunkLengths Rem) w.Reads) ++
              [Event.write Register.MMCHS_INT_STAT k.BRR]) ∨
          ((readRuns k w.Mmio (chunkLengths Rem) w.Reads).length < (chunkLengths Rem).length ∧
            st = EFI_TIMEOUT ∧
            w'.Trace = w.Trace ++
              readRunsEvents k w.Mmio (readRuns k w.Mmio (chunkLengths Rem) w.Reads) ++
              failedPollEvents k Register.MMCHS_INT_STAT w.Mmio
                (runsEnd w.Reads (readRuns k w.Mmio (chunkLengths Rem) w.Reads))
                k.MAX_RETRY_COUNT ∧
            firstRead (fun v => decide (v &&& k.BRR ≠ 0)) w.Mmio k.MAX_RETRY_COUNT
              (runsEnd w.Reads (readRuns k w.Mmio (chunkLengths Rem) w.Reads)) = none)) := by
  induction fuel with
  | zero =>
    intro Rem w B idx hlt
    exact absurd hlt (Nat.not_lt_zero _)
  | succ fuel ih =>
    intro Rem w B idx hlt
    unfold MMCReadBlockData.loop
    by_cases h0 : Rem = 0
    · subst h0
      rw [if_pos rfl]
      refine ⟨EFI_SUCCESS, MmioWrite32 w Register.MMCHS_INT_STAT k.BRR, ?_,
        Or.inl ⟨rfl, rfl, ?_⟩⟩
      · simp [chunkLengths_zero, readRuns, readRunsEvents, dataValues, storeWords_nil]
      · simp [chunkLengths_zero, readRuns, readRunsEvents, MmioWrite32_Trace]
    · rw [if_neg h0]
      simp only []
      rw [MMCReadBlockData.poll_eq, chunkLengths_step Rem h0, readRuns_cons]
      cases hfr : firstRead (fun v => decide (v &&& k.BRR ≠ 0)) w.Mmio k.MAX_RETRY_COUNT
          w.Reads with
      | none =>
        simp only [Nat.zero_add, if_true]
        obtain ⟨-, -, -, h4⟩ := failedPolls_spec k Register.MMCHS_INT_STAT k.MAX_RETRY_COUNT w
        refine ⟨EFI_TIMEOUT, failedPolls k Register.MMCHS_INT_STAT k.MAX_RETRY_COUNT w, ?_,
          Or.inr ⟨?_, rfl, ?_, ?_⟩⟩
        · simp [readRunsEvents, dataValues, storeWords_nil]
        · simp
        · rw [h4]
          simp [readRunsEvents, runsEnd]
        · simpa [runsEnd] using hfr
      | some j =>
        have hj := ((firstRead_eq_some_iff _ _ _ _ _).1 hfr).1
        have hne : ¬ (0 + j = k.MAX_RETRY_COUNT) := by omega
        simp only [hne, if_false]
        obtain ⟨c1, c2, c3, c4, c5⟩ := MMCReadBlockData.chunk_spec k
          (min Rem BLEN_512BYTES) j w B idx
        have hpos : 0 < min Rem BLEN_512BYTES := by
          have : BLEN_512BYTES = 512 := rfl
          omega
        obtain ⟨st, w', heq, hcase⟩ := ih (Rem - min Rem BLEN_512BYTES)
          (Stall (SetLed (MMCReadBlockData.words ((min Rem BLEN_512BYTES + 3) / 4)
            (SetLed (MmioWrite32 (MmioRead32 (failedPolls k Register.MMCHS_INT_STAT j w)
              Register.MMCHS_INT_STAT).2 Register.MMCHS_INT_STAT k.BRR) true) B idx).1 false)
            k.STALL_AFTER_READ_US)
          (MMCReadBlockData.words ((min Rem BLEN_512BYTES + 3) / 4)
            (SetLed (MmioWrite32 (MmioRead32 (failedPolls k Register.MMCHS_INT_STAT j w)
              Register.MMCHS_INT_STAT).2 Register.MMCHS_INT_STAT k.BRR) true) B idx).2
          (idx + (min Rem BLEN_512BYTES + 3) / 4) (by omega)
        rw [c1, c2, c3] at hcase
        refine ⟨st, w', ?_, ?_⟩
        · rw [heq, c1, c2, c4]
          congr 3
          rw [← c5, storeWords_append, ← dataValues_append]
          rfl
        · simp only [List.length_cons, readRunsEvents, runsEnd]
          rcases hcase with ⟨hl, hs, ht⟩ | ⟨hl, hs, ht, hn⟩
          · refine Or.inl ⟨by rw [hl], hs, ?_⟩
            rw [ht]
            simp only [List.append_assoc]
          · refine Or.inr ⟨by omega, hs, ?_, hn⟩
            rw [ht]
            simp only [List.append_assoc]

theorem failedPollEvents_isWrite (k : Consts) (Reg : Register) (Mmio : Nat → Nat)
    (start j : Nat) : ∀ e ∈ failedPollEvents k Reg Mmio start j, Event.isWrite e = false := by
  induction j generalizing start with
  | zero => simp [failedPollEvents]
  | succ j ih =>
    intro e he
    simp only [failedPollEvents, List.mem_cons] at he
    rcases he with h | h | h
    · rw [h]; rfl
    · rw [h]; rfl
    · exact ih (start + 1) e h

theorem dataReadEvents_isWrite (Mmio : Nat → Nat) (start n : Nat) :
    ∀ e ∈ dataReadEvents Mmio start n, Event.isWrite e = false := by
  induction n generalizing start with
  | zero => simp [dataReadEvents]
  | succ n ih =>
    intro e he
    simp only [dataReadEvents, List.mem_cons] at he
    rcases he with h | h
    · rw [h]; rfl
    · exact ih (start + 1) e h

theorem countP_isReadOf_data (evs : List Event) :
    evs.countP (Event.isReadOf Register.MMCHS_DATA) = (dataValues evs).length := by
  induction evs with
  | nil => rfl
  | cons e evs ih =>
    have hl : dataValues (e :: evs) = dataValues [e] ++ dataValues evs :=
      dataValues_append [e] evs
    rw [List.countP_cons, hl, List.length_append, ih]
    cases e with
    | read r v => cases r <;> simp [Event.isReadOf, dataValues, Nat.add_comm]
    | write r v => simp [Event.isReadOf, dataValues]
    | stall us => simp [Event.isReadOf, dataValues]
    | led b => simp [Event.isReadOf, dataValues]
    | assertFailed => simp [Event.isReadOf, dataValues]

theorem dataValues_readEvents_length (k : Consts) (Mmio : Nat → Nat) (c : ChunkRun) :
    (dataValues (ChunkRun.readEvents k Mmio c)).length = (c.bytes + 3) / 4 := by
  have hdv : dataValues (ChunkRun.readEvents k Mmio c) =
      dataValues (dataReadEvents Mmio (c.start + c.polls + 1) ((c.bytes + 3) / 4)) := by
    unfold ChunkRun.readEvents
    simp only [dataValues_append, dataValues_failedPollEvents, List.nil_append]
    simp [dataValues]
  rw [hdv, dataValues_dataReadEvents_length]

theorem dataValues_readRunsEvents_length (k : Consts) (Mmio : Nat → Nat) (R : List ChunkRun) :
    (dataValues (readRunsEvents k Mmio R)).length =
      ((R.map ChunkRun.bytes).map (fun L => (L + 3) / 4)).sum := by
  induction R with
  | nil => rfl
  | cons c R ih =>
    simp only [readRunsEvents, dataValues_append, List.length_append,
      dataValues_readEvents_length, ih, List.map_cons, List.sum_cons]

theorem countP_intStat_readEvents (k : Consts) (Mmio : Nat → Nat) (c : ChunkRun) :
    (ChunkRun.readEvents k Mmio c).countP (Event.isWriteTo Register.MMCHS_INT_STAT) = 1 := by
  unfold ChunkRun.readEvents
  simp only [List.countP_append,
    countP_eq_zero_of_forall _ _ (fun e he => isWriteTo_of_not_isWrite Register.MMCHS_INT_STAT e
      (failedPollEvents_isWrite k _ Mmio c.start c.polls e he)),
    countP_eq_zero_of_forall _ _ (fun e he => isWriteTo_of_not_isWrite Register.MMCHS_INT_STAT e
      (dataReadEvents_isWrite Mmio _ _ e he))]
  simp [List.countP_cons, Event.isWriteTo]

theorem countP_intStat_readRunsEvents (k : Consts) (Mmio : Nat → Nat) (R : List ChunkRun) :
    (readRunsEvents k Mmio R).countP (Event.isWriteTo Register.MMCHS_INT_STAT) = R.length := by
  induction R with
  | nil => rfl
  | cons c R ih =>
    simp only [readRunsEvents, List.countP_append, countP_intStat_readEvents, ih,
      List.length_cons]
    omega

theorem readRuns_bytes (k : Consts) (Mmio : Nat → Nat) (lens : List Nat) (start : Nat) :
    (readRuns k Mmio lens start).map ChunkRun.bytes =
      lens.take (readRuns k Mmio lens start).length := by
  induction lens generalizing start with
  | nil => rfl
  | cons L rest ih =>
    rw [readRuns_cons]
    cases firstRead (fun v => decide (v &&& k.BRR ≠ 0)) Mmio k.MAX_RETRY_COUNT start with
    | none => rfl
    | some j =>
      simp only [List.map_cons, List.length_cons, List.take_succ_cons]
      rw [ih]

theorem readRuns_ready (k : Consts) (Mmio : Nat → Nat) (lens : List Nat) (start : Nat) :
    ∀ c ∈ readRuns k Mmio lens start,
      c.polls < k.MAX_RETRY_COUNT ∧ (Mmio (c.start + c.polls) % 2 ^ 32) &&& k.BRR ≠ 0 ∧
        ∀ i, i < c.polls → (Mmio (c.start + i) % 2 ^ 32) &&& k.BRR = 0 := by
  induction lens generalizing start with
  | nil =>
    intro c hc
    simp [readRuns] at hc
  | cons L rest ih =>
    intro c hc
    rw [readRuns_cons] at hc
    cases hfr : firstRead (fun v => decide (v &&& k.BRR ≠ 0)) Mmio k.MAX_RETRY_COUNT start with
    | none =>
      rw [hfr] at hc
      simp at hc
    | some j =>
      rw [hfr] at hc
      rcases List.mem_cons.1 hc with h | h
      · obtain ⟨h1, h2, h3⟩ := (firstRead_eq_some_iff _ _ _ _ _).1 hfr
        rw [h]
        refine ⟨h1, of_decide_eq_true h2, fun i hi => ?_⟩
        have := h3 i hi
        simpa using this
      · exact ih _ c h

theorem chunkLengths_length (N : Nat) : (chunkLengths N).length = (N + 511) / 512 := by
  unfold chunkLengths
  split_ifs with h
  · simp only [List.append_nil, List.length_replicate]
    omega
  · simp only [List.length_append, List.length_replicate, List.length_singleton]
    omega

theorem sum_map_replicate (q : Nat) :
    ((List.replicate q 512).map (fun L => (L + 3) / 4)).sum = 128 * q := by
  induction q with
  | zero => rfl
  | succ q ih =>
    rw [List.replicate_succ, List.map_cons, List.sum_cons, ih]
    omega

theorem chunkLengths_words (N : Nat) (hN : N % 4 = 0) :
    ((chunkLengths N).map (fun L => (L + 3) / 4)).sum = N / 4 := by
  unfold chunkLengths
  split_ifs with h
  · rw [List.append_nil, sum_map_replicate]
    omega
  · rw [List.map_append, List.sum_append, sum_map_replicate]
    simp only [List.map_cons, List.map_nil, List.sum_cons, List.sum_nil]
    omega

theorem chunkLengths_take (N c : Nat) (hc : c < (chunkLengths N).length) :
    (chunkLengths N).take c = List.replicate c 512 := by
  have hq : c ≤ N / 512 := by
    rw [chunkLengths_length] at hc
    omega
  unfold chunkLengths
  rw [List.take_append_of_le_length (by rw [List.length_replicate]; exact hq),
    List.take_replicate, Nat.min_eq_left hq]

theorem storeWords_inside (B : Nat → Nat) (vals : List Nat) (i : Nat) (h : i < vals.length) :
    storeWords B 0 vals i = vals.getD i 0 := by
  unfold storeWords
  rw [if_pos ⟨Nat.zero_le _, by omega⟩, Nat.sub_zero]

theorem storeWords_outside (B : Nat → Nat) (vals : List Nat) (i : Nat) (h : vals.length ≤ i) :
    storeWords B 0 vals i = B i := by
  unfold storeWords
  rw [if_neg (by omega)]

/-- A read with a buffer and a length that is a multiple of 4 is the chunk loop
started with the whole length, the caller's buffer and word index 0. -/
theorem MMCReadBlockData_eq_loop (k : Consts) (w : World) (Lba N : Nat) (B : Nat → Nat)
    (hN : N % 4 = 0) :
    MMCReadBlockData k w Lba N (some B) =
      (MMCReadBlockData.loop k (N + 1) N w B 0).map (fun r => (r.1, r.2.1, some r.2.2)) := by
  unfold MMCReadBlockData
  simp only [hN, ne_eq, not_true_eq_false, if_false]

/-- C15: for a buffer and a length `N` that is a multiple of 4, if the readiness
poll of every chunk sees buffer-read-ready within the retry budget,
`MMCReadBlockData` returns `EFI_SUCCESS`. Its events are the chunk runs in order
followed by the final clear of the readiness bit; there are `ceil (N / 512)`
runs, whose byte counts are 512 except a last one of `N mod 512` when that is
not zero; each run has fewer than `MAX_RETRY_COUNT` failed polls and then a read
of the interrupt status with the readiness bit set, which `ChunkRun.readEvents`
follows by the write that clears the bit and by the data reads. The data
register is read `N / 4` times in all, word `i` of the buffer is the `i`-th
value read, and the words from `N / 4` on are untouched. For `N = 1024` the
chunks are two of 512 bytes. -/
theorem C15_read_all_chunks (k : Consts) (w : World) (Lba N : Nat) (B : Nat → Nat)
    (hN : N % 4 = 0)
    (hready : (readRuns k w.Mmio (chunkLengths N) w.Reads).length = (chunkLengths N).length) :
    ∃ w' B',
      MMCReadBlockData k w Lba N (some B) = some (EFI_SUCCESS, w', some B') ∧
      eventsSince w w' =
        readRunsEvents k w.Mmio (readRuns k w.Mmio (chunkLengths N) w.Reads) ++
          [Event.write Register.MMCHS_INT_STAT k.BRR] ∧
      (readRuns k w.Mmio (chunkLengths N) w.Reads).map ChunkRun.bytes = chunkLengths N ∧
      (readRuns k w.Mmio (chunkLengths N) w.Reads).length = (N + 511) / 512 ∧
      (∀ c ∈ readRuns k w.Mmio (chunkLengths N) w.Reads,
        c.polls < k.MAX_RETRY_COUNT ∧ (w.Mmio (c.start + c.polls) % 2 ^ 32) &&& k.BRR ≠ 0) ∧
      (eventsSince w w').countP (Event.isReadOf Register.MMCHS_DATA) = N / 4 ∧
      (∀ i, i < N / 4 → B' i = (dataValues (eventsSince w w')).getD i 0) ∧
      (∀ i, N / 4 ≤ i → B' i = B i) ∧
      chunkLengths 1024 = [512, 512] := by
  obtain ⟨st, w', hloop, hcase⟩ := MMCReadBlockData.loop_spec k (N + 1) N w B 0 (Nat.lt_succ_self N)
  rcases hcase with ⟨_, hst, htr⟩ | ⟨hlt, _, _, _⟩
  · have hev : eventsSince w w' =
        readRunsEvents k w.Mmio (readRuns k w.Mmio (chunkLengths N) w.Reads) ++
          [Event.write Register.MMCHS_INT_STAT k.BRR] := by
      apply eventsSince_eq
      rw [htr, List.append_assoc]
    have hbytes : (readRuns k w.Mmio (chunkLengths N) w.Reads).map ChunkRun.bytes =
        chunkLengths N := by
      rw [readRuns_bytes, hready, List.take_length]
    have hdv : dataValues (eventsSince w w') =
        dataValues (readRunsEvents k w.Mmio (readRuns k w.Mmio (chunkLengths N) w.Reads)) := by
      rw [hev, dataValues_append]
      simp [dataValues]
    have hlen : (dataValues (eventsSince w w')).length = N / 4 := by
      rw [hdv, dataValues_readRunsEvents_length, hbytes, chunkLengths_words N hN]
    refine ⟨w', (storeWords B 0 (dataValues (readRunsEvents k w.Mmio
      (readRuns k w.Mmio (chunkLengths N) w.Reads)))),
      ?_, hev, hbytes, ?_, ?_, ?_, ?_, ?_, ?_⟩
    · rw [MMCReadBlockData_eq_loop k w Lba N B hN, hloop, hst]
      rfl
    · rw [hready, chunkLengths_length]
    · intro c hc
      have h := readRuns_ready k w.Mmio (chunkLengths N) w.Reads c hc
      exact ⟨h.1, h.2.1⟩
    · rw [countP_isReadOf_data, hlen]
    · intro i hi
      rw [← hdv]
      exact storeWords_inside B _ i (by rw [hlen]; exact hi)
    · intro i hi
      rw [← hdv]
      exact storeWords_outside B _ i (by rw [hlen]; exact hi)
    · decide
  · exact absurd hready (Nat.ne_of_lt hlt)

/-- C15 at a concrete input: a read of 8 bytes whose first poll shows
buffer-read-ready; the two data words 7 and 8 land in buffer words 0 and 1. -/
theorem C15_read_all_chunks_witness :
    ∃ w' B',
      MMCReadBlockData referenceConsts (worldOf 0xFFFFFFFF [0x20, 7, 8]) 0 8
          (some (fun _ => 0)) = some (EFI_SUCCESS, w', some B') ∧
      (eventsSince (worldOf 0xFFFFFFFF [0x20, 7, 8]) w').countP
          (Event.isReadOf Register.MMCHS_DATA) = 8 / 4 ∧
      (∀ i, 8 / 4 ≤ i → B' i = 0) :=
  have h := C15_read_all_chunks referenceConsts (worldOf 0xFFFFFFFF [0x20, 7, 8]) 0 8
    (fun _ => 0) (by decide) (by decide)
  h.elim fun w' h1 => h1.elim fun B' h2 =>
    ⟨w', B', h2.1, h2.2.2.2.2.2.1, h2.2.2.2.2.2.2.2.1⟩

/-- C16: for a buffer and a length `N` that is a multiple of 4, if `c` chunks
are transferred and the readiness poll of chunk `c` (counted from 0) does not
see buffer-read-ready in any of its `MAX_RETRY_COUNT` reads,
`MMCReadBlockData` returns `EFI_TIMEOUT`. Its events are the `c` completed runs,
each of 512 bytes, followed by the `MAX_RETRY_COUNT` failed polls and nothing
else: the data register is read `128 * c` times, all before the failed poll,
the interrupt-status register is written `c` times (once per completed chunk,
so the final clear is not performed), buffer words below `128 * c` hold the
data read and the words from `128 * c` on keep their values. -/
theorem C16_read_timeout (k : Consts) (w : World) (Lba N c : Nat) (B : Nat → Nat)
    (hN : N % 4 = 0)
    (hc : (readRuns k w.Mmio (chunkLengths N) w.Reads).length = c)
    (hlt : c < (chunkLengths N).length) :
    ∃ w' B',
      MMCReadBlockData k w Lba N (some B) = some (EFI_TIMEOUT, w', some B') ∧
      eventsSince w w' =
        readRunsEvents k w.Mmio (readRuns k w.Mmio (chunkLengths N) w.Reads) ++
          failedPollEvents k Register.MMCHS_INT_STAT w.Mmio
            (runsEnd w.Reads (readRuns k w.Mmio (chunkLengths N) w.Reads)) k.MAX_RETRY_COUNT ∧
      (∀ i, i < k.MAX_RETRY_COUNT →
        (w.Mmio (runsEnd w.Reads (readRuns k w.Mmio (chunkLengths N) w.Reads) + i) % 2 ^ 32) &&&
          k.BRR = 0) ∧
      (readRuns k w.Mmio (chunkLengths N) w.Reads).map ChunkRun.bytes = List.replicate c 512 ∧
      (eventsSince w w').countP (Event.isReadOf Register.MMCHS_DATA) = 128 * c ∧
      dataValues (eventsSince w w') =
        dataValues (readRunsEvents k w.Mmio (readRuns k w.Mmio (chunkLengths N) w.Reads)) ∧
      (eventsSince w w').countP (Event.isWriteTo Register.MMCHS_INT_STAT) = c ∧
      (∀ i, i < 128 * c → B' i = (dataValues (eventsSince w w')).getD i 0) ∧
      (∀ i, 128 * c ≤ i → B' i = B i) := by
  obtain ⟨st, w', hloop, hcase⟩ := MMCReadBlockData.loop_spec k (N + 1) N w B 0 (Nat.lt_succ_self N)
  rcases hcase with ⟨hall, _, _⟩ | ⟨_, hst, htr, hnone⟩
  · rw [hc] at hall
    exact absurd hall (Nat.ne_of_lt hlt)
  · have hev : eventsSince w w' =
        readRunsEvents k w.Mmio (readRuns k w.Mmio (chunkLengths N) w.Reads) ++
          failedPollEvents k Register.MMCHS_INT_STAT w.Mmio
            (runsEnd w.Reads (readRuns k w.Mmio (chunkLengths N) w.Reads))
            k.MAX_RETRY_COUNT := by
      apply eventsSince_eq
      rw [htr, List.append_assoc]
    have hbytes : (readRuns k w.Mmio (chunkLengths N) w.Reads).map ChunkRun.bytes =
        List.replicate c 512 := by
      rw [readRuns_bytes, hc, chunkLengths_take N c hlt]
    have hdv : dataValues (eventsSince w w') =
        dataValues (readRunsEvents k w.Mmio (readRuns k w.Mmio (chunkLengths N) w.Reads)) := by
      rw [hev, dataValues_append, dataValues_failedPollEvents, List.append_nil]
    have hlen : (dataValues (eventsSince w w')).length = 128 * c := by
      rw [hdv, dataValues_readRunsEvents_length, hbytes, sum_map_replicate]
    refine ⟨w', (storeWords B 0 (dataValues (readRunsEvents k w.Mmio
      (readRuns k w.Mmio (chunkLengths N) w.Reads)))),
      ?_, hev, ?_, hbytes, ?_, hdv, ?_, ?_, ?_⟩
    · rw [MMCReadBlockData_eq_loop k w Lba N B hN, hloop, hst]
      rfl
    · intro i hi
      have h := (firstRead_eq_none_iff _ _ _ _).1 hnone i hi
      simpa using h
    · rw [countP_isReadOf_data, hlen]
    · rw [hev, List.countP_append, countP_intStat_readRunsEvents, hc,
        countP_eq_zero_of_forall _ _ (fun e he =>
          isWriteTo_of_not_isWrite Register.MMCHS_INT_STAT e
            (failedPollEvents_isWrite k _ w.Mmio _ _ e he))]
      rfl
    · intro i hi
      rw [← hdv]
      exact storeWords_inside B _ i (by rw [hlen]; exact hi)
    · intro i hi
      rw [← hdv]
      exact storeWords_outside B _ i (by rw [hlen]; exact hi)

/-- C16 at a concrete input: a read of 8 bytes, with a retry budget of 3, whose
three polls of chunk 0 never show buffer-read-ready. -/
theorem C16_read_timeout_witness :
    ∃ w' B',
      MMCReadBlockData shortRetryConsts (worldOf 0xFFFFFFFF [0, 0, 0]) 0 8
          (some (fun _ => 5)) = some (EFI_TIMEOUT, w', some B') ∧
      (eventsSince (worldOf 0xFFFFFFFF [0, 0, 0]) w').countP
          (Event.isReadOf Register.MMCHS_DATA) = 128 * 0 ∧
      (∀ i, 128 * 0 ≤ i → B' i = 5) :=
  have h := C16_read_timeout shortRetryConsts (worldOf 0xFFFFFFFF [0, 0, 0]) 0 8 0
    (fun _ => 5) (by decide) (by decide) (by decide)
  h.elim fun w' h1 => h1.elim fun B' h2 =>
    ⟨w', B', h2.1, h2.2.2.2.2.1, h2.2.2.2.2.2.2.2.2⟩

/-- C19 at a concrete input: the first interrupt-status read shows neither bit,
the second shows `ERRI` together with `CC`, and the status is
`EFI_DEVICE_ERROR`. -/
theorem C19_command_status_witness :
    (MMCSendCommand.complete referenceConsts (worldOf 0xFFFFFFFF [0, 0x8001]) 0).1 =
      EFI_DEVICE_ERROR :=
  (((C19_command_status referenceConsts (worldOf 0xFFFFFFFF [0, 0x8001]) 0).1 1
    (by decide) (by decide) (by decide)).1 (by decide)).1

/-! ## Response retrieval -/

theorem lor_mod_two_pow (a b n : Nat) : (a ||| b) % 2 ^ n = a % 2 ^ n ||| b % 2 ^ n := by
  apply Nat.eq_of_testBit_eq
  intro i
  simp only [Nat.testBit_mod_two_pow, Nat.testBit_or]
  cases decide (i < n) <;> simp

theorem shiftRight_24_land (x : Nat) (h : x < 2 ^ 32) : (x >>> 24) &&& 0xFF = x >>> 24 := by
  rw [show (0xFF : Nat) = 2 ^ 8 - 1 from rfl, Nat.and_pow_two_sub_one_eq_mod,
    Nat.shiftRight_eq_div_pow]
  omega

theorem shiftLeft_8_mod (x : Nat) : (x <<< 8) % 2 ^ 32 = (x % 2 ^ 24) <<< 8 := by
  rw [Nat.shiftLeft_eq, Nat.shiftLeft_eq]
  omega

/-- One word of the long response as the source computes it, in the form
`((Hi << 8) | (Lo >> 24)) mod 2 ^ 32`. -/
theorem response_word (Hi Lo : Nat) (h : Lo < 2 ^ 32) :
    ((Hi <<< 8) % 2 ^ 32) ||| ((Lo >>> 24) &&& 0xFF) = ((Hi <<< 8) ||| (Lo >>> 24)) % 2 ^ 32 := by
  rw [lor_mod_two_pow, shiftRight_24_land Lo h]
  congr 1
  rw [Nat.shiftRight_eq_div_pow]
  omega

/-- The long-response branch: four reads, in the order of the registers, and
the words it leaves in the buffer. -/
theorem MMCReceiveResponse.long_spec (w : World) (B : Nat → Nat) :
    (MMCReceiveResponse.long w B).1.Trace = w.Trace ++
        [Event.read Register.MMCHS_RSP10 (w.Mmio w.Reads % 2 ^ 32),
         Event.read Register.MMCHS_RSP32 (w.Mmio (w.Reads + 1) % 2 ^ 32),
         Event.read Register.MMCHS_RSP54 (w.Mmio (w.Reads + 2) % 2 ^ 32),
         Event.read Register.MMCHS_RSP76 (w.Mmio (w.Reads + 3) % 2 ^ 32)] ∧
      (MMCReceiveResponse.long w B).1.LastExecutedCommand = w.LastExecutedCommand ∧
      (MMCReceiveResponse.long w B).2 0 = ((w.Mmio w.Reads % 2 ^ 32) <<< 8) % 2 ^ 32 ∧
      (MMCReceiveResponse.long w B).2 1 =
        (((w.Mmio (w.Reads + 1) % 2 ^ 32) <<< 8) % 2 ^ 32) |||
          (((w.Mmio w.Reads % 2 ^ 32) >>> 24) &&& 0xFF) ∧
      (MMCReceiveResponse.long w B).2 2 =
        (((w.Mmio (w.Reads + 2) % 2 ^ 32) <<< 8) % 2 ^ 32) |||
          (((w.Mmio (w.Reads + 1) % 2 ^ 32) >>> 24) &&& 0xFF) ∧
      (MMCReceiveResponse.long w B).2 3 =
        (((w.Mmio (w.Reads + 3) % 2 ^ 32) <<< 8) % 2 ^ 32) |||
          (((w.Mmio (w.Reads + 2) % 2 ^ 32) >>> 24) &&& 0xFF) ∧
      ∀ i, 4 ≤ i → (MMCReceiveResponse.long w B).2 i = B i := by
  refine ⟨?_, rfl, rfl, rfl, rfl, rfl, ?_⟩
  · simp [MMCReceiveResponse.long, MmioRead32]
  · intro i hi
    have h0 : i ≠ 0 := by omega
    have h1 : i ≠ 1 := by omega
    have h2 : i ≠ 2 := by omega
    have h3 : i ≠ 3 := by omega
    simp [MMCReceiveResponse.long, storeWord, h0, h1, h2, h3]

/-- The part of `MMCReceiveResponse` after the buffer is filled: the settle
delay, then only polling traffic (the soft reset after a stop-transmission
command). -/
theorem MMCReceiveResponse_tail (k : Consts) (w : World) (Type_ : Nat) (B : Nat → Nat)
    (p : World × (Nat → Nat))
    (hp : p = if Type_ = k.MMC_RESPONSE_TYPE_R2 then MMCReceiveResponse.long w B
      else ((MmioRead32 w Register.MMCHS_RSP10).2,
        storeWord B 0 (MmioRead32 w Register.MMCHS_RSP10).1))
    (hlast : p.1.LastExecutedCommand = w.LastExecutedCommand) :
    ∃ st w',
      MMCReceiveResponse k w Type_ (some B) = some (st, w', p.2) ∧
      (w.LastExecutedCommand ≠ k.CMD_STOP_TRANSMISSION → st = EFI_SUCCESS) ∧
      ∃ rest, w'.Trace = p.1.Trace ++ ([Event.stall k.STALL_AFTER_REC_RESP_US] ++ rest) ∧
        ∀ e ∈ rest, Event.isPolling e = true := by
  by_cases hstop : w.LastExecutedCommand = k.CMD_STOP_TRANSMISSION
  · obtain ⟨rest, hrest, prest⟩ :=
      SoftReset_appended k (Stall p.1 k.STALL_AFTER_REC_RESP_US) (k.SRC ||| k.SRD)
    refine ⟨(SoftReset k (Stall p.1 k.STALL_AFTER_REC_RESP_US) (k.SRC ||| k.SRD)).1,
      (SoftReset k (Stall p.1 k.STALL_AFTER_REC_RESP_US) (k.SRC ||| k.SRD)).2, ?_,
      fun h => absurd hstop h, rest, ?_, prest⟩
    · have hs : (Stall p.1 k.STALL_AFTER_REC_RESP_US).LastExecutedCommand =
          k.CMD_STOP_TRANSMISSION := by
        show p.1.LastExecutedCommand = _
        rw [hlast, hstop]
      unfold MMCReceiveResponse
      simp only [← hp, hs, if_true]
    · rw [hrest, Stall_Trace, List.append_assoc]
  · refine ⟨EFI_SUCCESS, Stall p.1 k.STALL_AFTER_REC_RESP_US, ?_, fun _ => rfl, [], ?_, ?_⟩
    · have hs : ¬ (Stall p.1 k.STALL_AFTER_REC_RESP_US).LastExecutedCommand =
          k.CMD_STOP_TRANSMISSION := by
        show ¬ p.1.LastExecutedCommand = _
        rw [hlast]
        exact hstop
      unfold MMCReceiveResponse
      simp only [← hp, hs, if_false]
    · rw [Stall_Trace, List.append_nil]
    · intro e he
      simp at he

/-- C17 as stated fails: with `0xAB000000` in `RSP76` and zero in the other
response registers, the long response leaves 0 in `Buffer[0]`, where the
rotation of the claim would put `0xAB`. -/
theorem C17_counterexample :
    (MMCReceiveResponse referenceConsts (worldOf 0xFFFFFFFF [0, 0, 0, 0xAB000000])
        referenceConsts.MMC_RESPONSE_TYPE_R2 (some (fun _ => 0))).map (fun r => r.2.2 0) =
        some 0 ∧
      (specRotatedResponse 0 0 0 0xAB000000).getD 0 0 = 0xAB := by
  decide

/-- C17, amended: for a long (R2) response `MMCReceiveResponse` reads `RSP10`,
`RSP32`, `RSP54`, `RSP76` in this order and returns their 128-bit content
shifted (not rotated) left by one byte: with `R0..R3` the values read,
`Buffer[i] = ((Ri << 8) | (R(i-1) >> 24)) mod 2 ^ 32` for `i = 1, 2, 3` and
`Buffer[0] = (R0 << 8) mod 2 ^ 32`, whose low byte is zero; the top byte of `R3`
appears in no output word (`Buffer[3]` is built from the low three bytes of `R3`
and the top byte of `R2`).  For any other response type only `RSP10` is read,
`Buffer[0]` is its value and no other word is written.  In both cases the settle
delay follows, then only polling traffic, and the status is `EFI_SUCCESS` unless
the last executed command was the stop-transmission command. -/
theorem C17_long_response_shift (k : Consts) (w : World) (Type_ : Nat) (B : Nat → Nat) :
    ∃ st w' B',
      MMCReceiveResponse k w Type_ (some B) = some (st, w', B') ∧
      (w.LastExecutedCommand ≠ k.CMD_STOP_TRANSMISSION → st = EFI_SUCCESS) ∧
      (Type_ = k.MMC_RESPONSE_TYPE_R2 →
        (∃ rest, eventsSince w w' =
            [Event.read Register.MMCHS_RSP10 (w.Mmio w.Reads % 2 ^ 32),
             Event.read Register.MMCHS_RSP32 (w.Mmio (w.Reads + 1) % 2 ^ 32),
             Event.read Register.MMCHS_RSP54 (w.Mmio (w.Reads + 2) % 2 ^ 32),
             Event.read Register.MMCHS_RSP76 (w.Mmio (w.Reads + 3) % 2 ^ 32),
             Event.stall k.STALL_AFTER_REC_RESP_US] ++ rest ∧
          ∀ e ∈ rest, Event.isPolling e = true) ∧
        B' 0 = ((w.Mmio w.Reads % 2 ^ 32) <<< 8) % 2 ^ 32 ∧
        B' 0 % 256 = 0 ∧
        B' 1 = (((w.Mmio (w.Reads + 1) % 2 ^ 32) <<< 8) |||
          ((w.Mmio w.Reads % 2 ^ 32) >>> 24)) % 2 ^ 32 ∧
        B' 2 = (((w.Mmio (w.Reads + 2) % 2 ^ 32) <<< 8) |||
          ((w.Mmio (w.Reads + 1) % 2 ^ 32) >>> 24)) % 2 ^ 32 ∧
        B' 3 = (((w.Mmio (w.Reads + 3) % 2 ^ 32) <<< 8) |||
          ((w.Mmio (w.Reads + 2) % 2 ^ 32) >>> 24)) % 2 ^ 32 ∧
        B' 3 = (((w.Mmio (w.Reads + 3) % 2 ^ 32 % 2 ^ 24) <<< 8) |||
          ((w.Mmio (w.Reads + 2) % 2 ^ 32) >>> 24)) ∧
        ∀ i, 4 ≤ i → B' i = B i) ∧
      (Type_ ≠ k.MMC_RESPONSE_TYPE_R2 →
        (∃ rest, eventsSince w w' =
            [Event.read Register.MMCHS_RSP10 (w.Mmio w.Reads % 2 ^ 32),
             Event.stall k.STALL_AFTER_REC_RESP_US] ++ rest ∧
          ∀ e ∈ rest, Event.isPolling e = true) ∧
        B' 0 = w.Mmio w.Reads % 2 ^ 32 ∧
        ∀ i, i ≠ 0 → B' i = B i) := by
  have hlt : ∀ n, w.Mmio n % 2 ^ 32 < 2 ^ 32 := fun n => Nat.mod_lt _ (by decide)
  by_cases hT : Type_ = k.MMC_RESPONSE_TYPE_R2
  · obtain ⟨htr, hlast, h0, h1, h2, h3, hrest⟩ := MMCReceiveResponse.long_spec w B
    obtain ⟨st, w', hres, hst, rest, hw', prest⟩ :=
      MMCReceiveResponse_tail k w Type_ B (MMCReceiveResponse.long w B)
        (by rw [if_pos hT]) hlast
    refine ⟨st, w', _, hres, hst, fun _ => ⟨⟨rest, ?_, prest⟩, h0, ?_, ?_, ?_, ?_, ?_, hrest⟩,
      fun h => absurd hT h⟩
    · apply eventsSince_eq
      rw [hw', htr, List.append_assoc]
      rfl
    · rw [h0, shiftLeft_8_mod, Nat.shiftLeft_eq]
      omega
    · rw [h1, response_word _ _ (hlt _)]
    · rw [h2, response_word _ _ (hlt _)]
    · rw [h3, response_word _ _ (hlt _)]
    · rw [h3, shiftRight_24_land _ (hlt _), shiftLeft_8_mod]
  · obtain ⟨st, w', hres, hst, rest, hw', prest⟩ :=
      MMCReceiveResponse_tail k w Type_ B
        ((MmioRead32 w Register.MMCHS_RSP10).2,
          storeWord B 0 (MmioRead32 w Register.MMCHS_RSP10).1)
        (by rw [if_neg hT]) rfl
    refine ⟨st, w', _, hres, hst, fun h => absurd h hT, fun _ => ⟨⟨rest, ?_, prest⟩, rfl, ?_⟩⟩
    · apply eventsSince_eq
      rw [hw', MmioRead32_Trace, List.append_assoc]
      rfl
    · intro i hi
      simp [storeWord, hi]

/-- C17 at a concrete input: a long response whose registers hold
`0x11223344`, `0x55667788`, `0x99AABBCC`, `0xDDEEFF00`. -/
theorem C17_long_response_shift_witness :
    ∃ st w' B',
      MMCReceiveResponse referenceConsts
          (worldOf 0xFFFFFFFF [0x11223344, 0x55667788, 0x99AABBCC, 0xDDEEFF00])
          referenceConsts.MMC_RESPONSE_TYPE_R2 (some (fun _ => 0)) = some (st, w', B') ∧
        st = EFI_SUCCESS ∧ B' 0 = 0x22334400 ∧ B' 1 = 0x66778811 ∧ B' 2 = 0xAABBCC55 ∧
        B' 3 = 0xEEFF0099 :=
  (C17_long_response_shift referenceConsts
      (worldOf 0xFFFFFFFF [0x11223344, 0x55667788, 0x99AABBCC, 0xDDEEFF00])
      referenceConsts.MMC_RESPONSE_TYPE_R2 (fun _ => 0)).elim
    fun st h1 => h1.elim fun w' h2 => h2.elim fun B' h =>
      ⟨st, w', B', h.1, h.2.1 (by decide), (h.2.2.1 rfl).2.1,
        (h.2.2.1 rfl).2.2.2.1, (h.2.2.1 rfl).2.2.2.2.1, (h.2.2.1 rfl).2.2.2.2.2.1⟩

/-! ## Lifecycle notification -/

theorem MMCNotifyState.waitStable_appended (k : Consts) (Fuel : Nat) :
    ∀ (w w' : World), MMCNotifyState.waitStable k Fuel w = some w' →
      Appended (fun e => e ≠ Event.assertFailed) w w' := by
  induction Fuel with
  | zero =>
    intro w w' h
    simp [MMCNotifyState.waitStable] at h
  | succ Fuel ih =>
    intro w w' h
    unfold MMCNotifyState.waitStable at h
    have hr : Appended (fun e => e ≠ Event.assertFailed) w
        (MmioRead32 w Register.MMCHS_SYSCTL).2 :=
      Appended.read _ w _ (fun v => by simp)
    by_cases hc : (MmioRead32 w Register.MMCHS_SYSCTL).1 &&& k.ICS_MASK ≠ k.ICS
    · simp only [if_pos hc] at h
      exact Appended.trans hr (ih _ _ h)
    · simp only [if_neg hc, Option.some.injEq] at h
      rw [← h]
      exact hr

theorem isPolling_ne_assertFailed (e : Event) (h : Event.isPolling e = true) :
    e ≠ Event.assertFailed := by
  intro he
  rw [he] at h
  simp [Event.isPolling] at h

/-- The assertion inside `CalculateClockFrequencyDivisor` holds when the clock
service fails or reports a nonzero base frequency. -/
theorem CalculateClockFrequencyDivisor_AssertHeld (k : Consts) (GetClockRate : EFI_STATUS × Nat)
    (Target : Nat) (Want : Bool) (c : ClockDivisorResult)
    (hclock : EFI_ERROR GetClockRate.1 = true ∨ GetClockRate.2 ≠ 0)
    (h : CalculateClockFrequencyDivisor k GetClockRate Target Want = some c) :
    c.AssertHeld = true := by
  unfold CalculateClockFrequencyDivisor at h
  by_cases he : EFI_ERROR GetClockRate.1 = true
  · simp only [he, if_true, Option.some.injEq] at h
    rw [← h]
  · have hb : GetClockRate.2 ≠ 0 := hclock.resolve_left he
    simp only [he] at h
    by_cases ht : Target = 0
    · simp [ht] at h
    · simp only [ht, if_false, Bool.false_eq_true, Option.some.injEq] at h
      rw [← h]
      simp [hb]

/-- The two states that program the controller reach no failed assertion when
the clock service fails or reports a nonzero base frequency. -/
theorem MMCNotifyState_programming_appended (k : Consts) (GetClockRate : EFI_STATUS × Nat)
    (Fuel : Nat) (w : World) (State : MMC_STATE)
    (hState : State = MMC_STATE.MmcHwInitializationState ∨ State = MMC_STATE.MmcStandByState)
    (hclock : EFI_ERROR GetClockRate.1 = true ∨ GetClockRate.2 ≠ 0)
    (r : EFI_STATUS × World) (h : MMCNotifyState k GetClockRate Fuel w State = some r) :
    Appended (fun e => e ≠ Event.assertFailed) w r.2 := by
  have hrd : ∀ (w : World) (Reg : Register),
      Appended (fun e => e ≠ Event.assertFailed) w (MmioRead32 w Reg).2 :=
    fun w Reg => Appended.read _ w Reg (fun v => by simp)
  have hwr : ∀ (w : World) (Reg : Register) (v : Nat),
      Appended (fun e => e ≠ Event.assertFailed) w (MmioWrite32 w Reg v) :=
    fun w Reg v => Appended.write _ w Reg v (by simp)
  rcases hState with hS | hS
  · subst hS
    have hsr : Appended (fun e => e ≠ Event.assertFailed) w (SoftReset k w k.SRA).2 :=
      Appended.mono isPolling_ne_assertFailed (SoftReset_appended k w k.SRA)
    simp only [MMCNotifyState] at h
    by_cases he : EFI_ERROR (SoftReset k w k.SRA).1 = true
    · simp only [if_pos he, Option.some.injEq] at h
      rw [← h]
      exact hsr
    · simp only [if_neg he] at h
      cases hc : CalculateClockFrequencyDivisor k GetClockRate 400000 false with
      | none => simp [hc] at h
      | some c =>
        have ha := CalculateClockFrequencyDivisor_AssertHeld k GetClockRate _ _ c hclock hc
        simp only [hc, ha, ASSERT, if_true] at h
        by_cases hs : EFI_ERROR c.Status = true
        · simp only [if_pos hs, Option.some.injEq] at h
          rw [← h]
          exact hsr
        · simp only [if_neg hs, Option.some.injEq] at h
          rw [← h]
          exact Appended.trans hsr (Appended.trans (hrd _ _)
            (Appended.trans (hwr _ _ _) (hwr _ _ _)))
  · subst hS
    have hand : Appended (fun e => e ≠ Event.assertFailed) w
        (MmioAnd32 w Register.MMCHS_SYSCTL (not32 k.CEN)) :=
      Appended.trans (hrd _ _) (hwr _ _ _)
    simp only [MMCNotifyState] at h
    cases hc : CalculateClockFrequencyDivisor k GetClockRate 25000000 false with
    | none => simp [hc] at h
    | some c =>
      have ha := CalculateClockFrequencyDivisor_AssertHeld k GetClockRate _ _ c hclock hc
      simp only [hc, ha, ASSERT, if_true] at h
      by_cases hs : EFI_ERROR c.Status = true
      · simp only [if_pos hs, Option.some.injEq] at h
        rw [← h]
        exact hand
      · simp only [if_neg hs] at h
        cases hwait : MMCNotifyState.waitStable k Fuel
            (MmioAndThenOr32 (MmioAnd32 w Register.MMCHS_SYSCTL (not32 k.CEN))
              Register.MMCHS_SYSCTL (not32 k.CLKD_MASK) (c.DivisorValue.getD 0)) with
        | none => simp [hwait] at h
        | some ws =>
          simp only [hwait, Option.some.injEq] at h
          rw [← h]
          exact Appended.trans hand (Appended.trans (Appended.trans (hrd _ _) (hwr _ _ _))
            (Appended.trans (MMCNotifyState.waitStable_appended k Fuel _ _ hwait)
              (Appended.trans (hrd _ _) (hwr _ _ _))))

/-- C18 as stated fails: the disconnect state reaches the assertion. -/
theorem C18_counterexample :
    (MMCNotifyState referenceConsts (EFI_SUCCESS, 250000000) 0 (worldOf 0xFFFFFFFF [])
        MMC_STATE.MmcDisconnectState).map (fun r => (r.1, r.2.Trace)) =
      some (EFI_SUCCESS, [Event.assertFailed]) := by
  decide

/-- C18, amended: `MMCNotifyState` takes the states idle, ready, identification,
transfer, sending-data, receiving-data and programming as no-ops: it returns
`EFI_SUCCESS` and leaves the world as it found it (no register read or write, no
failed assertion).  For the disconnect state, the invalid state and any value
that is none of the named states it reaches `ASSERT (0)`: the failed assertion
is the only event, there is no register access, and (where assertions do not
halt) the status is `EFI_SUCCESS`.  The two remaining states, hardware-init and
stand-by, do not reach a failed assertion when the clock service fails or
reports a nonzero base frequency. -/
theorem C18_notify_other_states (k : Consts) (GetClockRate : EFI_STATUS × Nat) (Fuel : Nat)
    (w : World) :
    (∀ State, State ∈ [MMC_STATE.MmcIdleState, MMC_STATE.MmcReadyState,
          MMC_STATE.MmcIdentificationState, MMC_STATE.MmcTransferState,
          MMC_STATE.MmcSendingDataState, MMC_STATE.MmcReceiveDataState,
          MMC_STATE.MmcProgrammingState] →
        MMCNotifyState k GetClockRate Fuel w State = some (EFI_SUCCESS, w)) ∧
      (∀ State, (State = MMC_STATE.MmcDisconnectState ∨ State = MMC_STATE.MmcInvalidState ∨
          ∃ v, State = MMC_STATE.other v) →
        ∃ w', MMCNotifyState k GetClockRate Fuel w State = some (EFI_SUCCESS, w') ∧
          eventsSince w w' = [Event.assertFailed] ∧ w'.Reads = w.Reads ∧
          w'.LastExecutedCommand = w.LastExecutedCommand) ∧
      (∀ State, (State = MMC_STATE.MmcHwInitializationState ∨
          State = MMC_STATE.MmcStandByState) →
        (EFI_ERROR GetClockRate.1 = true ∨ GetClockRate.2 ≠ 0) →
        ∀ r, MMCNotifyState k GetClockRate Fuel w State = some r →
          ∀ e ∈ eventsSince w r.2, e ≠ Event.assertFailed) := by
  refine ⟨?_, ?_, ?_⟩
  · intro State hState
    simp only [List.mem_cons, List.mem_singleton, List.not_mem_nil, or_false] at hState
    rcases hState with h | h | h | h | h | h | h <;> subst h <;> rfl
  · intro State hState
    have hev : eventsSince w (ASSERT w false) = [Event.assertFailed] :=
      eventsSince_eq rfl
    rcases hState with h | h | ⟨v, h⟩ <;> subst h <;>
      exact ⟨ASSERT w false, rfl, hev, rfl, rfl⟩
  · intro State hState hclock r hr
    exact Appended.eventsSince
      (MMCNotifyState_programming_appended k GetClockRate Fuel w State hState hclock r hr)

/-- C18 at a concrete input: the transfer state is a no-op, the invalid state
reaches the assertion. -/
theorem C18_notify_other_states_witness :
    MMCNotifyState referenceConsts (EFI_SUCCESS, 250000000) 0 (worldOf 0xFFFFFFFF [])
        MMC_STATE.MmcTransferState = some (EFI_SUCCESS, worldOf 0xFFFFFFFF []) ∧
      ∃ w', MMCNotifyState referenceConsts (EFI_SUCCESS, 250000000) 0 (worldOf 0xFFFFFFFF [])
          MMC_STATE.MmcInvalidState = some (EFI_SUCCESS, w') ∧
        eventsSince (worldOf 0xFFFFFFFF []) w' = [Event.assertFailed] :=
  have h := C18_notify_other_states referenceConsts (EFI_SUCCESS, 250000000) 0
    (worldOf 0xFFFFFFFF [])
  ⟨h.1 MMC_STATE.MmcTransferState (by decide),
    (h.2.1 MMC_STATE.MmcInvalidState (Or.inr (Or.inl rfl))).elim
      fun w' hw => ⟨w', hw.1, hw.2.1⟩⟩
end ArasanMmcHost
